import Mathlib

/-!
# SecureDrive chaincode: the Paillier-style cryptosystem and the premium aggregator

A shallow embedding of `hlf_network/chaincodes/securedrive/go/main.go`, and of the
registration and login operations of `hlf_network/chaincodes/authentification/go/main.go`.

Conventions of the embedding

* A Go `*big.Int` is a Lean `Int`.  The decimal-string fields `n`, `nsquare`, `p`, `q`,
  `lambda` of `Verifier` and `Decryptor` are carried as the integers they denote (every
  method of the source starts by parsing them with `SetString(_, 10)`).
* A Go call that can return an `error` or panic returns a `Res`.
* The functions of `math/big` are modelled after their documentation: `Mod` and `Div` are
  Euclidean, `Exp(x, y, m)` is `x ^ y mod |m|`, `ModInverse(g, n)` is the inverse of `g`
  in `[0, |n|)` or `nil`.
* A Go `string` is a Lean `String`, its bytes the UTF-8 encoding; `crypto/sha256` is
  embedded as an executable function.  `strconv.ParseFloat` is not modelled and is a
  parameter of `addTripData`.
-/

namespace SecureDrive

/-! ## Results of Go calls -/

/-- Outcome of a Go call: a value, a returned `error` with its message, or a run-time panic
(division by zero, nil dereference, `rand.Int` on a non-positive bound). -/
inductive Res (α : Type) where
  | ok (v : α)
  | error (msg : String)
  | panic
  deriving DecidableEq, Repr

/-- Sequencing of Go calls: the first failure is the outcome. -/
def Res.bind {α β : Type} (x : Res α) (f : α → Res β) : Res β :=
  match x with
  | .ok v => f v
  | .error msg => .error msg
  | .panic => .panic

instance : Monad Res where
  pure := Res.ok
  bind := Res.bind

/-- Use of a `*big.Int` that may be `nil`: dereferencing `nil` panics. -/
def deref (x : Option Int) : Res Int :=
  match x with
  | some v => .ok v
  | none => .panic

/-! ## math/big -/

/-- `Int.Mod(x, y)`: Euclidean modulus, a panic when `y = 0`. -/
def bigMod (x y : Int) : Res Int :=
  if y = 0 then .panic else .ok (x % y)

/-- `Int.Div(x, y)`: Euclidean division, a panic when `y = 0`. -/
def bigDiv (x y : Int) : Res Int :=
  if y = 0 then .panic else .ok (x / y)

/-- Extended Euclid on the remainders `r0, r1`, carrying for each remainder a coefficient
`s` with `r ≡ s * g`; runs until the remainder vanishes (at most `fuel` steps) and returns
the last non-zero remainder with its coefficient. -/
def euclidInv : Nat → Int → Int → Int → Int → Int × Int
  | 0, r0, _, s0, _ => (r0, s0)
  | fuel + 1, r0, r1, s0, s1 =>
    if r1 = 0 then (r0, s0)
    else euclidInv fuel r1 (r0 % r1) s1 (s0 - r0 / r1 * s1)

/-- `Int.ModInverse(g, n)`: the inverse of `g` in the ring `ℤ/nℤ`, in the range `[0, |n|)`;
`nil` (here `none`) when `g` and `n` are not relatively prime.  The sign of `n` is ignored
and a negative `g` is first reduced with `Mod(g, n)`, which panics for `n = 0`. -/
def bigModInverse (g n : Int) : Res (Option Int) :=
  if n = 0 then
    if g < 0 then .panic else .ok (if g = 1 then some 1 else none)
  else
    let a : Int := n.natAbs
    let ds := euclidInv n.natAbs a (g % a) 0 1
    if ds.1 = 1 then .ok (some (ds.2 % a)) else .ok none

/-- `Int.Exp(x, y, m)`: `x ^ y mod |m|`.  For `m = 0` it is `x ^ y`, or `1` when `y ≤ 0`.
For `y < 0` and `m ≠ 0` it is the `|y|`-th power of the inverse of `x`, and `nil` (here
`none`) when `x` has no inverse modulo `m`.  This is the documented value; how the
implementation signs the result for a negative `x` together with a negative `y` is not
modelled, and the theorems on the chaincode raise to a negative power only ciphertexts
reduced modulo `N²`, which are not negative. -/
def bigExp (x y m : Int) : Option Int :=
  if m = 0 then some (if y ≤ 0 then 1 else x ^ y.toNat)
  else if y < 0 then
    match bigModInverse x m with
    | .ok (some inv) => some (inv ^ y.natAbs % m)
    | _ => none
  else some (x ^ y.toNat % m)

/-! ## Key material -/

/-- Go struct `Verifier`: the public modulus, its square as stored, and the owner. -/
structure Verifier where
  N : Int
  NSquare : Int
  OwnerID : String
  deriving DecidableEq, Repr

/-- Go struct `Decryptor`: the factors, the modulus, the secret `lambda`, and the owner. -/
structure Decryptor where
  P : Int
  Q : Int
  N : Int
  Lambda : Int
  OwnerID : String
  deriving DecidableEq, Repr

/-! ## The cryptosystem -/

/-- The values `rand.Int(rand.Reader, N - 1)` can return in `Verifier.Encrypt`: it is
uniform over `[0, N - 1)`. -/
def Verifier.canDraw (v : Verifier) (r : Int) : Prop :=
  0 ≤ r ∧ r < v.N - 1

instance (v : Verifier) (r : Int) : Decidable (v.canDraw r) := by
  unfold Verifier.canDraw; infer_instance

/-- `Verifier.Encrypt(m)`, with `r` the value drawn by `rand.Int(rand.Reader, N - 1)`
(which panics when `N - 1 ≤ 0`): `C = (1 + m N) * r ^ N mod N²`. -/
def Verifier.Encrypt (v : Verifier) (m r : Int) : Res Int :=
  let n := v.N
  if n - 1 ≤ 0 then .panic
  else
    let nsquare := n * n
    (deref (bigExp r n nsquare)).bind fun rExpN =>
    let c := 1 + m * n
    let c := c * rExpN
    bigMod c nsquare

/-- `Verifier.EncryptWithCustomRandom(m, r)`: rejects `r < 1` and `r ≥ N - 1`, then
`C = (1 + m N) * r ^ N mod N²`. -/
def Verifier.EncryptWithCustomRandom (v : Verifier) (m r : Int) : Res Int :=
  let n := v.N
  if r < 1 ∨ r ≥ n - 1 then .error "r must be in the range [1, N-1]"
  else
    let nsquare := n * n
    (deref (bigExp r n nsquare)).bind fun rExpN =>
    let c := 1 + m * n
    let c := c * rExpN
    bigMod c nsquare

/-- `Verifier.ComputeR(C)`: `R = C mod N`. -/
def Verifier.ComputeR (v : Verifier) (C : Int) : Res Int :=
  bigMod C v.N

/-- `Verifier.HomomorphicAddition(C1, C2)`: `C1 * C2 mod N²`. -/
def Verifier.HomomorphicAddition (v : Verifier) (C1 C2 : Int) : Res Int :=
  let n := v.N
  let nsquare := n * n
  bigMod (C1 * C2) nsquare

/-- `Verifier.HomomorphicSum(ciphertexts)`: starting from `1`, multiplies by each
ciphertext in turn and reduces modulo `N²` after each multiplication. -/
def Verifier.HomomorphicSum (v : Verifier) (ciphertexts : List Int) : Res Int :=
  let n := v.N
  let nsquare := n * n
  ciphertexts.foldlM (fun result ciphertext => bigMod (result * ciphertext) nsquare) 1

/-- `Verifier.HomomorphicSubtraction(C1, C2)`: `C1 * C2⁻¹ mod N²`, an error when `C2` has
no inverse modulo `N²`. -/
def Verifier.HomomorphicSubtraction (v : Verifier) (C1 C2 : Int) : Res Int :=
  let n := v.N
  let nsquare := n * n
  (bigModInverse C2 nsquare).bind fun C2Inverse =>
  match C2Inverse with
  | none => .error "Failed to compute modular inverse of C2"
  | some C2Inverse => bigMod (C1 * C2Inverse) nsquare

/-- `Verifier.HomomorphicMultiplication(C, alpha)`: `C ^ alpha mod N²`.  The Go function
never returns an error; its result is the pointer `Exp` returned, `nil` (here `none`) when
`alpha < 0` and `C` has no inverse. -/
def Verifier.HomomorphicMultiplication (v : Verifier) (C alpha : Int) : Option Int :=
  let n := v.N
  let nsquare := n * n
  bigExp C alpha nsquare

/-- `Decryptor.ComputeRPrime(R)`: `R' = R ^ (N⁻¹ mod lambda) mod N`, an error when `N` has
no inverse modulo `lambda`. -/
def Decryptor.ComputeRPrime (d : Decryptor) (R : Int) : Res Int :=
  let lambda := d.Lambda
  let n := d.N
  (bigModInverse n lambda).bind fun nInverseModLambda =>
  match nInverseModLambda with
  | none => .error "Failed to compute modular inverse"
  | some nInverseModLambda => deref (bigExp R nInverseModLambda n)

/-- `Verifier.VerifyAndDecrypt(C, rPrime)`: checks `rPrime ^ N mod N = C mod N`, then
`S = rPrime ^ N mod N²`, and `m = ((C * S⁻¹ mod N²) - 1) / N`. -/
def Verifier.VerifyAndDecrypt (v : Verifier) (C rPrime : Int) : Res Int :=
  let n := v.N
  let nsquare := n * n
  let rPrimePowerN := bigExp rPrime n n
  (bigMod C n).bind fun cModN =>
  (deref rPrimePowerN).bind fun rPrimePowerN =>
  if rPrimePowerN ≠ cModN then .error "Verification failed: rPrime is invalid"
  else
    (deref (bigExp rPrime n nsquare)).bind fun S =>
    (bigModInverse S nsquare).bind fun SInverse =>
    match SInverse with
    | none => .error "Failed to compute modular inverse of S"
    | some SInverse =>
      (bigMod (C * SInverse) nsquare).bind fun CtimesSInverse =>
      let CminusOne := CtimesSInverse - 1
      bigDiv CminusOne n

/-- A valid key pair: `N = p q` for distinct odd primes, `lambda = lcm(p-1, q-1)` coprime
to `N`, the verifier and the decryptor sharing `N`. -/
def ValidKey (v : Verifier) (d : Decryptor) : Prop :=
  ∃ p q : Nat, p.Prime ∧ q.Prime ∧ p ≠ q ∧ Odd p ∧ Odd q ∧
    d.P = p ∧ d.Q = q ∧ d.N = (p : Int) * q ∧ v.N = (p : Int) * q ∧
    d.Lambda = (Nat.lcm (p - 1) (q - 1) : Int) ∧ Int.gcd d.N d.Lambda = 1

/-- `C` is, modulo `N²`, an encryption of `M` under `N`: `C ≡ (1 + M N) ρ ^ N` for some
randomness `ρ` coprime to `N`. -/
def EncOf (N C M : Int) : Prop :=
  ∃ ρ : Int, IsCoprime ρ N ∧ C ≡ (1 + M * N) * ρ ^ N.toNat [ZMOD N * N]

/-! ## A small key pair, used to instantiate the theorems -/

/-- The verifier for `N = 3 * 5`. -/
def exampleVerifier : Verifier := ⟨15, 225, "owner"⟩

/-- The decryptor for `N = 3 * 5`, `lambda = lcm(2, 4) = 4`. -/
def exampleDecryptor : Decryptor := ⟨3, 5, 15, 4, "owner"⟩

/-! ## Records of the ledger -/

/-- Go struct `EncryptedVehicleData`. -/
structure EncryptedVehicleData where
  VehicleID : String
  VehicleType : Int
  PurchaseMileage : Int
  Year : Int
  OwnerID : String
  deriving DecidableEq, Repr

/-- Go struct `EncryptedTripData`. -/
structure EncryptedTripData where
  VehicleID : String
  TripID : String
  Date : String
  Speeding : Int
  HardAccelerations : Int
  EmergencyBrakes : Int
  UnsafeDistance : Int
  HighRiskZones : Int
  TrafficSignalCompliance : Int
  NightDriving : Int
  Mileage : Int
  deriving DecidableEq, Repr

/-- Go struct `CriteriaWeights`; the weights are Go `int`s. -/
structure CriteriaWeights where
  CriteriaWeightsID : String
  WeightTraffic : Int
  WeightSpeed : Int
  WeightAcceleration : Int
  WeightBraking : Int
  WeightDistance : Int
  WeightZone : Int
  WeightTime : Int
  Alpha : Int
  Beta : Int
  deriving DecidableEq, Repr

/-- Go struct `MonthPrime`. -/
structure MonthPrime where
  VehicleID : String
  Month : Int
  Year : Int
  Prime : Int
  deriving DecidableEq, Repr

set_option linter.dupNamespace false in
/-- Go struct `Prime`. -/
structure Prime where
  TripID : String
  Date : String
  Prime : Int
  deriving DecidableEq, Repr

/-- Go struct `EncryptedCalculationResult`. -/
structure EncryptedCalculationResult where
  ResultID : String
  PrimeTotale : Int
  R : Int
  TripID : String
  deriving DecidableEq, Repr

/-! ## The ledger and the JSON codec

The world state maps keys to stored bytes; `GetState` and `PutState` themselves do not
fail.  `encoding/json` is not modelled: the bytes are an abstract type `B` and the codec is
a parameter.  Records whose big-integer fields are JSON `null` are outside the model. -/

/-- The world state read by `GetState` and written by `PutState`: `none` is an absent key. -/
abbrev Store (B : Type) := String → Option B

/-- `stub.PutState(key, value)`. -/
def Store.put {B : Type} (stub : Store B) (key : String) (value : B) : Store B :=
  fun k => if k = key then some value else stub k

/-- `json.Marshal` and `json.Unmarshal` at the record types of the chaincode. -/
structure Json (B : Type) where
  marshalVerifier : Verifier → B
  marshalDecryptor : Decryptor → B
  marshalVehicle : EncryptedVehicleData → B
  marshalTrip : EncryptedTripData → B
  marshalWeights : CriteriaWeights → B
  marshalMonthPrime : MonthPrime → B
  marshalPrime : Prime → B
  marshalResult : EncryptedCalculationResult → B
  /-- The map `{"decryptedPrime": primeValue}` returned by `decryptInsurancePremiumAndUpdate`. -/
  marshalDecryptedPrime : Int → B
  unmarshalVerifier : B → Option Verifier
  unmarshalDecryptor : B → Option Decryptor
  unmarshalVehicle : B → Option EncryptedVehicleData
  unmarshalTrip : B → Option EncryptedTripData
  unmarshalWeights : B → Option CriteriaWeights
  unmarshalMonthPrime : B → Option MonthPrime
  unmarshalPrime : B → Option Prime
  unmarshalResult : B → Option EncryptedCalculationResult

/-- Payload of a `shim.Success` response. -/
inductive Payload (B : Type) where
  | empty
  | json (bytes : B)
  | text (s : String)
  deriving DecidableEq, Repr

/-- A `pb.Response`: `shim.Success(payload)` or `shim.Error(msg)`. -/
inductive Response (B : Type) where
  | success (payload : Payload B)
  | error (msg : String)
  deriving DecidableEq, Repr

/-- Outcome of an invocation: the response together with the world state it leaves, or a
panic of the chaincode. -/
inductive Invocation (B : Type) where
  | done (response : Response B) (stub : Store B)
  | panic

/-! ## Conversions -/

/-- Value of a non-empty string of decimal digits. -/
def parseDigits (cs : List Char) : Option Nat :=
  if cs.isEmpty || !cs.all Char.isDigit then none
  else some (cs.foldl (fun acc c => 10 * acc + (c.toNat - 48)) 0)

/-- `new(big.Int).SetString(s, 10)`: an optional sign followed by decimal digits, the whole
string consumed; `none` when the call reports failure. -/
def setString10 (s : String) : Option Int :=
  match s.data with
  | '-' :: cs => (parseDigits cs).map fun n => -(n : Int)
  | '+' :: cs => (parseDigits cs).map fun n => (n : Int)
  | cs => (parseDigits cs).map fun n => (n : Int)

/-- Two's-complement reduction to the range of `int64`. -/
def wrapInt64 (x : Int) : Int :=
  (x + 2 ^ 63) % 2 ^ 64 - 2 ^ 63

/-- `x.Int64()` on a `*big.Int`: the low 64 bits of `x`. -/
def bigInt64 (x : Int) : Int :=
  wrapInt64 x

/-- White space of `fmt` scanning (`isSpace`). -/
def isSpace (c : Char) : Bool :=
  let n := c.toNat
  (0x09 ≤ n && n ≤ 0x0d) || n = 0x20 || n = 0x85 || n = 0xa0 || n = 0x1680 ||
  (0x2000 ≤ n && n ≤ 0x200a) || n = 0x2028 || n = 0x2029 || n = 0x202f || n = 0x205f ||
  n = 0x3000

/-- `SkipSpace` of `fmt.Sscanf`: skips white space, a newline is an error. -/
def skipSpace : List Char → Option (List Char)
  | [] => some []
  | c :: cs =>
    if c.toNat = 10 then none
    else if isSpace c then skipSpace cs
    else some (c :: cs)

/-- The verb `%d` of `fmt.Sscanf` into an `int`: leading white space, an optional sign, at
least one decimal digit; an error (`none`) also when the value overflows `int64`.  Returns
the value with the rest of the input. -/
def scanInt (input : List Char) : Option (Int × List Char) :=
  match skipSpace input with
  | none => none
  | some cs =>
    let (neg, cs) :=
      match cs with
      | '-' :: rest => (true, rest)
      | '+' :: rest => (false, rest)
      | _ => (false, cs)
    let digits := cs.takeWhile Char.isDigit
    let rest := cs.dropWhile Char.isDigit
    match parseDigits digits with
    | none => none
    | some n =>
      let value : Int := if neg then -(n : Int) else n
      if -(2 ^ 63) ≤ value ∧ value < 2 ^ 63 then some (value, rest) else none

/-- `fmt.Sscanf(date, "%d-%d", &year, &month)`: `none` when it returns an error.  Input left
after the second number is ignored. -/
def sscanfYearMonth (date : String) : Option (Int × Int) :=
  match scanInt date.data with
  | none => none
  | some (year, rest) =>
    match rest with
    | '-' :: rest =>
      match scanInt rest with
      | none => none
      | some (month, _) => some (year, month)
    | _ => none

/-- `extractYearAndMonth(date)`: the year and the month, or the error message. -/
def extractYearAndMonth (date : String) : Except String (Int × Int) :=
  match sscanfYearMonth date with
  | none => .error ("failed to parse date: " ++ date)
  | some (year, month) => .ok (year, month)

/-- Replaces the message of a returned error (`if err != nil { return shim.Error(msg) }`). -/
def Res.withMessage {α : Type} (x : Res α) (msg : String) : Res α :=
  match x with
  | .error _ => .error msg
  | r => r

/-! ## The premium aggregator -/

/-- The behavioural index of `CalculateInsurancePremium` (lines 1886-1930): the seven
weighted metrics, the `HomomorphicSum` of six of them, and the `HomomorphicSubtraction`
of the weighted signal-compliance term.  A returned error carries the message of the
`shim.Error` the caller answers with. -/
def behaviouralIndex (verifier : Verifier) (weights : CriteriaWeights)
    (encryptedTripData : EncryptedTripData) : Res Int :=
  let cTrafficSignalCompliance :=
    verifier.HomomorphicMultiplication encryptedTripData.TrafficSignalCompliance weights.WeightTraffic
  let cSpeeding :=
    verifier.HomomorphicMultiplication encryptedTripData.Speeding weights.WeightSpeed
  let cHardAccelerations :=
    verifier.HomomorphicMultiplication encryptedTripData.HardAccelerations weights.WeightAcceleration
  let cEmergencyBrakes :=
    verifier.HomomorphicMultiplication encryptedTripData.EmergencyBrakes weights.WeightBraking
  let cUnsafeDistance :=
    verifier.HomomorphicMultiplication encryptedTripData.UnsafeDistance weights.WeightDistance
  let cHighRiskZones :=
    verifier.HomomorphicMultiplication encryptedTripData.HighRiskZones weights.WeightZone
  let cNightDriving :=
    verifier.HomomorphicMultiplication encryptedTripData.NightDriving weights.WeightTime
  -- `HomomorphicSum` multiplies by each element of the slice: a `nil` element panics
  (deref cSpeeding).bind fun cSpeeding =>
  (deref cHardAccelerations).bind fun cHardAccelerations =>
  (deref cEmergencyBrakes).bind fun cEmergencyBrakes =>
  (deref cUnsafeDistance).bind fun cUnsafeDistance =>
  (deref cHighRiskZones).bind fun cHighRiskZones =>
  (deref cNightDriving).bind fun cNightDriving =>
  ((verifier.HomomorphicSum [cSpeeding, cHardAccelerations, cEmergencyBrakes,
      cUnsafeDistance, cHighRiskZones, cNightDriving]).withMessage
    "Failed to calculate behavioral index").bind fun cIndiceComportement =>
  (deref cTrafficSignalCompliance).bind fun cTrafficSignalCompliance =>
  (verifier.HomomorphicSubtraction cIndiceComportement cTrafficSignalCompliance).withMessage
    "Failed to perform homomorphic subtraction for compliance"

/-- The total-premium ciphertext of `CalculateInsurancePremium` (lines 1883-1951): the
behavioural index, the PAYD and PHYD terms, and the `HomomorphicSum` with the three
vehicle ciphertexts. -/
def totalPremium (verifier : Verifier) (weights : CriteriaWeights)
    (encryptedVehicleData : EncryptedVehicleData) (encryptedTripData : EncryptedTripData) :
    Res Int :=
  let cKilometrage := encryptedTripData.Mileage
  (behaviouralIndex verifier weights encryptedTripData).bind fun cIndiceComportement =>
  let cPrimePAYD := verifier.HomomorphicMultiplication cKilometrage weights.Alpha
  let cPrimePHYD := verifier.HomomorphicMultiplication cIndiceComportement weights.Beta
  (deref cPrimePAYD).bind fun cPrimePAYD =>
  (deref cPrimePHYD).bind fun cPrimePHYD =>
  (verifier.HomomorphicSum [encryptedVehicleData.VehicleType,
      encryptedVehicleData.PurchaseMileage, encryptedVehicleData.Year,
      cPrimePAYD, cPrimePHYD]).withMessage "Failed to calculate total premium"

/-- `SmartContract.CalculateInsurancePremium(stub, args)`. -/
def CalculateInsurancePremium {B : Type} (J : Json B) (stub : Store B) (args : List String) :
    Invocation B :=
  match args with
  | [vehicleID, tripID, criteriaWeightsID] =>
    let weightsKey := "criteriaweights_" ++ criteriaWeightsID
    match stub weightsKey with
    | none => .done (.error "Criteria weights not found for the given CriteriaWeightsID") stub
    | some weightsBytes =>
    match J.unmarshalWeights weightsBytes with
    | none => .done (.error "Failed to unmarshal criteria weights") stub
    | some weights =>
    let vehicleKey := "vehicle_" ++ vehicleID
    match stub vehicleKey with
    | none => .done (.error "Vehicle data not found for the given VehicleID") stub
    | some vehicleBytes =>
    match J.unmarshalVehicle vehicleBytes with
    | none => .done (.error "Failed to unmarshal encrypted vehicle data") stub
    | some encryptedVehicleData =>
    let ownerID := encryptedVehicleData.OwnerID
    let verifierKey := "verifier_" ++ ownerID
    match stub verifierKey with
    | none => .done (.error "Verifier not found for the given OwnerID") stub
    | some verifierBytes =>
    match J.unmarshalVerifier verifierBytes with
    | none => .done (.error "Failed to unmarshal Verifier") stub
    | some verifier =>
    let tripKey := "trip_" ++ tripID
    match stub tripKey with
    | none => .done (.error "Trip data not found for the given TripID") stub
    | some tripBytes =>
    match J.unmarshalTrip tripBytes with
    | none => .done (.error "Failed to unmarshal encrypted trip data") stub
    | some encryptedTripData =>
    match (totalPremium verifier weights encryptedVehicleData encryptedTripData).bind
        fun cPrimeTotale => (verifier.ComputeR cPrimeTotale).bind
        fun r => .ok (cPrimeTotale, r) with
    | .panic => .panic
    | .error msg => .done (.error msg) stub
    | .ok (cPrimeTotale, r) =>
      let resultID := "result_" ++ tripID
      let encryptedResult : EncryptedCalculationResult :=
        { ResultID := resultID, PrimeTotale := cPrimeTotale, R := r, TripID := tripID }
      let encryptedResultJSON := J.marshalResult encryptedResult
      .done (.success (.json encryptedResultJSON)) (stub.put resultID encryptedResultJSON)
  | _ => .done (.error
      "Incorrect number of arguments. Expecting 3: VehicleID, TripID, CriteriaWeightsID") stub

/-! ## The decryption protocol -/

/-- The key `fmt.Sprintf("monthprime_%s_%d_%d", vehicleID, a, b)`. -/
def monthPrimeKeyOf (vehicleID : String) (a b : Int) : String :=
  "monthprime_" ++ vehicleID ++ "_" ++ toString a ++ "_" ++ toString b

/-- The end of the decrypt-and-update flow, shared by both variants (lines 2138-2193 and
2289-2344): stores the `Prime` record, then creates or increments the `MonthPrime` record.
Returns the error response or the updated month record, with the world state left. -/
def storePrimeAndMonthPrime {B : Type} (J : Json B) (stub : Store B)
    (encryptedResult : EncryptedCalculationResult) (encryptedTripData : EncryptedTripData)
    (primeValue : Int) : Except String MonthPrime × Store B :=
  let prime : Prime :=
    { TripID := encryptedResult.TripID, Date := encryptedTripData.Date, Prime := primeValue }
  let primeKey := "prime_" ++ encryptedResult.TripID
  let primeBytes := J.marshalPrime prime
  let stub := stub.put primeKey primeBytes
  match extractYearAndMonth encryptedTripData.Date with
  | .error msg => (.error ("Invalid date format: " ++ msg), stub)
  | .ok (year, month) =>
    let monthPrimeKey := monthPrimeKeyOf encryptedTripData.VehicleID year month
    match stub monthPrimeKey with
    | none =>
      let monthPrime : MonthPrime :=
        { VehicleID := encryptedTripData.VehicleID, Month := month, Year := year,
          Prime := primeValue }
      (.ok monthPrime, stub.put monthPrimeKey (J.marshalMonthPrime monthPrime))
    | some monthPrimeBytes =>
      match J.unmarshalMonthPrime monthPrimeBytes with
      | none => (.error "Failed to unmarshal MonthPrime", stub)
      | some monthPrime =>
        let monthPrime := { monthPrime with Prime := wrapInt64 (monthPrime.Prime + primeValue) }
        (.ok monthPrime, stub.put monthPrimeKey (J.marshalMonthPrime monthPrime))

/-- `SmartContract.decryptInsurancePremiumAndUpdate(stub, args)`. -/
def decryptInsurancePremiumAndUpdate {B : Type} (J : Json B) (stub : Store B)
    (args : List String) : Invocation B :=
  match args with
  | [tripArg, rPrimeArg] =>
    let resultID := "result_" ++ tripArg
    match setString10 rPrimeArg with
    | none => .done (.error "Failed to parse r_prime into *big.Int") stub
    | some rPrime =>
    match stub resultID with
    | none => .done (.error "EncryptedCalculationResult not found for the given ResultID") stub
    | some resultBytes =>
    match J.unmarshalResult resultBytes with
    | none => .done (.error "Failed to unmarshal EncryptedCalculationResult") stub
    | some encryptedResult =>
    let tripKey := "trip_" ++ encryptedResult.TripID
    match stub tripKey with
    | none => .done (.error "Trip data not found for the given TripID") stub
    | some tripBytes =>
    match J.unmarshalTrip tripBytes with
    | none => .done (.error "Failed to unmarshal EncryptedTripData") stub
    | some encryptedTripData =>
    let vehicleKey := "vehicle_" ++ encryptedTripData.VehicleID
    match stub vehicleKey with
    | none => .done (.error "Vehicle data not found for the given VehicleID") stub
    | some vehicleBytes =>
    match J.unmarshalVehicle vehicleBytes with
    | none => .done (.error "Failed to unmarshal EncryptedVehicleData") stub
    | some encryptedVehicleData =>
    let ownerID := encryptedVehicleData.OwnerID
    let verifierKey := "verifier_" ++ ownerID
    match stub verifierKey with
    | none => .done (.error "Verifier not found for the given OwnerID") stub
    | some verifierBytes =>
    match J.unmarshalVerifier verifierBytes with
    | none => .done (.error "Failed to unmarshal Verifier") stub
    | some verifier =>
    match verifier.VerifyAndDecrypt encryptedResult.PrimeTotale rPrime with
    | .panic => .panic
    | .error msg => .done (.error ("Failed to decrypt prime: " ++ msg)) stub
    | .ok decryptedPrime =>
      let primeValue := bigInt64 decryptedPrime
      match storePrimeAndMonthPrime J stub encryptedResult encryptedTripData primeValue with
      | (.error msg, stub) => .done (.error msg) stub
      | (.ok _, stub) => .done (.success (.json (J.marshalDecryptedPrime primeValue))) stub
  | _ => .done (.error "Incorrect number of arguments. Expecting 2: TripID, r_prime") stub

/-- `SmartContract.decryptInsurancePremiumAndUpdateWithoutParams(stub, args)`: the variant
that loads the decryptor of the owner and computes `rPrime` itself. -/
def decryptInsurancePremiumAndUpdateWithoutParams {B : Type} (J : Json B) (stub : Store B)
    (args : List String) : Invocation B :=
  match args with
  | [resultID] =>
    match stub resultID with
    | none => .done (.error "EncryptedCalculationResult not found for the given ResultID") stub
    | some resultBytes =>
    match J.unmarshalResult resultBytes with
    | none => .done (.error "Failed to unmarshal EncryptedCalculationResult") stub
    | some encryptedResult =>
    let tripKey := "trip_" ++ encryptedResult.TripID
    match stub tripKey with
    | none => .done (.error "Trip data not found for the given TripID") stub
    | some tripBytes =>
    match J.unmarshalTrip tripBytes with
    | none => .done (.error "Failed to unmarshal EncryptedTripData") stub
    | some encryptedTripData =>
    let vehicleKey := "vehicle_" ++ encryptedTripData.VehicleID
    match stub vehicleKey with
    | none => .done (.error "Vehicle data not found for the given VehicleID") stub
    | some vehicleBytes =>
    match J.unmarshalVehicle vehicleBytes with
    | none => .done (.error "Failed to unmarshal EncryptedVehicleData") stub
    | some encryptedVehicleData =>
    let ownerID := encryptedVehicleData.OwnerID
    let verifierKey := "verifier_" ++ ownerID
    match stub verifierKey with
    | none => .done (.error "Verifier not found for the given OwnerID") stub
    | some verifierBytes =>
    match J.unmarshalVerifier verifierBytes with
    | none => .done (.error "Failed to unmarshal Verifier") stub
    | some verifier =>
    let decryptorKey := "decryptor_" ++ ownerID
    match stub decryptorKey with
    | none => .done (.error "Verifier not found for the given OwnerID") stub
    | some decryptorBytes =>
    match J.unmarshalDecryptor decryptorBytes with
    | none => .done (.error "Failed to unmarshal Verifier") stub
    | some decryptor =>
    match decryptor.ComputeRPrime encryptedResult.R with
    | .panic => .panic
    | .error _ => .done (.error "error compute r prime") stub
    | .ok rPrime =>
    match verifier.VerifyAndDecrypt encryptedResult.PrimeTotale rPrime with
    | .panic => .panic
    | .error msg => .done (.error ("Failed to decrypt prime: " ++ msg)) stub
    | .ok decryptedPrime =>
      let primeValue := bigInt64 decryptedPrime
      match storePrimeAndMonthPrime J stub encryptedResult encryptedTripData primeValue with
      | (.error msg, stub) => .done (.error msg) stub
      | (.ok monthPrime, stub) =>
        .done (.success (.text ("Decrypted prime: " ++ toString primeValue
          ++ ", updated month prime: " ++ toString monthPrime.Prime))) stub
  | _ => .done (.error "Incorrect number of arguments. Expecting 1: ResultID ") stub

/-! ## Monthly premiums -/

/-- `strconv.Atoi(s)` on a 64-bit platform: the value and whether `err == nil`.  The syntax
is an optional sign and decimal digits; a syntax error gives the value `0`, a value out of
range gives the nearest bound of `int`. -/
def strconvAtoi (s : String) : Int × Bool :=
  match setString10 s with
  | none => (0, false)
  | some v =>
    if v < -(2 ^ 63) then (-(2 ^ 63), false)
    else if 2 ^ 63 - 1 < v then (2 ^ 63 - 1, false)
    else (v, true)

/-- `toInt(value)`: `strconv.Atoi` with the error dropped. -/
def toInt (value : String) : Int :=
  (strconvAtoi value).1

/-- `SmartContract.addMonthPrime(stub, args)`. -/
def addMonthPrime {B : Type} (J : Json B) (stub : Store B) (args : List String) :
    Invocation B :=
  match args with
  | [vehicleID, monthArg, yearArg, primeArg] =>
    let month := toInt monthArg
    let year := toInt yearArg
    let prime := toInt primeArg
    let key := monthPrimeKeyOf vehicleID month year
    match stub key with
    | some _ =>
      .done (.error "MonthPrime for this VehicleID, Month, and Year already exists") stub
    | none =>
      let monthPrime : MonthPrime :=
        { VehicleID := vehicleID, Month := month, Year := year, Prime := prime }
      let primeJSON := J.marshalMonthPrime monthPrime
      .done (.success .empty) (stub.put key primeJSON)
  | _ => .done (.error
      "Incorrect number of arguments. Expecting 4: VehicleID, Month, Year, Prime") stub

/-- `SmartContract.queryMonthPrime(stub, args)`. -/
def queryMonthPrime {B : Type} (stub : Store B) (args : List String) : Invocation B :=
  match args with
  | [vehicleID, monthArg, yearArg] =>
    let (month, monthOk) := strconvAtoi monthArg
    if !monthOk || month < 1 || month > 12 then
      .done (.error "Invalid month value. Expecting a number between 1 and 12") stub
    else
      let (year, yearOk) := strconvAtoi yearArg
      if !yearOk then .done (.error "Invalid year value. Expecting a valid year") stub
      else
        let monthPrimeKey := monthPrimeKeyOf vehicleID month year
        match stub monthPrimeKey with
        | none =>
          .done (.error "MonthPrime not found for the given VehicleID, Month, and Year") stub
        | some monthPrimeBytes => .done (.success (.json monthPrimeBytes)) stub
  | _ => .done (.error
      "Incorrect number of arguments. Expecting 3: VehicleID, Month, Year") stub

/-! ## Reading an invocation -/

/-- The response of an invocation, `none` for a panic. -/
def Invocation.response {B : Type} (inv : Invocation B) : Option (Response B) :=
  match inv with
  | .done response _ => some response
  | .panic => none

/-- The bytes under `key` in the world state an invocation leaves, `none` also for a
panic. -/
def Invocation.valueAt {B : Type} (inv : Invocation B) (key : String) : Option B :=
  match inv with
  | .done _ stub => stub key
  | .panic => none

/-- Runs a second operation on the world state the first invocation left. -/
def Invocation.andThen {B : Type} (inv : Invocation B) (next : Store B → Invocation B) :
    Invocation B :=
  match inv with
  | .done _ stub => next stub
  | .panic => .panic

/-! ## `crypto/sha256` and `encoding/hex`

Bytes are natural numbers below 256 and a Go `string` is the list of its UTF-8 bytes.
SHA-256 follows FIPS 180-4: 32-bit words, big-endian. -/

/-- The bytes of a string, `[]byte(s)`. -/
def utf8Bytes (s : String) : List Nat :=
  s.data.flatMap (fun c => (String.utf8EncodeChar c).map UInt8.toNat)

/-- The 64 round constants of SHA-256. -/
def sha256K : List Nat :=
  [1116352408, 1899447441, 3049323471, 3921009573, 961987163, 1508970993, 2453635748,
   2870763221, 3624381080, 310598401, 607225278, 1426881987, 1925078388, 2162078206,
   2614888103, 3248222580, 3835390401, 4022224774, 264347078, 604807628, 770255983,
   1249150122, 1555081692, 1996064986, 2554220882, 2821834349, 2952996808, 3210313671,
   3336571891, 3584528711, 113926993, 338241895, 666307205, 773529912, 1294757372,
   1396182291, 1695183700, 1986661051, 2177026350, 2456956037, 2730485921, 2820302411,
   3259730800, 3345764771, 3516065817, 3600352804, 4094571909, 275423344, 430227734,
   506948616, 659060556, 883997877, 958139571, 1322822218, 1537002063, 1747873779,
   1955562222, 2024104815, 2227730452, 2361852424, 2428436474, 2756734187, 3204031479,
   3329325298]

/-- The initial hash value of SHA-256. -/
def sha256Init : List Nat :=
  [1779033703, 3144134277, 1013904242, 2773480762, 1359893119, 2600822924, 528734635,
   1541459225]

/-- Reduction to a 32-bit word. -/
def word32 (x : Nat) : Nat := x % 4294967296

/-- Rotation of a 32-bit word to the right by `n` bits. -/
def rotr (x n : Nat) : Nat := word32 ((x >>> n) ||| (x <<< (32 - n)))

/-- The big-endian value of a list of bytes, `new(big.Int).SetBytes(bs)`. -/
def bytesToNat (bs : List Nat) : Nat := bs.foldl (fun acc b => acc * 256 + b) 0

/-- The `k` low bytes of `x`, big-endian. -/
def natToBytes : Nat → Nat → List Nat
  | 0, _ => []
  | k + 1, x => natToBytes k (x / 256) ++ [x % 256]

/-- Padding of SHA-256: the byte `0x80`, zero bytes up to 56 modulo 64, and the length of
the message in bits as a 64-bit big-endian number. -/
def sha256Pad (msg : List Nat) : List Nat :=
  let zeros := (55 + 64 - msg.length % 64) % 64
  msg ++ [128] ++ List.replicate zeros 0 ++ natToBytes 8 (msg.length * 8)

/-- The first `k` consecutive pieces of `size` elements of a list. -/
def chunks (size : Nat) : Nat → List Nat → List (List Nat)
  | 0, _ => []
  | k + 1, xs => xs.take size :: chunks size k (xs.drop size)

/-- Extends the message schedule by `k` words. -/
def sha256Schedule : Nat → List Nat → List Nat
  | 0, w => w
  | k + 1, w =>
    let i := w.length
    let w15 := w.getD (i - 15) 0
    let w2 := w.getD (i - 2) 0
    let s0 := rotr w15 7 ^^^ rotr w15 18 ^^^ (w15 >>> 3)
    let s1 := rotr w2 17 ^^^ rotr w2 19 ^^^ (w2 >>> 10)
    sha256Schedule k (w ++ [word32 (w.getD (i - 16) 0 + s0 + w.getD (i - 7) 0 + s1)])

/-- One round of the compression function on the working variables `a, ..., h`, with the
round constant and the schedule word. -/
def sha256Round (s : List Nat) (kw : Nat × Nat) : List Nat :=
  match s with
  | [a, b, c, d, e, f, g, h] =>
    let s1 := rotr e 6 ^^^ rotr e 11 ^^^ rotr e 25
    let ch := (e &&& f) ^^^ ((4294967295 - e) &&& g)
    let t1 := word32 (h + s1 + ch + kw.1 + kw.2)
    let s0 := rotr a 2 ^^^ rotr a 13 ^^^ rotr a 22
    let maj := (a &&& b) ^^^ (a &&& c) ^^^ (b &&& c)
    let t2 := word32 (s0 + maj)
    [word32 (t1 + t2), a, b, c, word32 (d + t1), e, f, g]
  | _ => s

/-- The compression of one 64-byte block into the hash value. -/
def sha256Block (h : List Nat) (block : List Nat) : List Nat :=
  let w := sha256Schedule 48 ((chunks 4 16 block).map bytesToNat)
  let s := (sha256K.zip w).foldl sha256Round h
  List.zipWith (fun x y => word32 (x + y)) h s

/-- `sha256.Sum256(msg)`: the 32 bytes of the digest. -/
def sha256Sum256 (msg : List Nat) : List Nat :=
  let padded := sha256Pad msg
  let h := (chunks 64 (padded.length / 64) padded).foldl sha256Block sha256Init
  h.flatMap (natToBytes 4)

/-- A hexadecimal digit in lower case. -/
def hexDigit (n : Nat) : Char := "0123456789abcdef".data.getD n '0'

/-- `hex.EncodeToString(bs)`. -/
def hexEncodeToString (bs : List Nat) : String :=
  String.mk (bs.flatMap (fun b => [hexDigit (b / 16), hexDigit (b % 16)]))

/-! ## Creation of trip and vehicle records -/

/-- `generateDeterministicR(data, n)`: the SHA-256 digest of `data` as a big-endian integer,
reduced modulo `n - 1`, plus one.  `Mod` panics when `n - 1 = 0`. -/
def generateDeterministicR (data : String) (n : Int) : Res Int :=
  let hash := sha256Sum256 (utf8Bytes data)
  let hashInt : Int := bytesToNat hash
  let nMinusOne := n - 1
  (bigMod hashInt nMinusOne).bind fun r =>
  .ok (r + 1)

/-- `SmartContract.addEncryptedTripData(stub, args)`: stores a trip whose metrics are given
as ciphertexts in decimal. -/
def addEncryptedTripData {B : Type} (J : Json B) (stub : Store B) (args : List String) :
    Invocation B :=
  match args with
  | [vehicleID, tripID, date, a3, a4, a5, a6, a7, a8, a9, a10] =>
    let key := "trip_" ++ tripID
    match stub key with
    | some _ => .done (.error "Trip data with this TripID already exists") stub
    | none =>
    match setString10 a3 with
    | none => .done (.error "Failed to convert Speeding to *big.Int") stub
    | some speeding =>
    match setString10 a4 with
    | none => .done (.error "Failed to convert HardAccelerations to *big.Int") stub
    | some hardAccelerations =>
    match setString10 a5 with
    | none => .done (.error "Failed to convert EmergencyBrakes to *big.Int") stub
    | some emergencyBrakes =>
    match setString10 a6 with
    | none => .done (.error "Failed to convert UnsafeDistance to *big.Int") stub
    | some unsafeDistance =>
    match setString10 a7 with
    | none => .done (.error "Failed to convert HighRiskZones to *big.Int") stub
    | some highRiskZones =>
    match setString10 a8 with
    | none => .done (.error "Failed to convert TrafficSignalCompliance to *big.Int") stub
    | some trafficSignalCompliance =>
    match setString10 a9 with
    | none => .done (.error "Failed to convert NightDriving to *big.Int") stub
    | some nightDriving =>
    match setString10 a10 with
    | none => .done (.error "Failed to convert Mileage to *big.Int") stub
    | some mileage =>
      let encryptedTripData : EncryptedTripData :=
        { VehicleID := vehicleID, TripID := tripID, Date := date, Speeding := speeding,
          HardAccelerations := hardAccelerations, EmergencyBrakes := emergencyBrakes,
          UnsafeDistance := unsafeDistance, HighRiskZones := highRiskZones,
          TrafficSignalCompliance := trafficSignalCompliance, NightDriving := nightDriving,
          Mileage := mileage }
      .done (.success .empty) (stub.put key (J.marshalTrip encryptedTripData))
  | _ => .done (.error ("Incorrect number of arguments. Expecting 11: VehicleID, TripID, "
      ++ "Date, Speeding, HardAccelerations, EmergencyBrakes, UnsafeDistance, HighRiskZones, "
      ++ "TrafficSignalCompliance, NightDriving, Mileage")) stub

/-- The closure `toBigInt` of `addTripData` (lines 579-592).  Floating point is not
modelled: `parseFloat` stands for `strconv.ParseFloat(value, 64)` followed by the
conversion `int64(floatValue * scaleFactor)`, and returns the converted value or the text
of the error of `ParseFloat`. -/
def toBigInt (parseFloat : String → Except String Int) (value : String) :
    Except String Int :=
  match parseFloat value with
  | .error err => .error ("failed to parse value \x27" ++ value ++ "\x27: " ++ err)
  | .ok scaledValue => .ok scaledValue

/-- One metric of `addTripData` (the step repeated at lines 594-663): converts the
argument and encrypts it with the randomness `r`.  A returned error carries the message of
the `shim.Error` the caller answers with. -/
def encryptMetric (parseFloat : String → Except String Int) (verifier : Verifier) (r : Int)
    (field value : String) : Res Int :=
  match toBigInt parseFloat value with
  | .error err => .error ("Failed to convert " ++ field ++ ": " ++ err)
  | .ok m =>
    match verifier.EncryptWithCustomRandom m r with
    | .error err => .error ("Failed to encrypt " ++ field ++ ": " ++ err)
    | res => res

/-- `SmartContract.addTripData(stub, args)`: encrypts the metrics of a trip under the
verifier of the owner, all with the randomness derived from the vehicle, the trip and the
date, and stores the record. -/
def addTripData {B : Type} (J : Json B) (parseFloat : String → Except String Int)
    (stub : Store B) (args : List String) : Invocation B :=
  match args with
  | [vehicleID, tripID, date, a3, a4, a5, a6, a7, a8, a9, a10, verifierOwnerID] =>
    let verifierKey := "verifier_" ++ verifierOwnerID
    match stub verifierKey with
    | none => .done (.error "Verifier not found for the given OwnerID") stub
    | some verifierBytes =>
    match J.unmarshalVerifier verifierBytes with
    | none => .done (.error "Failed to unmarshal Verifier") stub
    | some verifier =>
    let n := verifier.N
    let uniqueData := vehicleID ++ tripID ++ date
    match (generateDeterministicR uniqueData n).bind fun r =>
      (encryptMetric parseFloat verifier r "Speeding" a3).bind fun encryptedSpeeding =>
      (encryptMetric parseFloat verifier r "HardAccelerations" a4).bind
        fun encryptedHardAccelerations =>
      (encryptMetric parseFloat verifier r "EmergencyBrakes" a5).bind
        fun encryptedEmergencyBrakes =>
      (encryptMetric parseFloat verifier r "UnsafeDistance" a6).bind
        fun encryptedUnsafeDistance =>
      (encryptMetric parseFloat verifier r "HighRiskZones" a7).bind
        fun encryptedHighRiskZones =>
      (encryptMetric parseFloat verifier r "TrafficSignalCompliance" a8).bind
        fun encryptedTrafficSignalCompliance =>
      (encryptMetric parseFloat verifier r "NightDriving" a9).bind
        fun encryptedNightDriving =>
      (encryptMetric parseFloat verifier r "Mileage" a10).bind fun encryptedMileage =>
      .ok ({ VehicleID := vehicleID, TripID := tripID, Date := date,
             Speeding := encryptedSpeeding,
             HardAccelerations := encryptedHardAccelerations,
             EmergencyBrakes := encryptedEmergencyBrakes,
             UnsafeDistance := encryptedUnsafeDistance,
             HighRiskZones := encryptedHighRiskZones,
             TrafficSignalCompliance := encryptedTrafficSignalCompliance,
             NightDriving := encryptedNightDriving,
             Mileage := encryptedMileage } : EncryptedTripData) with
    | .panic => .panic
    | .error msg => .done (.error msg) stub
    | .ok encryptedTripData =>
      let key := "trip_" ++ tripID
      .done (.success .empty) (stub.put key (J.marshalTrip encryptedTripData))
  | _ => .done (.error ("Incorrect number of arguments. Expecting 12: VehicleID, TripID, "
      ++ "Date, Speeding, HardAccelerations, EmergencyBrakes, UnsafeDistance, HighRiskZones, "
      ++ "TrafficSignalCompliance, NightDriving, Mileage, VerifierOwnerID")) stub

/-- One field of `addVehicleData` (the step repeated at lines 495-520): parses the argument
with `SetString(_, 10)` and encrypts it with the randomness `r`. -/
def encryptVehicleField (verifier : Verifier) (r : Int) (field value : String) : Res Int :=
  match setString10 value with
  | none => .error ("Failed to convert " ++ field ++ " to *big.Int")
  | some m =>
    match verifier.EncryptWithCustomRandom m r with
    | .error err => .error ("Failed to encrypt " ++ field ++ ": " ++ err)
    | res => res

/-- `SmartContract.addVehicleData(stub, args)`.  Reading `args[i]` with `i` out of range is
a run-time panic. -/
def addVehicleData {B : Type} (J : Json B) (stub : Store B) (args : List String) :
    Invocation B :=
  if args.length ≠ 5 then
    .done (.error ("Incorrect number of arguments. Expecting 5: VehicleID, VehicleType, "
      ++ "PurchaseMileage, Year, VerifierOwnerID")) stub
  else
    match args[0]?, args[5]? with
    | some vehicleID, some verifierOwnerID =>
      let verifierKey := "verifier_" ++ verifierOwnerID
      match stub verifierKey with
      | none => .done (.error "Verifier not found for the given OwnerID") stub
      | some verifierBytes =>
      match J.unmarshalVerifier verifierBytes with
      | none => .done (.error "Failed to unmarshal Verifier") stub
      | some verifier =>
      let n := verifier.N
      match args[1]?, args[2]?, args[3]?, args[4]? with
      | some a1, some a2, some a3, some a4 =>
        let uniqueData := vehicleID ++ a1 ++ a2 ++ a3 ++ a4
        match (generateDeterministicR uniqueData n).bind fun r =>
          (encryptVehicleField verifier r "VehicleType" a1).bind fun encryptedVehicleType =>
          (encryptVehicleField verifier r "PurchaseMileage" a2).bind
            fun encryptedPurchaseMileage =>
          (encryptVehicleField verifier r "Year" a3).bind fun encryptedYear =>
          .ok ({ VehicleID := vehicleID, VehicleType := encryptedVehicleType,
                 PurchaseMileage := encryptedPurchaseMileage, Year := encryptedYear,
                 OwnerID := verifierOwnerID } : EncryptedVehicleData) with
        | .panic => .panic
        | .error msg => .done (.error msg) stub
        | .ok encryptedVehicleData =>
          let key := "vehicle_" ++ vehicleID
          .done (.success .empty) (stub.put key (J.marshalVehicle encryptedVehicleData))
      | _, _, _, _ => .panic
    | _, _ => .panic

/-! ## The authentication chaincode

A shallow embedding of `hlf_network/chaincodes/authentification/go/main.go`: the world
state maps a user name to the stored `User`. -/

/-- Go struct `User` of the authentication chaincode. -/
structure User where
  Name : String
  Password : String
  Role : String
  Dateofbirth : String
  Address : String
  deriving DecidableEq, Repr

/-- `json.Marshal` and `json.Unmarshal` at the type `User`. -/
structure UserJson (B : Type) where
  marshalUser : User → B
  unmarshalUser : B → Option User

/-- `hashPassword(password)`: the SHA-256 digest of the password in hexadecimal. -/
def hashPassword (password : String) : String :=
  let hash := sha256Sum256 (utf8Bytes password)
  hexEncodeToString hash

/-- `AuthChaincode.register(stub, args)`. -/
def register {B : Type} (J : UserJson B) (stub : Store B) (args : List String) :
    Invocation B :=
  match args with
  | [name, password, role, dateofbirth, address] =>
    let hashedPassword := hashPassword (hashPassword password)
    let user : User :=
      { Name := name, Password := hashedPassword, Role := role, Dateofbirth := dateofbirth,
        Address := address }
    let userBytes := J.marshalUser user
    .done (.success (.text "User registered successfully")) (stub.put name userBytes)
  | _ => .done (.error
      "Incorrect number of arguments. Expecting 5: name, password, role, age, address") stub

/-- `AuthChaincode.getRole(stub, args)`. -/
def getRole {B : Type} (J : UserJson B) (stub : Store B) (args : List String) :
    Invocation B :=
  match args with
  | [name, password] =>
    match stub name with
    | none => .done (.error "User not found") stub
    | some userBytes =>
    match J.unmarshalUser userBytes with
    | none => .done (.error "Failed to unmarshal user object") stub
    | some user =>
      if user.Password ≠ hashPassword password then .done (.error "Invalid password") stub
      else .done (.success (.text user.Role)) stub
  | _ => .done (.error "Incorrect number of arguments. Expecting 2: name, password") stub

/-- `AuthChaincode.changePassword(stub, args)`. -/
def changePassword {B : Type} (J : UserJson B) (stub : Store B) (args : List String) :
    Invocation B :=
  match args with
  | [name, currentPassword, newPassword] =>
    match stub name with
    | none => .done (.error "User not found") stub
    | some userBytes =>
    match J.unmarshalUser userBytes with
    | none => .done (.error "Failed to unmarshal user object") stub
    | some user =>
      if user.Password ≠ hashPassword currentPassword then
        .done (.error "Invalid current password") stub
      else
        let hashedNewPassword := hashPassword newPassword
        let user := { user with Password := hashedNewPassword }
        let updatedUserBytes := J.marshalUser user
        .done (.success (.text "Password updated successfully")) (stub.put name updatedUserBytes)
  | _ => .done (.error
      "Incorrect number of arguments. Expecting 3: name, current password, new password") stub

/-! ## Vocabulary of the statements -/

/-- The record `x` is what an operation loads from `key`: the key is present and its bytes
unmarshal to `x`. -/
def Store.loads {B α : Type} (stub : Store B) (unmarshal : B → Option α) (key : String)
    (x : α) : Prop :=
  ∃ bytes, stub key = some bytes ∧ unmarshal bytes = some x

/-- `C` is the encryption of the plaintext `m` under `N` with some randomness coprime to
`N`: `C = (1 + m N) r ^ N mod N²`. -/
def IsEncryption (N C m : Int) : Prop :=
  ∃ r : Int, Int.gcd r N = 1 ∧ C = (1 + m * N) * r ^ N.toNat % (N * N)

/-- The three ciphertexts of a vehicle record encrypt the given plaintexts. -/
def EncryptsVehicle (N : Int) (x : EncryptedVehicleData)
    (vehicleType purchaseMileage year : Int) : Prop :=
  IsEncryption N x.VehicleType vehicleType ∧
  IsEncryption N x.PurchaseMileage purchaseMileage ∧
  IsEncryption N x.Year year

/-- The seven behaviour ciphertexts of a trip record encrypt the given plaintexts. -/
def EncryptsBehaviour (N : Int) (t : EncryptedTripData)
    (speeding hardAccelerations emergencyBrakes unsafeDistance highRiskZones
      trafficSignalCompliance nightDriving : Int) : Prop :=
  IsEncryption N t.Speeding speeding ∧
  IsEncryption N t.HardAccelerations hardAccelerations ∧
  IsEncryption N t.EmergencyBrakes emergencyBrakes ∧
  IsEncryption N t.UnsafeDistance unsafeDistance ∧
  IsEncryption N t.HighRiskZones highRiskZones ∧
  IsEncryption N t.TrafficSignalCompliance trafficSignalCompliance ∧
  IsEncryption N t.NightDriving nightDriving

/-- The change of the world state from `stub` to `stub'` by a resolved decryption of the
result `res` of the trip `trip` with premium `p`, the trip date giving `year` and `month`:
the `Prime` record of the trip is `p`; the `MonthPrime` record of the vehicle and month is
created with `p` when the key was absent, and has `p` added to its premium (in the
arithmetic of `int`) with its other fields kept when it was present; every other key is as
before. -/
def ResolvedUpdate {B : Type} (J : Json B) (stub stub' : Store B)
    (res : EncryptedCalculationResult) (trip : EncryptedTripData) (p year month : Int) : Prop :=
  stub' ("prime_" ++ res.TripID) =
    some (J.marshalPrime { TripID := res.TripID, Date := trip.Date, Prime := p }) ∧
  (stub (monthPrimeKeyOf trip.VehicleID year month) = none →
    stub' (monthPrimeKeyOf trip.VehicleID year month) = some (J.marshalMonthPrime
      { VehicleID := trip.VehicleID, Month := month, Year := year, Prime := p })) ∧
  (∀ bytes old, stub (monthPrimeKeyOf trip.VehicleID year month) = some bytes →
    J.unmarshalMonthPrime bytes = some old →
    stub' (monthPrimeKeyOf trip.VehicleID year month) = some (J.marshalMonthPrime
      { old with Prime := wrapInt64 (old.Prime + p) })) ∧
  (∀ key, key ≠ "prime_" ++ res.TripID → key ≠ monthPrimeKeyOf trip.VehicleID year month →
    stub' key = stub key)

/-! ## A small ledger, used to instantiate the theorems -/

/-- Stored bytes of the small ledger: a record tagged with its type. -/
inductive Asset where
  | verifier (v : Verifier)
  | decryptor (d : Decryptor)
  | vehicle (x : EncryptedVehicleData)
  | trip (t : EncryptedTripData)
  | weights (w : CriteriaWeights)
  | monthPrime (mp : MonthPrime)
  | prime (p : Prime)
  | result (r : EncryptedCalculationResult)
  | decryptedPrime (value : Int)
  deriving DecidableEq, Repr

/-- The codec of the small ledger: marshalling tags the record, unmarshalling accepts the
matching tag only. -/
def assetJson : Json Asset where
  marshalVerifier := .verifier
  marshalDecryptor := .decryptor
  marshalVehicle := .vehicle
  marshalTrip := .trip
  marshalWeights := .weights
  marshalMonthPrime := .monthPrime
  marshalPrime := .prime
  marshalResult := .result
  marshalDecryptedPrime := .decryptedPrime
  unmarshalVerifier := fun b => match b with | .verifier v => some v | _ => none
  unmarshalDecryptor := fun b => match b with | .decryptor d => some d | _ => none
  unmarshalVehicle := fun b => match b with | .vehicle x => some x | _ => none
  unmarshalTrip := fun b => match b with | .trip t => some t | _ => none
  unmarshalWeights := fun b => match b with | .weights w => some w | _ => none
  unmarshalMonthPrime := fun b => match b with | .monthPrime mp => some mp | _ => none
  unmarshalPrime := fun b => match b with | .prime p => some p | _ => none
  unmarshalResult := fun b => match b with | .result r => some r | _ => none

/-- The weights of the scenario: speed 2, acceleration 1, braking 1, distance 1, zone 1,
time 1, traffic 3, alpha 5, beta 2. -/
def exampleWeights : CriteriaWeights :=
  { CriteriaWeightsID := "w1", WeightTraffic := 3, WeightSpeed := 2, WeightAcceleration := 1,
    WeightBraking := 1, WeightDistance := 1, WeightZone := 1, WeightTime := 1,
    Alpha := 5, Beta := 2 }

/-- A vehicle of the owner of the small key: type 1, purchase mileage 50000, year 2020,
each encrypted under `N = 15` with randomness 4. -/
def exampleVehicle : EncryptedVehicleData :=
  { VehicleID := "veh1",
    VehicleType := (1 + 1 * 15) * 4 ^ 15 % (15 * 15),
    PurchaseMileage := (1 + 50000 * 15) * 4 ^ 15 % (15 * 15),
    Year := (1 + 2020 * 15) * 4 ^ 15 % (15 * 15),
    OwnerID := "owner" }

/-- A trip of that vehicle: speeding 3, accelerations 1, brakes 0, unsafe distance 2,
zones 0, compliance 4, night 1, mileage 100, each encrypted under `N = 15` with
randomness 2. -/
def exampleTrip : EncryptedTripData :=
  { VehicleID := "veh1", TripID := "trip1", Date := "2024-11-11",
    Speeding := (1 + 3 * 15) * 2 ^ 15 % (15 * 15),
    HardAccelerations := (1 + 1 * 15) * 2 ^ 15 % (15 * 15),
    EmergencyBrakes := (1 + 0 * 15) * 2 ^ 15 % (15 * 15),
    UnsafeDistance := (1 + 2 * 15) * 2 ^ 15 % (15 * 15),
    HighRiskZones := (1 + 0 * 15) * 2 ^ 15 % (15 * 15),
    TrafficSignalCompliance := (1 + 4 * 15) * 2 ^ 15 % (15 * 15),
    NightDriving := (1 + 1 * 15) * 2 ^ 15 % (15 * 15),
    Mileage := (1 + 100 * 15) * 2 ^ 15 % (15 * 15) }

/-- A pending calculation result for that trip, with total-premium ciphertext 83. -/
def exampleResult : EncryptedCalculationResult :=
  { ResultID := "result_trip1", PrimeTotale := 83, R := 8, TripID := "trip1" }

/-- The small ledger: the weights, the verifier, the vehicle, the trip and the pending
result. -/
def exampleStore : Store Asset := fun key =>
  if key = "criteriaweights_w1" then some (.weights exampleWeights)
  else if key = "verifier_owner" then some (.verifier exampleVerifier)
  else if key = "vehicle_veh1" then some (.vehicle exampleVehicle)
  else if key = "trip_trip1" then some (.trip exampleTrip)
  else if key = "result_trip1" then some (.result exampleResult)
  else none

/-- The small ledger with the decryptor of the owner added. -/
def exampleStoreWithDecryptor : Store Asset :=
  exampleStore.put "decryptor_owner" (.decryptor exampleDecryptor)

/-- The world state after the pending result of `trip1` is resolved to the premium 7 from
a state `stub` without month record. -/
def resolvedFrom (stub : Store Asset) : Store Asset :=
  (stub.put "prime_trip1" (.prime { TripID := "trip1", Date := "2024-11-11", Prime := 7 })).put
    "monthprime_veh1_2024_11"
    (.monthPrime { VehicleID := "veh1", Month := 11, Year := 2024, Prime := 7 })

/-- The small ledger with a month record for `veh1`, November 2024, whose premium is the
largest `int`. -/
def exampleStoreWithFullMonth : Store Asset :=
  exampleStore.put "monthprime_veh1_2024_11"
    (.monthPrime
      { VehicleID := "veh1", Month := 11, Year := 2024, Prime := 9223372036854775807 })

/-- A verifier with the modulus `N = 2 ^ 64`. -/
def bigVerifier : Verifier := ⟨18446744073709551616, 340282366920938463463374607431768211456, "owner"⟩

/-- A pending result under `bigVerifier` whose ciphertext is `1 + 2 ^ 63 * N`. -/
def bigResult : EncryptedCalculationResult :=
  { ResultID := "result_trip1", PrimeTotale := 170141183460469231731687303715884105729,
    R := 1, TripID := "trip1" }

/-- The small ledger with `bigVerifier` as the verifier of the owner and `bigResult` as the
pending result. -/
def bigStore : Store Asset := fun key =>
  if key = "verifier_owner" then some (.verifier bigVerifier)
  else if key = "vehicle_veh1" then some (.vehicle exampleVehicle)
  else if key = "trip_trip1" then some (.trip exampleTrip)
  else if key = "result_trip1" then some (.result bigResult)
  else none

/-- `HomomorphicSum` as the specification words it: the left fold of `HomomorphicAddition`
over the list, starting from the multiplicative identity `1`. -/
def homomorphicSumSpec (v : Verifier) (ciphertexts : List Int) : Res Int :=
  ciphertexts.foldl (fun acc c => acc.bind fun a => v.HomomorphicAddition a c) (.ok 1)

/-! ## Inputs for the creation operations and the authentication chaincode -/

/-- The conversion of `toBigInt` on the arguments of the scenario: a decimal integer below
`2 ^ 53` in magnitude is a `float64` exactly, so `ParseFloat` followed by `int64(_)` returns
it.  Every other string is answered with a syntax error here; the scenario passes none. -/
def parseFloatDecimal (value : String) : Except String Int :=
  match setString10 value with
  | some v =>
    if -(2 ^ 53) < v ∧ v < 2 ^ 53 then .ok v
    else .error ("strconv.ParseFloat: parsing \"" ++ value ++ "\": invalid syntax")
  | none => .error ("strconv.ParseFloat: parsing \"" ++ value ++ "\": invalid syntax")

/-- A call of `addTripData` for the trip `trip1` of the small ledger, which is already
stored: speeding 9, the other metrics as in `exampleTrip`. -/
def secondTripArgs : List String :=
  ["veh1", "trip1", "2024-11-11", "9", "1", "0", "2", "0", "4", "1", "100", "owner"]

/-- The record `addTripData` builds from `secondTripArgs`: the randomness derived from
`"veh1trip12024-11-11"` under `N = 15` is 2. -/
def secondTrip : EncryptedTripData :=
  { exampleTrip with Speeding := (1 + 9 * 15) * 2 ^ 15 % (15 * 15) }

/-- A call of `addEncryptedTripData` for the trip `trip1`, with ciphertexts in decimal. -/
def encryptedTripArgs : List String :=
  ["veh1", "trip1", "2024-11-11", "8", "8", "8", "8", "8", "8", "8", "8"]

/-- A call of `addTripData` for a new trip `trip3`: the randomness derived from
`"veh1trip32024-11-11"` under `N = 15` is 14. -/
def rejectedTripArgs : List String :=
  ["veh1", "trip3", "2024-11-11", "3", "1", "0", "2", "0", "4", "1", "100", "owner"]

/-- A call of `addVehicleData` with its five arguments. -/
def vehicleArgs : List String := ["veh2", "1", "50000", "2020", "owner"]

/-- Stored bytes of the authentication ledger: the user record itself. -/
def userJson : UserJson User where
  marshalUser := fun u => u
  unmarshalUser := fun b => some b

/-- The empty world state of the authentication chaincode. -/
def noUsers : Store User := fun _ => none

/-- A registration: the user `alice` with the password `secret` and the role `client`. -/
def aliceArgs : List String := ["alice", "secret", "client", "2000-01-01", "Paris"]

/-- The eight metric ciphertexts of a trip record, in the order of the arguments of
`addTripData`. -/
def tripMetrics (t : EncryptedTripData) : List Int :=
  [t.Speeding, t.HardAccelerations, t.EmergencyBrakes, t.UnsafeDistance, t.HighRiskZones,
   t.TrafficSignalCompliance, t.NightDriving, t.Mileage]

/-- The trip of the small ledger with a date that is not of the form year-month. -/
def badDateTrip : EncryptedTripData :=
  { exampleTrip with Date := "eleventh of November" }

/-- The small ledger, with the decryptor of the owner, in which the trip `trip1` carries
the date of `badDateTrip`. -/
def badDateStore : Store Asset :=
  exampleStoreWithDecryptor.put "trip_trip1" (.trip badDateTrip)

/-! ## Facts about the model of math/big -/

theorem Res.ok_bind {α β : Type} (a : α) (f : α → Res β) : (Res.ok a).bind f = f a := rfl

theorem euclidInv_spec (g a : Int) : ∀ (fuel : Nat) (r0 r1 s0 s1 : Int),
    0 ≤ r0 → 0 ≤ r1 → r1 < fuel → r0 ≡ s0 * g [ZMOD a] → r1 ≡ s1 * g [ZMOD a] →
    (euclidInv fuel r0 r1 s0 s1).1 ∣ r0 ∧ (euclidInv fuel r0 r1 s0 s1).1 ∣ r1 ∧
    0 ≤ (euclidInv fuel r0 r1 s0 s1).1 ∧
    (euclidInv fuel r0 r1 s0 s1).1 ≡ (euclidInv fuel r0 r1 s0 s1).2 * g [ZMOD a] := by
  intro fuel
  induction fuel with
  | zero => intro r0 r1 s0 s1 _ h1 h2; simp at h2; omega
  | succ k ih =>
    intro r0 r1 s0 s1 h0 h1 h2 e0 e1
    unfold euclidInv
    by_cases hr : r1 = 0
    · simp only [hr, if_true]
      exact ⟨dvd_refl _, dvd_zero _, h0, e0⟩
    · simp only [hr, if_false]
      have hpos : 0 < r1 := lt_of_le_of_ne h1 (Ne.symm hr)
      have hlt : r0 % r1 < r1 := Int.emod_lt_of_pos r0 hpos
      have hnn : 0 ≤ r0 % r1 := Int.emod_nonneg r0 hr
      have hk : r0 % r1 < (k : Int) := by push_cast at h2; omega
      have e2 : r0 % r1 ≡ (s0 - r0 / r1 * s1) * g [ZMOD a] := by
        have : r0 % r1 = r0 - r0 / r1 * r1 := by
          have := Int.emod_add_ediv r0 r1
          linarith
        rw [this, sub_mul, mul_assoc]
        exact e0.sub (e1.mul_left _)
      obtain ⟨d1, d2, d3, d4⟩ := ih r1 (r0 % r1) s1 (s0 - r0 / r1 * s1) h1 hnn hk e1 e2
      refine ⟨?_, d1, d3, d4⟩
      have := Int.emod_add_ediv r0 r1
      have h : (euclidInv k r1 (r0 % r1) s1 (s0 - r0 / r1 * s1)).1 ∣ r0 % r1 + r1 * (r0 / r1) :=
        dvd_add d2 (Dvd.dvd.mul_right d1 _)
      rwa [this] at h

theorem euclidInv_start (g n : Int) (hn : n ≠ 0) :
    (euclidInv n.natAbs n.natAbs (g % n.natAbs) 0 1).1 ∣ n ∧
    (euclidInv n.natAbs n.natAbs (g % n.natAbs) 0 1).1 ∣ g ∧
    0 ≤ (euclidInv n.natAbs n.natAbs (g % n.natAbs) 0 1).1 ∧
    (euclidInv n.natAbs n.natAbs (g % n.natAbs) 0 1).1 ≡
      (euclidInv n.natAbs n.natAbs (g % n.natAbs) 0 1).2 * g [ZMOD n] := by
  have ha : (0 : Int) < n.natAbs := by
    have := Int.natAbs_pos.mpr hn
    exact_mod_cast this
  have h1 : 0 ≤ g % (n.natAbs : Int) := Int.emod_nonneg g (ne_of_gt ha)
  have h2 : g % (n.natAbs : Int) < (n.natAbs : Int) := Int.emod_lt_of_pos g ha
  have e0 : (n.natAbs : Int) ≡ 0 * g [ZMOD (n.natAbs : Int)] := by
    simp [Int.ModEq]
  have e1 : g % (n.natAbs : Int) ≡ 1 * g [ZMOD (n.natAbs : Int)] := by
    simp [Int.ModEq]
  obtain ⟨d1, d2, d3, d4⟩ :=
    euclidInv_spec g n.natAbs n.natAbs n.natAbs (g % n.natAbs) 0 1 (le_of_lt ha) h1 h2 e0 e1
  refine ⟨Int.dvd_natAbs.mp d1, ?_, d3, ?_⟩
  · have := Int.emod_add_ediv g (n.natAbs : Int)
    have h : (euclidInv n.natAbs n.natAbs (g % n.natAbs) 0 1).1 ∣
        g % (n.natAbs : Int) + (n.natAbs : Int) * (g / (n.natAbs : Int)) :=
      dvd_add d2 (Dvd.dvd.mul_right d1 _)
    rwa [this] at h
  · rw [Int.modEq_iff_dvd] at d4 ⊢
    exact Int.natAbs_dvd.mp d4

/-- For a non-zero modulus and `g` coprime to it, `ModInverse` returns the inverse in
`[0, |n|)`. -/
theorem bigModInverse_of_coprime (g n : Int) (hn : n ≠ 0) (hg : Int.gcd g n = 1) :
    ∃ x, bigModInverse g n = .ok (some x) ∧ 0 ≤ x ∧ x < |n| ∧ g * x ≡ 1 [ZMOD n] := by
  obtain ⟨d1, d2, d3, d4⟩ := euclidInv_start g n hn
  have hd : (euclidInv n.natAbs n.natAbs (g % n.natAbs) 0 1).1 = 1 := by
    have h := Int.dvd_gcd d2 d1
    rw [hg] at h
    exact Int.eq_one_of_dvd_one d3 h
  have ha : (0 : Int) < n.natAbs := by
    have := Int.natAbs_pos.mpr hn
    exact_mod_cast this
  refine ⟨(euclidInv n.natAbs n.natAbs (g % n.natAbs) 0 1).2 % (n.natAbs : Int), ?_, ?_, ?_, ?_⟩
  · simp only [bigModInverse, if_neg hn, hd, if_true]
  · exact Int.emod_nonneg _ (ne_of_gt ha)
  · rw [← Int.natCast_natAbs]
    exact Int.emod_lt_of_pos _ ha
  · rw [hd] at d4
    have e : (euclidInv n.natAbs n.natAbs (g % n.natAbs) 0 1).2 % (n.natAbs : Int) ≡
        (euclidInv n.natAbs n.natAbs (g % n.natAbs) 0 1).2 [ZMOD n] := by
      rw [Int.modEq_iff_dvd]
      apply Int.natAbs_dvd.mp
      rw [← Int.modEq_iff_dvd]
      exact Int.mod_modEq _ _
    calc g * ((euclidInv n.natAbs n.natAbs (g % n.natAbs) 0 1).2 % (n.natAbs : Int))
        ≡ g * (euclidInv n.natAbs n.natAbs (g % n.natAbs) 0 1).2 [ZMOD n] := e.mul_left g
      _ = (euclidInv n.natAbs n.natAbs (g % n.natAbs) 0 1).2 * g := mul_comm _ _
      _ ≡ 1 [ZMOD n] := d4.symm

/-- For a non-zero modulus and `g` not coprime to it, `ModInverse` returns `nil`. -/
theorem bigModInverse_of_not_coprime (g n : Int) (hn : n ≠ 0) (hg : Int.gcd g n ≠ 1) :
    bigModInverse g n = .ok none := by
  obtain ⟨-, -, -, d4⟩ := euclidInv_start g n hn
  have hd : (euclidInv n.natAbs n.natAbs (g % n.natAbs) 0 1).1 ≠ 1 := by
    intro h
    rw [h, Int.modEq_iff_dvd] at d4
    apply hg
    have h1 : ((Int.gcd g n : Nat) : Int) ∣ 1 := by
      have hg1 : ((Int.gcd g n : Nat) : Int) ∣ g := Int.gcd_dvd_left
      have hn1 : ((Int.gcd g n : Nat) : Int) ∣ n := Int.gcd_dvd_right
      have h2 := dvd_sub (Dvd.dvd.mul_left hg1 (euclidInv n.natAbs n.natAbs (g % n.natAbs) 0 1).2)
        (dvd_trans hn1 d4)
      simpa using h2
    have := Int.eq_one_of_dvd_one (Int.ofNat_nonneg _) h1
    exact_mod_cast this
  simp only [bigModInverse, if_neg hn, if_neg hd]

/-- For a non-negative exponent and a non-zero modulus, `Exp` is the reduced power. -/
theorem bigExp_of_nonneg (x y m : Int) (hy : 0 ≤ y) (hm : m ≠ 0) :
    bigExp x y m = some (x ^ y.toNat % m) := by
  have : ¬ y < 0 := not_lt.mpr hy
  simp [bigExp, hm, this]

/-- Congruent bases modulo `N` have congruent `N`-th powers modulo `N²`. -/
theorem pow_modEq_sq (N a b : Int) (hN : 0 ≤ N) (h : a ≡ b [ZMOD N]) :
    a ^ N.toNat ≡ b ^ N.toNat [ZMOD N * N] := by
  have h1 : ((N.toNat : Nat) : Int) ∣ a - b := by
    rw [Int.toNat_of_nonneg hN]
    exact (Int.modEq_iff_dvd.mp h.symm)
  have h2 := dvd_sub_pow_of_dvd_sub h1 1
  rw [Int.toNat_of_nonneg hN] at h2
  rw [Int.modEq_iff_dvd]
  have h3 : N * N ∣ a ^ N.toNat - b ^ N.toNat := by
    simpa [pow_two, pow_one] using h2
  have := (dvd_neg (a := N * N)).mpr h3
  simpa using this

/-- Powers of `1 + M N` modulo `N²`. -/
theorem one_add_mul_pow (N M : Int) (k : Nat) :
    (1 + M * N) ^ k ≡ 1 + M * k * N [ZMOD N * N] := by
  induction k with
  | zero => simp
  | succ k ih =>
    rw [pow_succ]
    have h1 := ih.mul_right (1 + M * N)
    refine h1.trans ?_
    rw [Int.modEq_iff_dvd]
    refine ⟨-(M * k * M), ?_⟩
    push_cast
    ring

/-- Fermat for both prime factors, combined: `ρ ^ lcm(p-1, q-1) ≡ 1` modulo `p q`. -/
theorem pow_lcm_modEq_one (p q : Nat) (hp : p.Prime) (hq : q.Prime) (hpq : p ≠ q) (ρ : Int)
    (hρ : IsCoprime ρ ((p : Int) * q)) :
    ρ ^ Nat.lcm (p - 1) (q - 1) ≡ 1 [ZMOD (p : Int) * q] := by
  have hcp : IsCoprime ρ (p : Int) := hρ.of_mul_right_left
  have hcq : IsCoprime ρ (q : Int) := hρ.of_mul_right_right
  have fp := Int.ModEq.pow_card_sub_one_eq_one hp hcp
  have fq := Int.ModEq.pow_card_sub_one_eq_one hq hcq
  obtain ⟨a, ha⟩ := Nat.dvd_lcm_left (p - 1) (q - 1)
  obtain ⟨b, hb⟩ := Nat.dvd_lcm_right (p - 1) (q - 1)
  have gp : ρ ^ Nat.lcm (p - 1) (q - 1) ≡ 1 [ZMOD (p : Int)] := by
    rw [ha, pow_mul]
    simpa using fp.pow a
  have gq : ρ ^ Nat.lcm (p - 1) (q - 1) ≡ 1 [ZMOD (q : Int)] := by
    rw [hb, pow_mul]
    simpa using fq.pow b
  have hc : (p : Int).natAbs.Coprime (q : Int).natAbs := by
    simpa using (Nat.coprime_primes hp hq).mpr hpq
  exact (Int.modEq_and_modEq_iff_modEq_mul hc).mp ⟨gp, gq⟩

/-- For distinct primes `lcm(p-1, q-1)` is at least `2`. -/
theorem two_le_lcm_pred (p q : Nat) (hp : p.Prime) (hq : q.Prime) (hpq : p ≠ q) :
    2 ≤ Nat.lcm (p - 1) (q - 1) := by
  have hp2 := hp.two_le
  have hq2 := hq.two_le
  have hpos : 0 < Nat.lcm (p - 1) (q - 1) :=
    Nat.lcm_pos (by omega) (by omega)
  by_contra hlt
  have h1 : Nat.lcm (p - 1) (q - 1) = 1 := by omega
  have d1 := Nat.dvd_lcm_left (p - 1) (q - 1)
  have d2 := Nat.dvd_lcm_right (p - 1) (q - 1)
  rw [h1] at d1 d2
  have e1 : p - 1 = 1 := Nat.eq_one_of_dvd_one d1
  have e2 : q - 1 = 1 := Nat.eq_one_of_dvd_one d2
  omega

/-- Raising to `N` and then to `d = N⁻¹ mod λ` is the identity on residues coprime to `N`. -/
theorem pow_mul_inverse_modEq (p q : Nat) (hp : p.Prime) (hq : q.Prime) (hpq : p ≠ q)
    (ρ d : Int) (hρ : IsCoprime ρ ((p : Int) * q)) (hd0 : 0 ≤ d)
    (hd : ((p : Int) * q) * d ≡ 1 [ZMOD (Nat.lcm (p - 1) (q - 1) : Int)]) :
    (ρ ^ (p * q)) ^ d.toNat ≡ ρ [ZMOD (p : Int) * q] := by
  have hc := pow_lcm_modEq_one p q hp hq hpq ρ hρ
  have hl := two_le_lcm_pred p q hp hq hpq
  obtain ⟨k, hk⟩ := Int.modEq_iff_dvd.mp hd.symm
  have hdn : ((d.toNat : Nat) : Int) = d := Int.toNat_of_nonneg hd0
  have hN : (0 : Int) ≤ (p : Int) * q := by positivity
  have he : (0 : Int) ≤ (p : Int) * q * d := mul_nonneg hN hd0
  have hk0 : 0 ≤ k := by
    by_contra hneg
    have hk1 : k ≤ -1 := by omega
    have hl' : (2 : Int) ≤ (Nat.lcm (p - 1) (q - 1) : Int) := by exact_mod_cast hl
    nlinarith
  have hexp : p * q * d.toNat = 1 + Nat.lcm (p - 1) (q - 1) * k.toNat := by
    have hkn : ((k.toNat : Nat) : Int) = k := Int.toNat_of_nonneg hk0
    have : ((p * q * d.toNat : Nat) : Int) = ((1 + Nat.lcm (p - 1) (q - 1) * k.toNat : Nat) : Int) := by
      push_cast
      rw [hdn, hkn]
      linarith
    exact_mod_cast this
  rw [← pow_mul, hexp, pow_add, pow_one, pow_mul]
  have := (hc.pow k.toNat).mul_left ρ
  simpa using this


/-- Coprimality to the modulus depends only on the residue. -/
theorem isCoprime_of_modEq (a b m : Int) (h : a ≡ b [ZMOD m]) (ha : IsCoprime a m) :
    IsCoprime b m := by
  obtain ⟨k, hk⟩ := Int.modEq_iff_dvd.mp h
  have hb : b = a + m * k := by linarith
  rw [hb]
  exact (IsCoprime.add_mul_left_left_iff).mpr ha

/-- Decryption of a ciphertext congruent to `(1 + M N) ρ ^ N` with a hint congruent to
`ρ`: verification passes and the plaintext is `M mod N`. -/
theorem verifyAndDecrypt_of_modEq (v : Verifier) (hN : 2 ≤ v.N) (C M ρ R' : Int)
    (hρ : IsCoprime ρ v.N)
    (hC : C ≡ (1 + M * v.N) * ρ ^ v.N.toNat [ZMOD v.N * v.N])
    (hR : R' ≡ ρ [ZMOD v.N]) :
    v.VerifyAndDecrypt C R' = .ok (M % v.N) := by
  have hN0 : v.N ≠ 0 := by omega
  have hNN0 : v.N * v.N ≠ 0 := mul_ne_zero hN0 hN0
  have hNnn : 0 ≤ v.N := by omega
  have hdvd : v.N ∣ v.N * v.N := Dvd.intro _ rfl
  -- the verification equation
  have hCN : C ≡ ρ ^ v.N.toNat [ZMOD v.N] := by
    have h1 : C ≡ (1 + M * v.N) * ρ ^ v.N.toNat [ZMOD v.N] := hC.of_mul_left v.N
    refine h1.trans ?_
    have h2 : (1 + M * v.N) ≡ 1 [ZMOD v.N] := by
      rw [Int.modEq_iff_dvd]
      exact ⟨-M, by ring⟩
    simpa using h2.mul_right (ρ ^ v.N.toNat)
  have hver : R' ^ v.N.toNat % v.N = C % v.N := (hR.pow _).trans hCN.symm
  -- the value S and its inverse
  have hS : R' ^ v.N.toNat % (v.N * v.N) ≡ ρ ^ v.N.toNat [ZMOD v.N * v.N] :=
    (Int.mod_modEq _ _).trans (pow_modEq_sq v.N R' ρ hNnn hR)
  have hScop : IsCoprime (R' ^ v.N.toNat % (v.N * v.N)) (v.N * v.N) :=
    isCoprime_of_modEq _ _ _ hS.symm ((hρ.pow_left).mul_right (hρ.pow_left))
  obtain ⟨Sinv, hinv, -, -, hSinv⟩ := bigModInverse_of_coprime _ _ hNN0
    (Int.isCoprime_iff_gcd_eq_one.mp hScop)
  -- the quotient
  have hprod : C * Sinv ≡ 1 + (M % v.N) * v.N [ZMOD v.N * v.N] := by
    have h1 : C * Sinv ≡ (1 + M * v.N) * (R' ^ v.N.toNat % (v.N * v.N) * Sinv) [ZMOD v.N * v.N] := by
      have := (hC.trans ((hS.symm).mul_left (1 + M * v.N))).mul_right Sinv
      simpa [mul_assoc] using this
    have h2 : (1 + M * v.N) * (R' ^ v.N.toNat % (v.N * v.N) * Sinv) ≡ (1 + M * v.N) * 1
        [ZMOD v.N * v.N] := hSinv.mul_left _
    refine (h1.trans h2).trans ?_
    rw [mul_one, Int.modEq_iff_dvd]
    refine ⟨-(M / v.N), ?_⟩
    have := Int.emod_add_ediv M v.N
    linear_combination (v.N) * this
  have hlo : 0 ≤ M % v.N := Int.emod_nonneg M hN0
  have hhi : M % v.N < v.N := Int.emod_lt_of_pos M (by omega)
  have hval : C * Sinv % (v.N * v.N) = 1 + (M % v.N) * v.N := by
    rw [hprod]
    apply Int.emod_eq_of_lt
    · positivity
    · nlinarith
  simp only [Verifier.VerifyAndDecrypt, bigMod, if_neg hN0, if_neg hNN0, Res.ok_bind,
    bigExp_of_nonneg R' v.N v.N hNnn hN0, bigExp_of_nonneg R' v.N (v.N * v.N) hNnn hNN0,
    deref, hver, ne_eq, not_true_eq_false, if_false, hinv, hval, bigDiv]
  congr 1
  rw [add_sub_cancel_left]
  exact Int.mul_ediv_cancel _ hN0


theorem ValidKey.two_le {v : Verifier} {d : Decryptor} (hk : ValidKey v d) : 2 ≤ v.N := by
  obtain ⟨p, q, hp, hq, -, -, -, -, -, -, hN, -, -⟩ := hk
  have h1 : (2 : Int) ≤ p := by exact_mod_cast hp.two_le
  have h2 : (2 : Int) ≤ q := by exact_mod_cast hq.two_le
  rw [hN]
  nlinarith

/-- The decryptor's hint for a value congruent to `ρ ^ N`: `ComputeRPrime` succeeds and
returns a residue congruent to `ρ`. -/
theorem computeRPrime_of_modEq (v : Verifier) (d : Decryptor) (hk : ValidKey v d)
    (R ρ : Int) (hρ : IsCoprime ρ v.N) (hR : R ≡ ρ ^ v.N.toNat [ZMOD v.N]) :
    ∃ R', d.ComputeRPrime R = .ok R' ∧ R' ≡ ρ [ZMOD v.N] := by
  have h2 := hk.two_le
  obtain ⟨p, q, hp, hq, hpq, -, -, -, -, hdN, hN, hlam, hg⟩ := hk
  have hl := two_le_lcm_pred p q hp hq hpq
  have hl0 : d.Lambda ≠ 0 := by
    rw [hlam]
    have : (2 : Int) ≤ (Nat.lcm (p - 1) (q - 1) : Int) := by exact_mod_cast hl
    omega
  obtain ⟨e, he, he0, -, hinv⟩ := bigModInverse_of_coprime d.N d.Lambda hl0 hg
  have hN0 : d.N ≠ 0 := by rw [hdN, ← hN]; omega
  have hNt : v.N.toNat = p * q := by
    rw [hN]
    have : ((p : Int) * q) = ((p * q : Nat) : Int) := by push_cast; rfl
    rw [this, Int.toNat_natCast]
  refine ⟨R ^ e.toNat % d.N, ?_, ?_⟩
  · simp only [Decryptor.ComputeRPrime, he, Res.ok_bind, bigExp_of_nonneg R e d.N he0 hN0, deref]
  · rw [hdN, ← hN]
    refine (Int.mod_modEq _ _).trans ?_
    refine (hR.pow e.toNat).trans ?_
    rw [hNt, hN]
    rw [hN] at hρ
    rw [hdN, hlam] at hinv
    exact pow_mul_inverse_modEq p q hp hq hpq ρ e hρ he0 hinv

/-- The two-party decryption of a ciphertext congruent to `(1 + M N) ρ ^ N` with `ρ`
coprime to `N`: every step succeeds and the plaintext is `M mod N`. -/
theorem decrypt_of_modEq (v : Verifier) (d : Decryptor) (hk : ValidKey v d)
    (C M ρ : Int) (hρ : IsCoprime ρ v.N)
    (hC : C ≡ (1 + M * v.N) * ρ ^ v.N.toNat [ZMOD v.N * v.N]) :
    ∃ R R', v.ComputeR C = .ok R ∧ d.ComputeRPrime R = .ok R' ∧
      v.VerifyAndDecrypt C R' = .ok (M % v.N) := by
  have h2 := hk.two_le
  have hN0 : v.N ≠ 0 := by omega
  have hCN : C % v.N ≡ ρ ^ v.N.toNat [ZMOD v.N] := by
    refine (Int.mod_modEq _ _).trans ?_
    have h1 : C ≡ (1 + M * v.N) * ρ ^ v.N.toNat [ZMOD v.N] := hC.of_mul_left v.N
    refine h1.trans ?_
    have h3 : (1 + M * v.N) ≡ 1 [ZMOD v.N] := by
      rw [Int.modEq_iff_dvd]
      exact ⟨-M, by ring⟩
    simpa using h3.mul_right (ρ ^ v.N.toNat)
  obtain ⟨R', hR', hcong⟩ := computeRPrime_of_modEq v d hk (C % v.N) ρ hρ hCN
  refine ⟨C % v.N, R', ?_, hR', verifyAndDecrypt_of_modEq v h2 C M ρ R' hρ hC hcong⟩
  simp only [Verifier.ComputeR, bigMod, if_neg hN0]

/-! ## Algebra of encryptions -/

theorem EncOf.of_formula (N m r : Int) (hr : Int.gcd r N = 1) :
    EncOf N ((1 + m * N) * r ^ N.toNat % (N * N)) m :=
  ⟨r, Int.isCoprime_iff_gcd_eq_one.mpr hr, Int.mod_modEq _ _⟩

theorem EncOf.congr {N C C' M : Int} (h : EncOf N C M) (hC : C' ≡ C [ZMOD N * N]) :
    EncOf N C' M := by
  obtain ⟨ρ, hρ, e⟩ := h
  exact ⟨ρ, hρ, hC.trans e⟩

theorem EncOf.plain_congr {N C M M' : Int} (h : EncOf N C M) (hM : M ≡ M' [ZMOD N]) :
    EncOf N C M' := by
  obtain ⟨ρ, hρ, e⟩ := h
  refine ⟨ρ, hρ, e.trans ?_⟩
  apply Int.ModEq.mul_right
  obtain ⟨k, hk⟩ := Int.modEq_iff_dvd.mp hM
  rw [Int.modEq_iff_dvd]
  exact ⟨k, by linear_combination N * hk⟩

theorem EncOf.one (N : Int) : EncOf N 1 0 :=
  ⟨1, isCoprime_one_left, by simp⟩

theorem EncOf.mul {N C1 C2 M1 M2 : Int} (h1 : EncOf N C1 M1) (h2 : EncOf N C2 M2) :
    EncOf N (C1 * C2) (M1 + M2) := by
  obtain ⟨ρ1, hρ1, e1⟩ := h1
  obtain ⟨ρ2, hρ2, e2⟩ := h2
  refine ⟨ρ1 * ρ2, hρ1.mul_left hρ2, (e1.mul e2).trans ?_⟩
  rw [Int.modEq_iff_dvd]
  exact ⟨-(M1 * M2 * (ρ1 * ρ2) ^ N.toNat), by rw [mul_pow]; ring⟩

theorem EncOf.pow {N C M : Int} (h : EncOf N C M) (k : Nat) :
    EncOf N (C ^ k) (M * k) := by
  obtain ⟨ρ, hρ, e⟩ := h
  refine ⟨ρ ^ k, hρ.pow_left, (e.pow k).trans ?_⟩
  rw [mul_pow, ← pow_mul, ← pow_mul, mul_comm N.toNat k]
  exact (one_add_mul_pow N M k).mul_right _

theorem EncOf.isCoprime {N C M : Int} (h : EncOf N C M) : IsCoprime C (N * N) := by
  obtain ⟨ρ, hρ, e⟩ := h
  refine isCoprime_of_modEq _ _ _ e.symm ?_
  have h1 : IsCoprime (1 + M * N) N := by
    have : IsCoprime (1 + N * M) N := (IsCoprime.add_mul_left_left_iff).mpr isCoprime_one_left
    simpa [mul_comm] using this
  have h2 : IsCoprime ((1 + M * N) * ρ ^ N.toNat) N := h1.mul_left hρ.pow_left
  exact h2.mul_right h2

theorem EncOf.inv {N C M Cinv : Int} (hN : 0 ≤ N) (h : EncOf N C M)
    (hinv : C * Cinv ≡ 1 [ZMOD N * N]) : EncOf N Cinv (-M) := by
  obtain ⟨ρ, hρ, e⟩ := h
  obtain ⟨a, b, hab⟩ := hρ
  -- `a` inverts `ρ` modulo `N`
  have ha : a * ρ ≡ 1 [ZMOD N] := by
    rw [Int.modEq_iff_dvd]
    exact ⟨b, by linear_combination (-1 : Int) * hab⟩
  have hpow : (a * ρ) ^ N.toNat ≡ 1 [ZMOD N * N] := by
    simpa using pow_modEq_sq N (a * ρ) 1 hN ha
  have hcop : IsCoprime a N := ⟨ρ, b, by linear_combination hab⟩
  refine ⟨a, hcop, ?_⟩
  -- `X = (1 - M N) a ^ N` is an inverse of `C`, hence congruent to `Cinv`
  have hX : C * ((1 + -M * N) * a ^ N.toNat) ≡ 1 [ZMOD N * N] := by
    have h1 := e.mul_right ((1 + -M * N) * a ^ N.toNat)
    refine h1.trans ?_
    have h2 : (1 + M * N) * ρ ^ N.toNat * ((1 + -M * N) * a ^ N.toNat)
        = (1 + M * N) * (1 + -M * N) * (a * ρ) ^ N.toNat := by rw [mul_pow]; ring
    rw [h2]
    have h3 : (1 + M * N) * (1 + -M * N) ≡ 1 [ZMOD N * N] := by
      rw [Int.modEq_iff_dvd]
      exact ⟨M * M, by ring⟩
    simpa using h3.mul hpow
  calc Cinv = Cinv * 1 := (mul_one _).symm
    _ ≡ Cinv * (C * ((1 + -M * N) * a ^ N.toNat)) [ZMOD N * N] := (hX.symm).mul_left _
    _ = (C * Cinv) * ((1 + -M * N) * a ^ N.toNat) := by ring
    _ ≡ 1 * ((1 + -M * N) * a ^ N.toNat) [ZMOD N * N] := hinv.mul_right _
    _ = (1 + -M * N) * a ^ N.toNat := one_mul _

/-- The two-party decryption of an encryption of `M`: every step succeeds and the
plaintext is `M mod N`. -/
theorem decrypt_of_encOf (v : Verifier) (d : Decryptor) (hk : ValidKey v d)
    (C M : Int) (hC : EncOf v.N C M) :
    ∃ R R', v.ComputeR C = .ok R ∧ d.ComputeRPrime R = .ok R' ∧
      v.VerifyAndDecrypt C R' = .ok (M % v.N) := by
  obtain ⟨ρ, hρ, e⟩ := hC
  exact decrypt_of_modEq v d hk C M ρ hρ e

/-! ## The shape of `VerifyAndDecrypt` -/

/-- For a non-zero modulus `ModInverse` never panics: it returns `nil` or an inverse. -/
theorem bigModInverse_cases (g n : Int) (hn : n ≠ 0) :
    bigModInverse g n = .ok none ∨
    ∃ x, bigModInverse g n = .ok (some x) ∧ 0 ≤ x ∧ x < |n| ∧ g * x ≡ 1 [ZMOD n] := by
  by_cases hg : Int.gcd g n = 1
  · exact Or.inr (bigModInverse_of_coprime g n hn hg)
  · exact Or.inl (bigModInverse_of_not_coprime g n hn hg)

/-- `VerifyAndDecrypt` for a modulus `N ≥ 2`, with the calls to `math/big` evaluated. -/
theorem verifyAndDecrypt_eq (v : Verifier) (hN : 2 ≤ v.N) (C R' : Int) :
    v.VerifyAndDecrypt C R' =
      if R' ^ v.N.toNat % v.N ≠ C % v.N then .error "Verification failed: rPrime is invalid"
      else (bigModInverse (R' ^ v.N.toNat % (v.N * v.N)) (v.N * v.N)).bind fun SInverse =>
        match SInverse with
        | none => .error "Failed to compute modular inverse of S"
        | some SInverse => .ok ((C * SInverse % (v.N * v.N) - 1) / v.N) := by
  have hN0 : v.N ≠ 0 := by omega
  have hNN0 : v.N * v.N ≠ 0 := mul_ne_zero hN0 hN0
  have hNnn : 0 ≤ v.N := by omega
  simp only [Verifier.VerifyAndDecrypt, bigMod, if_neg hN0, if_neg hNN0, Res.ok_bind,
    bigExp_of_nonneg R' v.N v.N hNnn hN0, bigExp_of_nonneg R' v.N (v.N * v.N) hNnn hNN0,
    deref, bigDiv]

/-- The verification error is returned exactly when the check `R' ^ N mod N = C mod N`
fails. -/
theorem verifyAndDecrypt_error_iff (v : Verifier) (hN : 2 ≤ v.N) (C R' : Int) :
    v.VerifyAndDecrypt C R' = .error "Verification failed: rPrime is invalid" ↔
      R' ^ v.N.toNat % v.N ≠ C % v.N := by
  have hN0 : v.N ≠ 0 := by omega
  have hNN0 : v.N * v.N ≠ 0 := mul_ne_zero hN0 hN0
  rw [verifyAndDecrypt_eq v hN]
  constructor
  · intro h
    by_contra hc
    rw [if_neg (not_not.mpr hc)] at h
    rcases bigModInverse_cases (R' ^ v.N.toNat % (v.N * v.N)) (v.N * v.N) hNN0 with h0 | ⟨x, hx, -⟩
    · rw [h0, Res.ok_bind] at h
      simp at h
    · rw [hx, Res.ok_bind] at h
      simp at h
  · intro h
    rw [if_pos h]

/-- A successful `VerifyAndDecrypt`: the check passed, `S` had an inverse, and the result
is the quotient computed from it. -/
theorem verifyAndDecrypt_ok (v : Verifier) (hN : 2 ≤ v.N) (C R' m : Int)
    (h : v.VerifyAndDecrypt C R' = .ok m) :
    R' ^ v.N.toNat % v.N = C % v.N ∧
    ∃ Sinv, bigModInverse (R' ^ v.N.toNat % (v.N * v.N)) (v.N * v.N) = .ok (some Sinv) ∧
      R' ^ v.N.toNat % (v.N * v.N) * Sinv ≡ 1 [ZMOD v.N * v.N] ∧
      m = (C * Sinv % (v.N * v.N) - 1) / v.N := by
  have hN0 : v.N ≠ 0 := by omega
  have hNN0 : v.N * v.N ≠ 0 := mul_ne_zero hN0 hN0
  rw [verifyAndDecrypt_eq v hN] at h
  by_cases hc : R' ^ v.N.toNat % v.N ≠ C % v.N
  · rw [if_pos hc] at h
    simp at h
  · rw [if_neg hc] at h
    refine ⟨not_not.mp hc, ?_⟩
    rcases bigModInverse_cases (R' ^ v.N.toNat % (v.N * v.N)) (v.N * v.N) hNN0 with
      h0 | ⟨x, hx, -, -, hinv⟩
    · rw [h0, Res.ok_bind] at h
      simp at h
    · rw [hx, Res.ok_bind] at h
      refine ⟨x, hx, hinv, ?_⟩
      simp only [Res.ok.injEq] at h
      exact h.symm

/-- The small key pair is valid. -/
theorem exampleKey_valid : ValidKey exampleVerifier exampleDecryptor :=
  ⟨3, 5, by norm_num, by norm_num, by decide, by decide, by decide,
    by decide, by decide, by decide, by decide, by decide, by decide⟩

/-! ## The homomorphic operators on encryptions -/

theorem Res.bind_eq {α β : Type} (x : Res α) (f : α → Res β) : x >>= f = x.bind f := rfl

theorem Res.pure_eq {α : Type} (a : α) : (pure a : Res α) = .ok a := rfl

theorem Res.ok_withMessage {α : Type} (a : α) (msg : String) :
    (Res.ok a).withMessage msg = .ok a := rfl

/-- `HomomorphicMultiplication` of an encryption of `M` by any integer `a` returns an
encryption of `M * a`. -/
theorem homomorphicMultiplication_encOf (v : Verifier) (hN : 2 ≤ v.N) (C M a : Int)
    (h : EncOf v.N C M) :
    ∃ C', v.HomomorphicMultiplication C a = some C' ∧ EncOf v.N C' (M * a) := by
  have hN0 : v.N ≠ 0 := by omega
  have hNN0 : v.N * v.N ≠ 0 := mul_ne_zero hN0 hN0
  by_cases ha : 0 ≤ a
  · refine ⟨C ^ a.toNat % (v.N * v.N), ?_, ?_⟩
    · simp only [Verifier.HomomorphicMultiplication, bigExp_of_nonneg _ a _ ha hNN0]
    · have := (h.pow a.toNat).congr (Int.mod_modEq _ (v.N * v.N))
      rwa [Int.toNat_of_nonneg ha] at this
  · have hneg : a < 0 := not_le.mp ha
    obtain ⟨inv, hinv, -, -, hmul⟩ := bigModInverse_of_coprime C (v.N * v.N) hNN0
      (Int.isCoprime_iff_gcd_eq_one.mp h.isCoprime)
    refine ⟨inv ^ a.natAbs % (v.N * v.N), ?_, ?_⟩
    · simp only [Verifier.HomomorphicMultiplication, bigExp, if_neg hNN0, if_pos hneg, hinv]
    · have h1 : EncOf v.N inv (-M) := h.inv (by omega) hmul
      have h2 := (h1.pow a.natAbs).congr (Int.mod_modEq _ (v.N * v.N))
      have h3 : -M * (a.natAbs : Int) = M * a := by
        have : (a.natAbs : Int) = -a := by omega
        rw [this]; ring
      rwa [h3] at h2

/-- One step of `HomomorphicSum`. -/
theorem homomorphicSum_cons (v : Verifier) (hN : v.N * v.N ≠ 0) (acc c : Int) (cs : List Int) :
    List.foldlM (fun result ciphertext => bigMod (result * ciphertext) (v.N * v.N)) acc (c :: cs)
      = List.foldlM (fun result ciphertext => bigMod (result * ciphertext) (v.N * v.N))
          (acc * c % (v.N * v.N)) cs := by
  rw [List.foldlM_cons, Res.bind_eq]
  simp only [bigMod, if_neg hN, Res.ok_bind]

/-- `HomomorphicSum` started from an encryption of `M0`, over encryptions of the elements
of `ms`, returns an encryption of `M0 + sum ms`. -/
theorem homomorphicSum_fold_encOf (v : Verifier) (hN : v.N * v.N ≠ 0) :
    ∀ (cs ms : List Int) (acc M0 : Int), List.Forall₂ (EncOf v.N) cs ms → EncOf v.N acc M0 →
    ∃ C, List.foldlM (fun result ciphertext => bigMod (result * ciphertext) (v.N * v.N)) acc cs
        = .ok C ∧ EncOf v.N C (M0 + ms.sum) := by
  intro cs
  induction cs with
  | nil =>
    intro ms acc M0 h hacc
    cases h
    exact ⟨acc, rfl, by simpa using hacc⟩
  | cons c cs ih =>
    intro ms acc M0 h hacc
    cases h with
    | cons hc hrest =>
      rename_i m ms'
      rw [homomorphicSum_cons v hN]
      obtain ⟨C, hC, hE⟩ := ih ms' (acc * c % (v.N * v.N)) (M0 + m) hrest
        ((hacc.mul hc).congr (Int.mod_modEq _ _))
      refine ⟨C, hC, ?_⟩
      rw [List.sum_cons, ← add_assoc]
      exact hE

/-- `HomomorphicSum` over encryptions returns an encryption of the sum. -/
theorem homomorphicSum_encOf (v : Verifier) (hN : 2 ≤ v.N) (cs ms : List Int)
    (h : List.Forall₂ (EncOf v.N) cs ms) :
    ∃ C, v.HomomorphicSum cs = .ok C ∧ EncOf v.N C ms.sum := by
  have hN0 : v.N ≠ 0 := by omega
  have hNN0 : v.N * v.N ≠ 0 := mul_ne_zero hN0 hN0
  obtain ⟨C, hC, hE⟩ := homomorphicSum_fold_encOf v hNN0 cs ms 1 0 h (EncOf.one v.N)
  exact ⟨C, hC, by simpa using hE⟩

/-- `HomomorphicSubtraction` of two encryptions returns an encryption of the difference. -/
theorem homomorphicSubtraction_encOf (v : Verifier) (hN : 2 ≤ v.N) (C1 C2 M1 M2 : Int)
    (h1 : EncOf v.N C1 M1) (h2 : EncOf v.N C2 M2) :
    ∃ C, v.HomomorphicSubtraction C1 C2 = .ok C ∧ EncOf v.N C (M1 - M2) := by
  have hN0 : v.N ≠ 0 := by omega
  have hNN0 : v.N * v.N ≠ 0 := mul_ne_zero hN0 hN0
  obtain ⟨inv, hinv, -, -, hmul⟩ := bigModInverse_of_coprime C2 (v.N * v.N) hNN0
    (Int.isCoprime_iff_gcd_eq_one.mp h2.isCoprime)
  refine ⟨C1 * inv % (v.N * v.N), ?_, ?_⟩
  · simp only [Verifier.HomomorphicSubtraction, hinv, Res.ok_bind, bigMod, if_neg hNN0]
  · have h3 := (h1.mul (h2.inv (by omega) hmul)).congr (Int.mod_modEq _ (v.N * v.N))
    rwa [← sub_eq_add_neg] at h3

/-! ## The aggregator on encryptions -/

/-- The behavioural index of encrypted metrics is an encryption of the weighted sum of the
six metrics minus the weighted compliance. -/
theorem behaviouralIndex_encOf (v : Verifier) (hN : 2 ≤ v.N) (w : CriteriaWeights)
    (t : EncryptedTripData) (sp ha eb ud hz tc nd : Int)
    (h1 : EncOf v.N t.Speeding sp) (h2 : EncOf v.N t.HardAccelerations ha)
    (h3 : EncOf v.N t.EmergencyBrakes eb) (h4 : EncOf v.N t.UnsafeDistance ud)
    (h5 : EncOf v.N t.HighRiskZones hz) (h6 : EncOf v.N t.TrafficSignalCompliance tc)
    (h7 : EncOf v.N t.NightDriving nd) :
    ∃ C, behaviouralIndex v w t = .ok C ∧
      EncOf v.N C (w.WeightSpeed * sp + w.WeightAcceleration * ha + w.WeightBraking * eb
        + w.WeightDistance * ud + w.WeightZone * hz + w.WeightTime * nd
        - w.WeightTraffic * tc) := by
  obtain ⟨c1, e1, E1⟩ := homomorphicMultiplication_encOf v hN _ _ w.WeightSpeed h1
  obtain ⟨c2, e2, E2⟩ := homomorphicMultiplication_encOf v hN _ _ w.WeightAcceleration h2
  obtain ⟨c3, e3, E3⟩ := homomorphicMultiplication_encOf v hN _ _ w.WeightBraking h3
  obtain ⟨c4, e4, E4⟩ := homomorphicMultiplication_encOf v hN _ _ w.WeightDistance h4
  obtain ⟨c5, e5, E5⟩ := homomorphicMultiplication_encOf v hN _ _ w.WeightZone h5
  obtain ⟨c6, e6, E6⟩ := homomorphicMultiplication_encOf v hN _ _ w.WeightTraffic h6
  obtain ⟨c7, e7, E7⟩ := homomorphicMultiplication_encOf v hN _ _ w.WeightTime h7
  have hlist : List.Forall₂ (EncOf v.N) [c1, c2, c3, c4, c5, c7]
      [sp * w.WeightSpeed, ha * w.WeightAcceleration, eb * w.WeightBraking,
        ud * w.WeightDistance, hz * w.WeightZone, nd * w.WeightTime] :=
    .cons E1 (.cons E2 (.cons E3 (.cons E4 (.cons E5 (.cons E7 .nil)))))
  obtain ⟨s, hs, Es⟩ := homomorphicSum_encOf v hN _ _ hlist
  obtain ⟨C, hC, EC⟩ := homomorphicSubtraction_encOf v hN s c6 _ _ Es E6
  refine ⟨C, ?_, ?_⟩
  · simp only [behaviouralIndex, e1, e2, e3, e4, e5, e6, e7, deref, Res.ok_bind, hs,
      Res.ok_withMessage, hC]
  · have hM : [sp * w.WeightSpeed, ha * w.WeightAcceleration, eb * w.WeightBraking,
          ud * w.WeightDistance, hz * w.WeightZone, nd * w.WeightTime].sum
          - tc * w.WeightTraffic
        = w.WeightSpeed * sp + w.WeightAcceleration * ha + w.WeightBraking * eb
          + w.WeightDistance * ud + w.WeightZone * hz + w.WeightTime * nd
          - w.WeightTraffic * tc := by
      simp only [List.sum_cons, List.sum_nil]
      ring
    rwa [hM] at EC

/-- The total premium of encrypted records is an encryption of the premium formula. -/
theorem totalPremium_encOf (v : Verifier) (hN : 2 ≤ v.N) (w : CriteriaWeights)
    (x : EncryptedVehicleData) (t : EncryptedTripData)
    (vt pm yr sp ha eb ud hz tc nd mi : Int)
    (g1 : EncOf v.N x.VehicleType vt) (g2 : EncOf v.N x.PurchaseMileage pm)
    (g3 : EncOf v.N x.Year yr)
    (h1 : EncOf v.N t.Speeding sp) (h2 : EncOf v.N t.HardAccelerations ha)
    (h3 : EncOf v.N t.EmergencyBrakes eb) (h4 : EncOf v.N t.UnsafeDistance ud)
    (h5 : EncOf v.N t.HighRiskZones hz) (h6 : EncOf v.N t.TrafficSignalCompliance tc)
    (h7 : EncOf v.N t.NightDriving nd) (h8 : EncOf v.N t.Mileage mi) :
    ∃ C, totalPremium v w x t = .ok C ∧
      EncOf v.N C (vt + pm + yr + w.Alpha * mi
        + w.Beta * (w.WeightSpeed * sp + w.WeightAcceleration * ha + w.WeightBraking * eb
          + w.WeightDistance * ud + w.WeightZone * hz + w.WeightTime * nd
          - w.WeightTraffic * tc)) := by
  obtain ⟨b, hb, Eb⟩ := behaviouralIndex_encOf v hN w t sp ha eb ud hz tc nd h1 h2 h3 h4 h5 h6 h7
  obtain ⟨c1, e1, E1⟩ := homomorphicMultiplication_encOf v hN _ _ w.Alpha h8
  obtain ⟨c2, e2, E2⟩ := homomorphicMultiplication_encOf v hN _ _ w.Beta Eb
  have hlist : List.Forall₂ (EncOf v.N) [x.VehicleType, x.PurchaseMileage, x.Year, c1, c2]
      [vt, pm, yr, mi * w.Alpha,
        (w.WeightSpeed * sp + w.WeightAcceleration * ha + w.WeightBraking * eb
          + w.WeightDistance * ud + w.WeightZone * hz + w.WeightTime * nd
          - w.WeightTraffic * tc) * w.Beta] :=
    .cons g1 (.cons g2 (.cons g3 (.cons E1 (.cons E2 .nil))))
  obtain ⟨C, hC, EC⟩ := homomorphicSum_encOf v hN _ _ hlist
  refine ⟨C, ?_, ?_⟩
  · simp only [totalPremium, hb, Res.ok_bind, e1, e2, deref, hC, Res.ok_withMessage]
  · have hM : [vt, pm, yr, mi * w.Alpha,
          (w.WeightSpeed * sp + w.WeightAcceleration * ha + w.WeightBraking * eb
            + w.WeightDistance * ud + w.WeightZone * hz + w.WeightTime * nd
            - w.WeightTraffic * tc) * w.Beta].sum
        = vt + pm + yr + w.Alpha * mi
          + w.Beta * (w.WeightSpeed * sp + w.WeightAcceleration * ha + w.WeightBraking * eb
            + w.WeightDistance * ud + w.WeightZone * hz + w.WeightTime * nd
            - w.WeightTraffic * tc) := by
      simp only [List.sum_cons, List.sum_nil]
      ring
    rwa [hM] at EC

theorem IsEncryption.encOf {N C m : Int} (h : IsEncryption N C m) : EncOf N C m := by
  obtain ⟨r, hr, rfl⟩ := h
  exact EncOf.of_formula N m r hr

/-- The vehicle of the small ledger encrypts type 1, purchase mileage 50000, year 2020. -/
theorem exampleVehicle_encrypts :
    EncryptsVehicle exampleVerifier.N exampleVehicle 1 50000 2020 :=
  ⟨⟨4, by decide, by decide⟩, ⟨4, by decide, by decide⟩, ⟨4, by decide, by decide⟩⟩

/-- The trip of the small ledger encrypts the metrics of the scenario. -/
theorem exampleTrip_encrypts :
    EncryptsBehaviour exampleVerifier.N exampleTrip 3 1 0 2 0 4 1 :=
  ⟨⟨2, by decide, by decide⟩, ⟨2, by decide, by decide⟩, ⟨2, by decide, by decide⟩,
    ⟨2, by decide, by decide⟩, ⟨2, by decide, by decide⟩, ⟨2, by decide, by decide⟩,
    ⟨2, by decide, by decide⟩⟩

/-! ## The ledger after the decrypt-and-update flow -/

theorem Store.put_same {B : Type} (stub : Store B) (key : String) (value : B) :
    (stub.put key value) key = some value := by
  simp [Store.put]

theorem Store.put_other {B : Type} (stub : Store B) (key k : String) (value : B)
    (h : k ≠ key) : (stub.put key value) k = stub k := by
  simp [Store.put, h]

theorem Store.loads_put {B α : Type} (stub : Store B) (unmarshal : B → Option α)
    (key k : String) (value : B) (x : α) (h : k ≠ key) (hl : stub.loads unmarshal k x) :
    (stub.put key value).loads unmarshal k x := by
  obtain ⟨b, hb, hu⟩ := hl
  exact ⟨b, by rw [Store.put_other stub key k value h, hb], hu⟩

theorem monthPrimeKeyOf_ne_prime (vehicleID : String) (a b : Int) (tripID : String) :
    monthPrimeKeyOf vehicleID a b ≠ "prime_" ++ tripID := by
  intro h
  have := congrArg String.data h
  simp [monthPrimeKeyOf, String.data_append] at this

/-- The end of the flow when the date parses and no month record exists. -/
theorem storePrimeAndMonthPrime_absent {B : Type} (J : Json B) (stub : Store B)
    (res : EncryptedCalculationResult) (trip : EncryptedTripData) (p year month : Int)
    (hdate : sscanfYearMonth trip.Date = some (year, month))
    (habs : stub (monthPrimeKeyOf trip.VehicleID year month) = none) :
    storePrimeAndMonthPrime J stub res trip p =
      (.ok { VehicleID := trip.VehicleID, Month := month, Year := year, Prime := p },
        (stub.put ("prime_" ++ res.TripID)
            (J.marshalPrime { TripID := res.TripID, Date := trip.Date, Prime := p })).put
          (monthPrimeKeyOf trip.VehicleID year month)
          (J.marshalMonthPrime
            { VehicleID := trip.VehicleID, Month := month, Year := year, Prime := p })) := by
  have hk := Store.put_other stub ("prime_" ++ res.TripID)
    (monthPrimeKeyOf trip.VehicleID year month)
    (J.marshalPrime { TripID := res.TripID, Date := trip.Date, Prime := p })
    (monthPrimeKeyOf_ne_prime _ _ _ _)
  simp only [storePrimeAndMonthPrime, extractYearAndMonth, hdate, hk, habs]

/-- The end of the flow when the date parses and a month record exists. -/
theorem storePrimeAndMonthPrime_present {B : Type} (J : Json B) (stub : Store B)
    (res : EncryptedCalculationResult) (trip : EncryptedTripData) (p year month : Int)
    (bytes : B) (old : MonthPrime)
    (hdate : sscanfYearMonth trip.Date = some (year, month))
    (hpres : stub (monthPrimeKeyOf trip.VehicleID year month) = some bytes)
    (hold : J.unmarshalMonthPrime bytes = some old) :
    storePrimeAndMonthPrime J stub res trip p =
      (.ok { old with Prime := wrapInt64 (old.Prime + p) },
        (stub.put ("prime_" ++ res.TripID)
            (J.marshalPrime { TripID := res.TripID, Date := trip.Date, Prime := p })).put
          (monthPrimeKeyOf trip.VehicleID year month)
          (J.marshalMonthPrime { old with Prime := wrapInt64 (old.Prime + p) })) := by
  have hk := Store.put_other stub ("prime_" ++ res.TripID)
    (monthPrimeKeyOf trip.VehicleID year month)
    (J.marshalPrime { TripID := res.TripID, Date := trip.Date, Prime := p })
    (monthPrimeKeyOf_ne_prime _ _ _ _)
  simp only [storePrimeAndMonthPrime, extractYearAndMonth, hdate, hk, hpres, hold]



theorem decryptInsurancePremiumAndUpdate_success_inv {B : Type} (J : Json B) (stub st' : Store B)
    (args : List String) (pl : Payload B)
    (h : decryptInsurancePremiumAndUpdate J stub args = .done (.success pl) st') :
    ∃ tripArg rPrimeArg rPrime res trip veh verifier m mp,
      args = [tripArg, rPrimeArg] ∧ setString10 rPrimeArg = some rPrime ∧
      stub.loads J.unmarshalResult ("result_" ++ tripArg) res ∧
      stub.loads J.unmarshalTrip ("trip_" ++ res.TripID) trip ∧
      stub.loads J.unmarshalVehicle ("vehicle_" ++ trip.VehicleID) veh ∧
      stub.loads J.unmarshalVerifier ("verifier_" ++ veh.OwnerID) verifier ∧
      verifier.VerifyAndDecrypt res.PrimeTotale rPrime = .ok m ∧
      storePrimeAndMonthPrime J stub res trip (bigInt64 m) = (.ok mp, st') ∧
      pl = .json (J.marshalDecryptedPrime (bigInt64 m)) := by
  unfold decryptInsurancePremiumAndUpdate at h
  split at h
  · rename_i tripArg rPrimeArg
    simp only at h
    split at h
    · simp at h
    rename_i rPrime hparse
    split at h
    · simp at h
    rename_i rb hrb
    split at h
    · simp at h
    rename_i res hres
    split at h
    · simp at h
    rename_i tb htb
    split at h
    · simp at h
    rename_i trip htrip
    split at h
    · simp at h
    rename_i xb hxb
    split at h
    · simp at h
    rename_i veh hveh
    split at h
    · simp at h
    rename_i vb hvb
    split at h
    · simp at h
    rename_i verifier hver
    split at h
    · simp at h
    · simp at h
    rename_i m hm
    split at h
    · simp at h
    rename_i mp st hs
    simp only [Invocation.done.injEq, Response.success.injEq] at h
    obtain ⟨h1, h2⟩ := h
    subst h2
    exact ⟨tripArg, rPrimeArg, rPrime, res, trip, veh, verifier, m, mp, rfl, hparse,
      ⟨rb, hrb, hres⟩, ⟨tb, htb, htrip⟩, ⟨xb, hxb, hveh⟩, ⟨vb, hvb, hver⟩, hm, hs, h1.symm⟩
  · simp at h

/-- The two writes of the flow, read back. -/
theorem resolvedUpdate_of_puts {B : Type} (J : Json B) (stub : Store B)
    (res : EncryptedCalculationResult) (trip : EncryptedTripData) (p year month : Int)
    (value : B) :
    let stub' := (stub.put ("prime_" ++ res.TripID)
        (J.marshalPrime { TripID := res.TripID, Date := trip.Date, Prime := p })).put
      (monthPrimeKeyOf trip.VehicleID year month) value
    stub' ("prime_" ++ res.TripID) =
        some (J.marshalPrime { TripID := res.TripID, Date := trip.Date, Prime := p }) ∧
      stub' (monthPrimeKeyOf trip.VehicleID year month) = some value ∧
      ∀ key, key ≠ "prime_" ++ res.TripID → key ≠ monthPrimeKeyOf trip.VehicleID year month →
        stub' key = stub key := by
  intro stub'
  refine ⟨?_, Store.put_same _ _ _, ?_⟩
  · show (Store.put _ _ _) _ = _
    rw [Store.put_other _ _ _ _ (Ne.symm (monthPrimeKeyOf_ne_prime _ _ _ _)), Store.put_same]
  · intro key h1 h2
    show (Store.put _ _ _) _ = _
    rw [Store.put_other _ _ _ _ h2, Store.put_other _ _ _ _ h1]

/-- A successful end of the flow: the date parsed and the world state changed as
`ResolvedUpdate` says. -/
theorem storePrimeAndMonthPrime_ok_inv {B : Type} (J : Json B) (stub stub' : Store B)
    (res : EncryptedCalculationResult) (trip : EncryptedTripData) (p : Int) (mp : MonthPrime)
    (h : storePrimeAndMonthPrime J stub res trip p = (.ok mp, stub')) :
    ∃ year month, sscanfYearMonth trip.Date = some (year, month) ∧
      ResolvedUpdate J stub stub' res trip p year month := by
  rcases hdate : sscanfYearMonth trip.Date with _ | ⟨year, month⟩
  · simp [storePrimeAndMonthPrime, extractYearAndMonth, hdate] at h
  · refine ⟨year, month, rfl, ?_⟩
    rcases hkey : stub (monthPrimeKeyOf trip.VehicleID year month) with _ | bytes
    · rw [storePrimeAndMonthPrime_absent J stub res trip p year month hdate hkey] at h
      simp only [Prod.mk.injEq] at h
      obtain ⟨-, rfl⟩ := h
      obtain ⟨a, b, c⟩ := resolvedUpdate_of_puts J stub res trip p year month
        (J.marshalMonthPrime
          { VehicleID := trip.VehicleID, Month := month, Year := year, Prime := p })
      refine ⟨a, ?_, ?_, c⟩
      · intro _
        exact b
      · intro bytes old hb _
        rw [hkey] at hb
        cases hb
    · rcases hold : J.unmarshalMonthPrime bytes with _ | old
      · have hk := Store.put_other stub ("prime_" ++ res.TripID)
          (monthPrimeKeyOf trip.VehicleID year month)
          (J.marshalPrime { TripID := res.TripID, Date := trip.Date, Prime := p })
          (monthPrimeKeyOf_ne_prime _ _ _ _)
        simp [storePrimeAndMonthPrime, extractYearAndMonth, hdate, hk, hkey, hold] at h
      · rw [storePrimeAndMonthPrime_present J stub res trip p year month bytes old hdate hkey
          hold] at h
        simp only [Prod.mk.injEq] at h
        obtain ⟨-, rfl⟩ := h
        obtain ⟨a, b, c⟩ := resolvedUpdate_of_puts J stub res trip p year month
          (J.marshalMonthPrime { old with Prime := wrapInt64 (old.Prime + p) })
        refine ⟨a, ?_, ?_, c⟩
        · intro hn
          rw [hkey] at hn
          cases hn
        · intro bytes' old' hb ho
          rw [hkey] at hb
          cases hb
          rw [hold] at ho
          cases ho
          exact b

theorem decryptInsurancePremiumAndUpdateWithoutParams_success_inv {B : Type} (J : Json B)
    (stub st' : Store B) (args : List String) (pl : Payload B)
    (h : decryptInsurancePremiumAndUpdateWithoutParams J stub args = .done (.success pl) st') :
    ∃ resultID rPrime res trip veh verifier decryptor m mp,
      args = [resultID] ∧
      stub.loads J.unmarshalResult resultID res ∧
      stub.loads J.unmarshalTrip ("trip_" ++ res.TripID) trip ∧
      stub.loads J.unmarshalVehicle ("vehicle_" ++ trip.VehicleID) veh ∧
      stub.loads J.unmarshalVerifier ("verifier_" ++ veh.OwnerID) verifier ∧
      stub.loads J.unmarshalDecryptor ("decryptor_" ++ veh.OwnerID) decryptor ∧
      decryptor.ComputeRPrime res.R = .ok rPrime ∧
      verifier.VerifyAndDecrypt res.PrimeTotale rPrime = .ok m ∧
      storePrimeAndMonthPrime J stub res trip (bigInt64 m) = (.ok mp, st') ∧
      pl = .text ("Decrypted prime: " ++ toString (bigInt64 m)
        ++ ", updated month prime: " ++ toString mp.Prime) := by
  unfold decryptInsurancePremiumAndUpdateWithoutParams at h
  split at h
  · rename_i resultID
    simp only at h
    split at h
    · simp at h
    rename_i rb hrb
    split at h
    · simp at h
    rename_i res hres
    split at h
    · simp at h
    rename_i tb htb
    split at h
    · simp at h
    rename_i trip htrip
    split at h
    · simp at h
    rename_i xb hxb
    split at h
    · simp at h
    rename_i veh hveh
    split at h
    · simp at h
    rename_i vb hvb
    split at h
    · simp at h
    rename_i verifier hver
    split at h
    · simp at h
    rename_i db hdb
    split at h
    · simp at h
    rename_i decryptor hdec
    split at h
    · simp at h
    · simp at h
    rename_i rPrime hrp
    split at h
    · simp at h
    · simp at h
    rename_i m hm
    split at h
    · simp at h
    rename_i mp st hs
    simp only [Invocation.done.injEq, Response.success.injEq] at h
    obtain ⟨h1, h2⟩ := h
    subst h2
    exact ⟨resultID, rPrime, res, trip, veh, verifier, decryptor, m, mp, rfl,
      ⟨rb, hrb, hres⟩, ⟨tb, htb, htrip⟩, ⟨xb, hxb, hveh⟩, ⟨vb, hvb, hver⟩, ⟨db, hdb, hdec⟩,
      hrp, hm, hs, h1.symm⟩
  · simp at h

/-- `decryptInsurancePremiumAndUpdate` once the records load and `VerifyAndDecrypt`
returns `m`: the outcome is the one of the end of the flow. -/
theorem decryptInsurancePremiumAndUpdate_run {B : Type} (J : Json B) (stub stub' : Store B)
    (tripArg rPrimeArg : String) (rPrime : Int)
    (res : EncryptedCalculationResult) (trip : EncryptedTripData)
    (veh : EncryptedVehicleData) (verifier : Verifier) (m : Int) (mp : MonthPrime)
    (hparse : setString10 rPrimeArg = some rPrime)
    (hr : stub.loads J.unmarshalResult ("result_" ++ tripArg) res)
    (ht : stub.loads J.unmarshalTrip ("trip_" ++ res.TripID) trip)
    (hx : stub.loads J.unmarshalVehicle ("vehicle_" ++ trip.VehicleID) veh)
    (hv : stub.loads J.unmarshalVerifier ("verifier_" ++ veh.OwnerID) verifier)
    (hdec : verifier.VerifyAndDecrypt res.PrimeTotale rPrime = .ok m)
    (hend : storePrimeAndMonthPrime J stub res trip (bigInt64 m) = (.ok mp, stub')) :
    decryptInsurancePremiumAndUpdate J stub [tripArg, rPrimeArg] =
      .done (.success (.json (J.marshalDecryptedPrime (bigInt64 m)))) stub' := by
  obtain ⟨rb, hrb, hru⟩ := hr
  obtain ⟨tb, htb, htu⟩ := ht
  obtain ⟨xb, hxb, hxu⟩ := hx
  obtain ⟨vb, hvb, hvu⟩ := hv
  simp only [decryptInsurancePremiumAndUpdate, hparse, hrb, hru, htb, htu, hxb, hxu, hvb, hvu,
    hdec, hend]

/-- `decryptInsurancePremiumAndUpdateWithoutParams` once the records load, `ComputeRPrime`
returns `rPrime` and `VerifyAndDecrypt` returns `m`. -/
theorem decryptInsurancePremiumAndUpdateWithoutParams_run {B : Type} (J : Json B)
    (stub stub' : Store B) (resultID : String) (rPrime : Int)
    (res : EncryptedCalculationResult) (trip : EncryptedTripData)
    (veh : EncryptedVehicleData) (verifier : Verifier) (decryptor : Decryptor)
    (m : Int) (mp : MonthPrime)
    (hr : stub.loads J.unmarshalResult resultID res)
    (ht : stub.loads J.unmarshalTrip ("trip_" ++ res.TripID) trip)
    (hx : stub.loads J.unmarshalVehicle ("vehicle_" ++ trip.VehicleID) veh)
    (hv : stub.loads J.unmarshalVerifier ("verifier_" ++ veh.OwnerID) verifier)
    (hd : stub.loads J.unmarshalDecryptor ("decryptor_" ++ veh.OwnerID) decryptor)
    (hrp : decryptor.ComputeRPrime res.R = .ok rPrime)
    (hdec : verifier.VerifyAndDecrypt res.PrimeTotale rPrime = .ok m)
    (hend : storePrimeAndMonthPrime J stub res trip (bigInt64 m) = (.ok mp, stub')) :
    decryptInsurancePremiumAndUpdateWithoutParams J stub [resultID] =
      .done (.success (.text ("Decrypted prime: " ++ toString (bigInt64 m)
        ++ ", updated month prime: " ++ toString mp.Prime))) stub' := by
  obtain ⟨rb, hrb, hru⟩ := hr
  obtain ⟨tb, htb, htu⟩ := ht
  obtain ⟨xb, hxb, hxu⟩ := hx
  obtain ⟨vb, hvb, hvu⟩ := hv
  obtain ⟨db, hdb, hdu⟩ := hd
  simp only [decryptInsurancePremiumAndUpdateWithoutParams, hrb, hru, htb, htu, hxb, hxu,
    hvb, hvu, hdb, hdu, hrp, hdec, hend]

/-- Values in the range of `int64` are not changed by the reduction. -/
theorem wrapInt64_of_range (x : Int) (h0 : -(2 ^ 63) ≤ x) (h1 : x < 2 ^ 63) :
    wrapInt64 x = x := by
  unfold wrapInt64
  rw [Int.emod_eq_of_lt (by omega) (by omega)]
  omega

theorem result_ne_prime (a b : String) : "result_" ++ a ≠ "prime_" ++ b := by
  intro h
  have := congrArg String.data h
  simp [String.data_append] at this

theorem trip_ne_prime (a b : String) : "trip_" ++ a ≠ "prime_" ++ b := by
  intro h
  have := congrArg String.data h
  simp [String.data_append] at this

theorem vehicle_ne_prime (a b : String) : "vehicle_" ++ a ≠ "prime_" ++ b := by
  intro h
  have := congrArg String.data h
  simp [String.data_append] at this

theorem verifier_ne_prime (a b : String) : "verifier_" ++ a ≠ "prime_" ++ b := by
  intro h
  have := congrArg String.data h
  simp [String.data_append] at this

theorem result_ne_monthPrime (a v : String) (x y : Int) :
    "result_" ++ a ≠ monthPrimeKeyOf v x y := by
  intro h
  have := congrArg String.data h
  simp [monthPrimeKeyOf, String.data_append] at this

theorem trip_ne_monthPrime (a v : String) (x y : Int) :
    "trip_" ++ a ≠ monthPrimeKeyOf v x y := by
  intro h
  have := congrArg String.data h
  simp [monthPrimeKeyOf, String.data_append] at this

theorem vehicle_ne_monthPrime (a v : String) (x y : Int) :
    "vehicle_" ++ a ≠ monthPrimeKeyOf v x y := by
  intro h
  have := congrArg String.data h
  simp [monthPrimeKeyOf, String.data_append] at this

theorem verifier_ne_monthPrime (a v : String) (x y : Int) :
    "verifier_" ++ a ≠ monthPrimeKeyOf v x y := by
  intro h
  have := congrArg String.data h
  simp [monthPrimeKeyOf, String.data_append] at this

/-- `VerifyAndDecrypt` of `bigResult` with the hint `1` returns `2 ^ 63`. -/
theorem bigResult_decrypts :
    bigVerifier.VerifyAndDecrypt bigResult.PrimeTotale 1 = .ok 9223372036854775808 := by
  have h := verifyAndDecrypt_of_modEq bigVerifier (by decide) bigResult.PrimeTotale
    9223372036854775808 1 1 isCoprime_one_left
    (by simp only [one_pow, mul_one]; exact Int.ModEq.refl _) (Int.ModEq.refl _)
  rw [h]
  congr 1

/-! ## `HomomorphicSum` as a fold -/

/-- A failed accumulator stays failed through the fold of the specification. -/
theorem homomorphicSumSpec_fold_error (v : Verifier) (msg : String) (cs : List Int) :
    cs.foldl (fun (acc : Res Int) c => acc.bind fun a => v.HomomorphicAddition a c)
      (.error msg) = .error msg := by
  induction cs with
  | nil => rfl
  | cons c cs ih => exact ih

theorem homomorphicSumSpec_fold_panic (v : Verifier) (cs : List Int) :
    cs.foldl (fun (acc : Res Int) c => acc.bind fun a => v.HomomorphicAddition a c)
      .panic = .panic := by
  induction cs with
  | nil => rfl
  | cons c cs ih => exact ih

/-- The loop of `HomomorphicSum` from any accumulator is the fold of the specification. -/
theorem homomorphicSum_loop_eq_fold (v : Verifier) (cs : List Int) (acc : Int) :
    List.foldlM (fun result ciphertext => bigMod (result * ciphertext) (v.N * v.N)) acc cs
      = cs.foldl (fun (acc : Res Int) c => acc.bind fun a => v.HomomorphicAddition a c)
          (.ok acc) := by
  induction cs generalizing acc with
  | nil => rfl
  | cons c cs ih =>
    rw [List.foldlM_cons, Res.bind_eq, List.foldl_cons]
    have hstep : (Res.ok acc).bind (fun a => v.HomomorphicAddition a c)
        = bigMod (acc * c) (v.N * v.N) := rfl
    rw [hstep]
    cases h : bigMod (acc * c) (v.N * v.N) with
    | ok a => exact ih a
    | error msg => exact (homomorphicSumSpec_fold_error v msg cs).symm
    | panic => exact (homomorphicSumSpec_fold_panic v cs).symm

/-- For a non-zero modulus the loop of `HomomorphicSum` returns the pure fold. -/
theorem homomorphicSum_loop_ok (v : Verifier) (hN : v.N * v.N ≠ 0) (cs : List Int) (acc : Int) :
    List.foldlM (fun result ciphertext => bigMod (result * ciphertext) (v.N * v.N)) acc cs
      = .ok (cs.foldl (fun result ciphertext => result * ciphertext % (v.N * v.N)) acc) := by
  induction cs generalizing acc with
  | nil => rfl
  | cons c cs ih =>
    rw [homomorphicSum_cons v hN, List.foldl_cons]
    exact ih _

/-- `Encrypt` for a modulus `N ≥ 2`, with the calls to `math/big` evaluated. -/
theorem encrypt_eq (v : Verifier) (hN : 2 ≤ v.N) (m r : Int) :
    v.Encrypt m r = .ok ((1 + m * v.N) * r ^ v.N.toNat % (v.N * v.N)) := by
  have hN0 : v.N ≠ 0 := by omega
  have hNN0 : v.N * v.N ≠ 0 := mul_ne_zero hN0 hN0
  have hdraw : ¬ v.N - 1 ≤ 0 := by omega
  simp only [Verifier.Encrypt, if_neg hdraw, bigExp_of_nonneg r v.N (v.N * v.N) (by omega) hNN0,
    deref, Res.ok_bind, bigMod, if_neg hNN0]
  congr 1
  exact ((Int.mod_modEq _ _).mul_left _)

/-! ## Order independence and cancellation -/

/-- The loop of `HomomorphicSum` as a product: the accumulator itself for the empty list,
and the reduced product otherwise. -/
theorem homomorphicSum_fold_prod (M : Int) (cs : List Int) (acc : Int) :
    cs.foldl (fun result ciphertext => result * ciphertext % M) acc =
      if cs = [] then acc else acc * cs.prod % M := by
  induction cs generalizing acc with
  | nil => simp
  | cons c cs ih =>
    rw [List.foldl_cons, ih]
    by_cases hcs : cs = []
    · subst hcs
      simp
    · rw [if_neg hcs, if_neg (List.cons_ne_nil c cs), List.prod_cons]
      have h : acc * c % M * cs.prod ≡ acc * c * cs.prod [ZMOD M] :=
        (Int.mod_modEq _ _).mul_right _
      rw [← mul_assoc]
      exact h

/-- `EncryptWithCustomRandom` for a modulus `N ≥ 2` and an accepted `r`, with the calls to
`math/big` evaluated. -/
theorem encryptWithCustomRandom_eq (v : Verifier) (hN : 2 ≤ v.N) (m r : Int)
    (h1 : 1 ≤ r) (h2 : r < v.N - 1) :
    v.EncryptWithCustomRandom m r = .ok ((1 + m * v.N) * r ^ v.N.toNat % (v.N * v.N)) := by
  have hN0 : v.N ≠ 0 := by omega
  have hNN0 : v.N * v.N ≠ 0 := mul_ne_zero hN0 hN0
  have hrange : ¬ (r < 1 ∨ r ≥ v.N - 1) := by omega
  simp only [Verifier.EncryptWithCustomRandom, if_neg hrange,
    bigExp_of_nonneg r v.N (v.N * v.N) (by omega) hNN0, deref, Res.ok_bind, bigMod, if_neg hNN0]
  congr 1
  exact ((Int.mod_modEq _ _).mul_left _)

/-- `EncryptWithCustomRandom` outside the accepted range. -/
theorem encryptWithCustomRandom_rejects (v : Verifier) (m r : Int)
    (h : r < 1 ∨ r ≥ v.N - 1) :
    v.EncryptWithCustomRandom m r = .error "r must be in the range [1, N-1]" := by
  simp only [Verifier.EncryptWithCustomRandom, if_pos h]

/-- Two encryptions with the same randomness coprime to `N` are congruent modulo `N²`
exactly when the plaintexts are congruent modulo `N`. -/
theorem encryption_cancel (N r m1 m2 : Int) (k : Nat) (hN : N ≠ 0) (hg : IsCoprime r N) :
    (1 + m1 * N) * r ^ k ≡ (1 + m2 * N) * r ^ k [ZMOD N * N] ↔ m1 ≡ m2 [ZMOD N] := by
  have hc : IsCoprime (r ^ k) N := hg.pow_left
  constructor
  · intro h
    rw [Int.modEq_iff_dvd] at h ⊢
    have h1 : N * N ∣ N * ((m2 - m1) * r ^ k) := by
      have : (1 + m2 * N) * r ^ k - (1 + m1 * N) * r ^ k = N * ((m2 - m1) * r ^ k) := by ring
      rwa [this] at h
    have h2 : N ∣ (m2 - m1) * r ^ k := (mul_dvd_mul_iff_left hN).mp h1
    exact (hc.symm.dvd_of_dvd_mul_right h2)
  · intro h
    rw [Int.modEq_iff_dvd] at h ⊢
    obtain ⟨t, ht⟩ := h
    refine ⟨t * r ^ k, ?_⟩
    have : (1 + m2 * N) * r ^ k - (1 + m1 * N) * r ^ k = N * ((m2 - m1) * r ^ k) := by ring
    rw [this, ht]
    ring

/-- Fermat for every residue: modulo a prime `p`, `x ^ k ≡ x` when `k ≥ 1` and
`k ≡ 1 (mod p - 1)`. -/
theorem pow_modEq_self_of_prime (p : Nat) (hp : p.Prime) (x : Int) (j : Nat) :
    x ^ (1 + (p - 1) * j) ≡ x [ZMOD p] := by
  by_cases hd : (p : Int) ∣ x
  · have h0 : x ≡ 0 [ZMOD p] := (Int.modEq_zero_iff_dvd).mpr hd
    have h1 : x ^ (1 + (p - 1) * j) ≡ 0 ^ (1 + (p - 1) * j) [ZMOD p] := h0.pow _
    rw [zero_pow (by omega)] at h1
    exact h1.trans h0.symm
  · have hcop : IsCoprime x (p : Int) := by
      rw [Int.isCoprime_iff_gcd_eq_one, Int.gcd_comm]
      have hnd : ¬ p ∣ x.natAbs := fun h => hd (Int.natCast_dvd.mpr h)
      have := (Nat.Prime.coprime_iff_not_dvd hp).mpr hnd
      simpa [Int.gcd] using this
    have hf : x ^ (p - 1) ≡ 1 [ZMOD p] := Int.ModEq.pow_card_sub_one_eq_one hp hcop
    rw [pow_add, pow_one, pow_mul]
    have := (hf.pow j).mul_left x
    simpa using this

/-- The exponent `N d` with `N d ≡ 1 (mod lcm(p-1, q-1))` fixes every residue modulo
`N = p q`, coprime to `N` or not. -/
theorem pow_mul_inverse_modEq_all (p q : Nat) (hp : p.Prime) (hq : q.Prime) (hpq : p ≠ q)
    (x d : Int) (hd0 : 0 ≤ d)
    (hd : ((p : Int) * q) * d ≡ 1 [ZMOD (Nat.lcm (p - 1) (q - 1) : Int)]) :
    (x ^ d.toNat) ^ (p * q) ≡ x [ZMOD (p : Int) * q] := by
  have hl := two_le_lcm_pred p q hp hq hpq
  obtain ⟨k, hk⟩ := Int.modEq_iff_dvd.mp hd.symm
  have hdn : ((d.toNat : Nat) : Int) = d := Int.toNat_of_nonneg hd0
  have hN : (0 : Int) ≤ (p : Int) * q := by positivity
  have he : (0 : Int) ≤ (p : Int) * q * d := mul_nonneg hN hd0
  have hk0 : 0 ≤ k := by
    by_contra hneg
    have hk1 : k ≤ -1 := by omega
    have hl' : (2 : Int) ≤ (Nat.lcm (p - 1) (q - 1) : Int) := by exact_mod_cast hl
    nlinarith
  have hexp : d.toNat * (p * q) = 1 + Nat.lcm (p - 1) (q - 1) * k.toNat := by
    have hkn : ((k.toNat : Nat) : Int) = k := Int.toNat_of_nonneg hk0
    have : ((d.toNat * (p * q) : Nat) : Int)
        = ((1 + Nat.lcm (p - 1) (q - 1) * k.toNat : Nat) : Int) := by
      push_cast
      rw [hdn, hkn]
      linarith
    exact_mod_cast this
  rw [← pow_mul, hexp]
  obtain ⟨a, ha⟩ := Nat.dvd_lcm_left (p - 1) (q - 1)
  obtain ⟨b, hb⟩ := Nat.dvd_lcm_right (p - 1) (q - 1)
  have h1 : x ^ (1 + Nat.lcm (p - 1) (q - 1) * k.toNat) ≡ x [ZMOD p] := by
    rw [ha, mul_assoc]
    exact pow_modEq_self_of_prime p hp x _
  have h2 : x ^ (1 + Nat.lcm (p - 1) (q - 1) * k.toNat) ≡ x [ZMOD q] := by
    rw [hb, mul_assoc]
    exact pow_modEq_self_of_prime q hq x _
  have hcop : Nat.Coprime p q := (Nat.coprime_primes hp hq).mpr hpq
  have := (Int.modEq_and_modEq_iff_modEq_mul (by simpa using hcop)).mp ⟨h1, h2⟩
  simpa using this

/-- The decryptor's hint under a valid key: `ComputeRPrime` always succeeds, with an
exponent `e ≥ 0` such that `N e ≡ 1 (mod lambda)`. -/
theorem computeRPrime_eq (v : Verifier) (d : Decryptor) (hk : ValidKey v d) :
    ∃ e : Int, 0 ≤ e ∧ d.N * e ≡ 1 [ZMOD d.Lambda] ∧
      ∀ R, d.ComputeRPrime R = .ok (R ^ e.toNat % d.N) := by
  have h2 := hk.two_le
  obtain ⟨p, q, hp, hq, hpq, -, -, -, -, hdN, hN, hlam, hg⟩ := hk
  have hl := two_le_lcm_pred p q hp hq hpq
  have hl0 : d.Lambda ≠ 0 := by
    rw [hlam]
    have : (2 : Int) ≤ (Nat.lcm (p - 1) (q - 1) : Int) := by exact_mod_cast hl
    omega
  obtain ⟨e, he, he0, -, hinv⟩ := bigModInverse_of_coprime d.N d.Lambda hl0 hg
  have hN0 : d.N ≠ 0 := by rw [hdN, ← hN]; omega
  refine ⟨e, he0, hinv, fun R => ?_⟩
  simp only [Decryptor.ComputeRPrime, he, Res.ok_bind, bigExp_of_nonneg R e d.N he0 hN0, deref]

/-- The hint of the decryptor for any residue `R`: its `N`-th power is `R` again modulo
`N`. -/
theorem computeRPrime_pow (v : Verifier) (d : Decryptor) (hk : ValidKey v d) (R : Int) :
    ∃ R', d.ComputeRPrime R = .ok R' ∧ 0 ≤ R' ∧ R' < v.N ∧
      R' ^ v.N.toNat ≡ R [ZMOD v.N] := by
  have h2 := hk.two_le
  obtain ⟨e, he0, hinv, hrun⟩ := computeRPrime_eq v d hk
  obtain ⟨p, q, hp, hq, hpq, -, -, -, -, hdN, hN, hlam, hg⟩ := hk
  have hNt : v.N.toNat = p * q := by
    rw [hN]
    have : ((p : Int) * q) = ((p * q : Nat) : Int) := by push_cast; rfl
    rw [this, Int.toNat_natCast]
  have hvd : d.N = v.N := by rw [hdN, hN]
  refine ⟨R ^ e.toNat % d.N, hrun R, ?_, ?_, ?_⟩
  · exact Int.emod_nonneg _ (by rw [hvd]; omega)
  · rw [hvd]
    exact Int.emod_lt_of_pos _ (by omega)
  · rw [hvd]
    refine ((Int.mod_modEq _ _).pow _).trans ?_
    rw [hNt, hN]
    rw [hdN, hlam] at hinv
    exact pow_mul_inverse_modEq_all p q hp hq hpq R e he0 hinv

/-! ## Creation of trip records -/

theorem Res.bind_eq_ok {α β : Type} (x : Res α) (f : α → Res β) (b : β)
    (h : x.bind f = .ok b) : ∃ a, x = .ok a ∧ f a = .ok b := by
  cases x with
  | ok a => exact ⟨a, rfl, h⟩
  | error msg => simp [Res.bind] at h
  | panic => simp [Res.bind] at h

/-- A metric that `addTripData` encrypted: the argument converted to a plaintext and the
ciphertext is its encryption with the randomness `r`. -/
theorem encryptMetric_ok_inv (parseFloat : String → Except String Int) (v : Verifier)
    (r : Int) (field value : String) (c : Int)
    (h : encryptMetric parseFloat v r field value = .ok c) :
    ∃ m, parseFloat value = .ok m ∧ v.EncryptWithCustomRandom m r = .ok c := by
  unfold encryptMetric toBigInt at h
  cases hp : parseFloat value with
  | error err => simp [hp] at h
  | ok m =>
    simp only [hp] at h
    refine ⟨m, rfl, ?_⟩
    cases he : v.EncryptWithCustomRandom m r with
    | ok c' => simpa [he] using h
    | error err => simp [he] at h
    | panic => simp [he] at h

/-- With a randomness outside the accepted range no metric is encrypted: the step returns
an error. -/
theorem encryptMetric_rejected (parseFloat : String → Except String Int) (v : Verifier)
    (r : Int) (field value : String) (hr : r < 1 ∨ r ≥ v.N - 1) :
    ∃ msg, encryptMetric parseFloat v r field value = .error msg := by
  unfold encryptMetric toBigInt
  cases hp : parseFloat value with
  | error err => exact ⟨_, rfl⟩
  | ok m =>
    simp only [encryptWithCustomRandom_rejects v m r hr]
    exact ⟨_, rfl⟩

/-- A successful `addTripData`: the verifier of the owner loaded, the randomness was
derived from the vehicle, the trip and the date, each metric is the encryption of its
converted argument with that randomness, and the record was written under the trip key. -/
theorem addTripData_success_inv {B : Type} (J : Json B)
    (parseFloat : String → Except String Int) (stub stub' : Store B) (args : List String)
    (pl : Payload B) (h : addTripData J parseFloat stub args = .done (.success pl) stub') :
    ∃ vehicleID tripID date a3 a4 a5 a6 a7 a8 a9 a10 owner verifier r t,
      args = [vehicleID, tripID, date, a3, a4, a5, a6, a7, a8, a9, a10, owner] ∧
      stub.loads J.unmarshalVerifier ("verifier_" ++ owner) verifier ∧
      generateDeterministicR (vehicleID ++ tripID ++ date) verifier.N = .ok r ∧
      List.Forall₂ (fun a c => ∃ m, parseFloat a = .ok m ∧
          verifier.EncryptWithCustomRandom m r = .ok c)
        [a3, a4, a5, a6, a7, a8, a9, a10] (tripMetrics t) ∧
      t.VehicleID = vehicleID ∧ t.TripID = tripID ∧ t.Date = date ∧
      stub' = stub.put ("trip_" ++ tripID) (J.marshalTrip t) ∧ pl = .empty := by
  unfold addTripData at h
  split at h
  · rename_i vehicleID tripID date a3 a4 a5 a6 a7 a8 a9 a10 owner
    simp only at h
    split at h
    · simp at h
    rename_i vb hvb
    split at h
    · simp at h
    rename_i verifier hver
    split at h
    · simp at h
    · simp at h
    rename_i t ht
    simp only [Invocation.done.injEq, Response.success.injEq] at h
    obtain ⟨h1, h2⟩ := h
    obtain ⟨r, hr, ht⟩ := Res.bind_eq_ok _ _ _ ht
    obtain ⟨c3, e3, ht⟩ := Res.bind_eq_ok _ _ _ ht
    obtain ⟨c4, e4, ht⟩ := Res.bind_eq_ok _ _ _ ht
    obtain ⟨c5, e5, ht⟩ := Res.bind_eq_ok _ _ _ ht
    obtain ⟨c6, e6, ht⟩ := Res.bind_eq_ok _ _ _ ht
    obtain ⟨c7, e7, ht⟩ := Res.bind_eq_ok _ _ _ ht
    obtain ⟨c8, e8, ht⟩ := Res.bind_eq_ok _ _ _ ht
    obtain ⟨c9, e9, ht⟩ := Res.bind_eq_ok _ _ _ ht
    obtain ⟨c10, e10, ht⟩ := Res.bind_eq_ok _ _ _ ht
    simp only [Res.ok.injEq] at ht
    subst ht
    refine ⟨vehicleID, tripID, date, a3, a4, a5, a6, a7, a8, a9, a10, owner, verifier, r, _,
      rfl, ⟨vb, hvb, hver⟩, hr, ?_, rfl, rfl, rfl, h2.symm, h1.symm⟩
    simp only [tripMetrics, List.forall₂_cons, List.Forall₂.nil, and_true]
    exact ⟨encryptMetric_ok_inv _ _ _ _ _ _ e3, encryptMetric_ok_inv _ _ _ _ _ _ e4,
      encryptMetric_ok_inv _ _ _ _ _ _ e5, encryptMetric_ok_inv _ _ _ _ _ _ e6,
      encryptMetric_ok_inv _ _ _ _ _ _ e7, encryptMetric_ok_inv _ _ _ _ _ _ e8,
      encryptMetric_ok_inv _ _ _ _ _ _ e9, encryptMetric_ok_inv _ _ _ _ _ _ e10⟩
  · simp at h

/-- With a derived randomness outside the accepted range `addTripData` answers with an
error and writes nothing. -/
theorem addTripData_rejected {B : Type} (J : Json B)
    (parseFloat : String → Except String Int) (stub : Store B)
    (vehicleID tripID date a3 a4 a5 a6 a7 a8 a9 a10 owner : String) (v : Verifier) (r : Int)
    (hv : stub.loads J.unmarshalVerifier ("verifier_" ++ owner) v)
    (hgen : generateDeterministicR (vehicleID ++ tripID ++ date) v.N = .ok r)
    (hr : r < 1 ∨ r ≥ v.N - 1) :
    ∃ msg, addTripData J parseFloat stub
        [vehicleID, tripID, date, a3, a4, a5, a6, a7, a8, a9, a10, owner] =
      .done (.error msg) stub := by
  obtain ⟨vb, hvb, hvu⟩ := hv
  obtain ⟨msg, hmsg⟩ := encryptMetric_rejected parseFloat v r "Speeding" a3 hr
  refine ⟨msg, ?_⟩
  simp only [addTripData, hvb, hvu, hgen, Res.ok_bind, hmsg, Res.bind]

/-! ## Failures of the decrypt-and-update flow -/

theorem Invocation.done_error_inj {B : Type} (a msg : String) (s s' : Store B)
    (h : Invocation.done (.error a) s = .done (.error msg) s') : s' = s := by
  simp only [Invocation.done.injEq] at h
  exact h.2.symm

/-- The end of the flow when the date does not parse: the `Prime` record is written and
the error is returned. -/
theorem storePrimeAndMonthPrime_bad_date {B : Type} (J : Json B) (stub : Store B)
    (res : EncryptedCalculationResult) (trip : EncryptedTripData) (p : Int)
    (hdate : sscanfYearMonth trip.Date = none) :
    storePrimeAndMonthPrime J stub res trip p =
      (.error ("Invalid date format: " ++ ("failed to parse date: " ++ trip.Date)),
        stub.put ("prime_" ++ res.TripID)
          (J.marshalPrime { TripID := res.TripID, Date := trip.Date, Prime := p })) := by
  simp only [storePrimeAndMonthPrime, extractYearAndMonth, hdate]

/-- A failed end of the flow leaves exactly the `Prime` record written, and the error is
the one of the date or the one of an undecodable month record. -/
theorem storePrimeAndMonthPrime_error_inv {B : Type} (J : Json B) (stub stub' : Store B)
    (res : EncryptedCalculationResult) (trip : EncryptedTripData) (p : Int) (msg : String)
    (h : storePrimeAndMonthPrime J stub res trip p = (.error msg, stub')) :
    stub' = stub.put ("prime_" ++ res.TripID)
      (J.marshalPrime { TripID := res.TripID, Date := trip.Date, Prime := p }) ∧
    ((sscanfYearMonth trip.Date = none ∧
        msg = "Invalid date format: " ++ ("failed to parse date: " ++ trip.Date)) ∨
      (∃ (year month : Int) (bytes : B), sscanfYearMonth trip.Date = some (year, month) ∧
        stub (monthPrimeKeyOf trip.VehicleID year month) = some bytes ∧
        J.unmarshalMonthPrime bytes = none ∧ msg = "Failed to unmarshal MonthPrime")) := by
  rcases hdate : sscanfYearMonth trip.Date with _ | ⟨year, month⟩
  · rw [storePrimeAndMonthPrime_bad_date J stub res trip p hdate] at h
    simp only [Prod.mk.injEq, Except.error.injEq] at h
    exact ⟨h.2.symm, Or.inl ⟨rfl, h.1.symm⟩⟩
  · rcases hkey : stub (monthPrimeKeyOf trip.VehicleID year month) with _ | bytes
    · rw [storePrimeAndMonthPrime_absent J stub res trip p year month hdate hkey] at h
      simp at h
    · have hk := Store.put_other stub ("prime_" ++ res.TripID)
        (monthPrimeKeyOf trip.VehicleID year month)
        (J.marshalPrime { TripID := res.TripID, Date := trip.Date, Prime := p })
        (monthPrimeKeyOf_ne_prime _ _ _ _)
      rcases hold : J.unmarshalMonthPrime bytes with _ | old
      · simp only [storePrimeAndMonthPrime, extractYearAndMonth, hdate, hk, hkey, hold,
          Prod.mk.injEq, Except.error.injEq] at h
        exact ⟨h.2.symm, Or.inr ⟨year, month, bytes, rfl, hkey, hold, h.1.symm⟩⟩
      · rw [storePrimeAndMonthPrime_present J stub res trip p year month bytes old hdate hkey
          hold] at h
        simp at h

/-- An error response of `decryptInsurancePremiumAndUpdate`: either nothing was written, or
the records of the run loaded, `VerifyAndDecrypt` of the loaded result with the parsed
`r_prime` under the loaded verifier succeeded, and the end of the flow failed after
writing the `Prime` record. -/
theorem decryptInsurancePremiumAndUpdate_error_inv {B : Type} (J : Json B)
    (stub st' : Store B) (args : List String) (msg : String)
    (h : decryptInsurancePremiumAndUpdate J stub args = .done (.error msg) st') :
    st' = stub ∨
    ∃ (tripArg rPrimeArg : String) (rPrime : Int) (res : EncryptedCalculationResult)
        (trip : EncryptedTripData) (veh : EncryptedVehicleData) (verifier : Verifier)
        (m : Int),
      args = [tripArg, rPrimeArg] ∧ setString10 rPrimeArg = some rPrime ∧
      stub.loads J.unmarshalResult ("result_" ++ tripArg) res ∧
      stub.loads J.unmarshalTrip ("trip_" ++ res.TripID) trip ∧
      stub.loads J.unmarshalVehicle ("vehicle_" ++ trip.VehicleID) veh ∧
      stub.loads J.unmarshalVerifier ("verifier_" ++ veh.OwnerID) verifier ∧
      verifier.VerifyAndDecrypt res.PrimeTotale rPrime = .ok m ∧
      storePrimeAndMonthPrime J stub res trip (bigInt64 m) = (.error msg, st') := by
  unfold decryptInsurancePremiumAndUpdate at h
  split at h
  · rename_i tripArg rPrimeArg
    simp only at h
    split at h
    · exact Or.inl (Invocation.done_error_inj _ _ _ _ h)
    rename_i rPrime hparse
    split at h
    · exact Or.inl (Invocation.done_error_inj _ _ _ _ h)
    rename_i rb hrb
    split at h
    · exact Or.inl (Invocation.done_error_inj _ _ _ _ h)
    rename_i res hres
    split at h
    · exact Or.inl (Invocation.done_error_inj _ _ _ _ h)
    rename_i tb htb
    split at h
    · exact Or.inl (Invocation.done_error_inj _ _ _ _ h)
    rename_i trip htrip
    split at h
    · exact Or.inl (Invocation.done_error_inj _ _ _ _ h)
    rename_i xb hxb
    split at h
    · exact Or.inl (Invocation.done_error_inj _ _ _ _ h)
    rename_i veh hveh
    split at h
    · exact Or.inl (Invocation.done_error_inj _ _ _ _ h)
    rename_i vb hvb
    split at h
    · exact Or.inl (Invocation.done_error_inj _ _ _ _ h)
    rename_i verifier hver
    split at h
    · simp at h
    · exact Or.inl (Invocation.done_error_inj _ _ _ _ h)
    rename_i m hm
    split at h
    · rename_i emsg st hs
      simp only [Invocation.done.injEq, Response.error.injEq] at h
      obtain ⟨h1, h2⟩ := h
      subst h1 h2
      exact Or.inr ⟨tripArg, rPrimeArg, rPrime, res, trip, veh, verifier, m, rfl, hparse,
        ⟨rb, hrb, hres⟩, ⟨tb, htb, htrip⟩, ⟨xb, hxb, hveh⟩, ⟨vb, hvb, hver⟩, hm, hs⟩
    · simp at h
  · exact Or.inl (Invocation.done_error_inj _ _ _ _ h)

/-- An error response of `decryptInsurancePremiumAndUpdateWithoutParams`: either nothing was
written, or the records of the run loaded, the loaded decryptor computed `r_prime` from the
loaded result, `VerifyAndDecrypt` with it under the loaded verifier succeeded, and the end
of the flow failed after writing the `Prime` record. -/
theorem decryptInsurancePremiumAndUpdateWithoutParams_error_inv {B : Type} (J : Json B)
    (stub st' : Store B) (args : List String) (msg : String)
    (h : decryptInsurancePremiumAndUpdateWithoutParams J stub args = .done (.error msg) st') :
    st' = stub ∨
    ∃ (resultID : String) (rPrime : Int) (res : EncryptedCalculationResult)
        (trip : EncryptedTripData) (veh : EncryptedVehicleData) (verifier : Verifier)
        (decryptor : Decryptor) (m : Int),
      args = [resultID] ∧
      stub.loads J.unmarshalResult resultID res ∧
      stub.loads J.unmarshalTrip ("trip_" ++ res.TripID) trip ∧
      stub.loads J.unmarshalVehicle ("vehicle_" ++ trip.VehicleID) veh ∧
      stub.loads J.unmarshalVerifier ("verifier_" ++ veh.OwnerID) verifier ∧
      stub.loads J.unmarshalDecryptor ("decryptor_" ++ veh.OwnerID) decryptor ∧
      decryptor.ComputeRPrime res.R = .ok rPrime ∧
      verifier.VerifyAndDecrypt res.PrimeTotale rPrime = .ok m ∧
      storePrimeAndMonthPrime J stub res trip (bigInt64 m) = (.error msg, st') := by
  unfold decryptInsurancePremiumAndUpdateWithoutParams at h
  split at h
  · rename_i resultID
    simp only at h
    split at h
    · exact Or.inl (Invocation.done_error_inj _ _ _ _ h)
    rename_i rb hrb
    split at h
    · exact Or.inl (Invocation.done_error_inj _ _ _ _ h)
    rename_i res hres
    split at h
    · exact Or.inl (Invocation.done_error_inj _ _ _ _ h)
    rename_i tb htb
    split at h
    · exact Or.inl (Invocation.done_error_inj _ _ _ _ h)
    rename_i trip htrip
    split at h
    · exact Or.inl (Invocation.done_error_inj _ _ _ _ h)
    rename_i xb hxb
    split at h
    · exact Or.inl (Invocation.done_error_inj _ _ _ _ h)
    rename_i veh hveh
    split at h
    · exact Or.inl (Invocation.done_error_inj _ _ _ _ h)
    rename_i vb hvb
    split at h
    · exact Or.inl (Invocation.done_error_inj _ _ _ _ h)
    rename_i verifier hver
    split at h
    · exact Or.inl (Invocation.done_error_inj _ _ _ _ h)
    rename_i db hdb
    split at h
    · exact Or.inl (Invocation.done_error_inj _ _ _ _ h)
    rename_i decryptor hdec
    split at h
    · simp at h
    · exact Or.inl (Invocation.done_error_inj _ _ _ _ h)
    rename_i rPrime hrp
    split at h
    · simp at h
    · exact Or.inl (Invocation.done_error_inj _ _ _ _ h)
    rename_i m hm
    split at h
    · rename_i emsg st hs
      simp only [Invocation.done.injEq, Response.error.injEq] at h
      obtain ⟨h1, h2⟩ := h
      subst h1 h2
      exact Or.inr ⟨resultID, rPrime, res, trip, veh, verifier, decryptor, m, rfl,
        ⟨rb, hrb, hres⟩, ⟨tb, htb, htrip⟩, ⟨xb, hxb, hveh⟩, ⟨vb, hvb, hver⟩,
        ⟨db, hdb, hdec⟩, hrp, hm, hs⟩
    · simp at h
  · exact Or.inl (Invocation.done_error_inj _ _ _ _ h)

/-- When `N = p q` is coprime to `lcm(p - 1, q - 1)`, both primes are odd. -/
theorem odd_of_coprime_lcm (p q : Nat) (hp : p.Prime) (hq : q.Prime) (hpq : p ≠ q)
    (hg : Nat.gcd (p * q) (Nat.lcm (p - 1) (q - 1)) = 1) : Odd p ∧ Odd q := by
  have key : ∀ a b : Nat, a.Prime → b.Prime → a ≠ b →
      Nat.gcd (a * b) (Nat.lcm (a - 1) (b - 1)) = 1 → Odd a := by
    intro a b ha hb hab h
    rcases ha.eq_two_or_odd' with h2 | hodd
    · exfalso
      subst h2
      have hbodd : Odd b := (hb.eq_two_or_odd').resolve_left (fun h' => hab h'.symm)
      obtain ⟨k, hk⟩ := hbodd
      have d1 : 2 ∣ 2 * b := Dvd.intro _ rfl
      have d2 : 2 ∣ Nat.lcm (2 - 1) (b - 1) :=
        Dvd.dvd.trans ⟨k, by omega⟩ (Nat.dvd_lcm_right _ _)
      have := Nat.dvd_gcd d1 d2
      rw [h] at this
      omega
    · exact hodd
  refine ⟨key p q hp hq hpq hg, key q p hq hp (Ne.symm hpq) ?_⟩
  rwa [mul_comm, Nat.lcm_comm]

/-- A key pair over `N = p q` with `lambda = lcm(p - 1, q - 1)` coprime to `N` is valid
once the factors are recorded in the decryptor. -/
theorem validKey_of_coprime (v : Verifier) (d : Decryptor) (p q : Nat) (hp : p.Prime)
    (hq : q.Prime) (hpq : p ≠ q) (hvN : v.N = (p : Int) * q) (hdN : d.N = (p : Int) * q)
    (hlam : d.Lambda = (Nat.lcm (p - 1) (q - 1) : Int)) (hg : Int.gcd d.N d.Lambda = 1) :
    ValidKey v { d with P := p, Q := q } := by
  have hg' : Nat.gcd (p * q) (Nat.lcm (p - 1) (q - 1)) = 1 := by
    rw [hdN, hlam] at hg
    have e : ((p : Int) * q) = ((p * q : Nat) : Int) := by push_cast; rfl
    rw [e, Int.gcd_natCast_natCast] at hg
    exact hg
  obtain ⟨o1, o2⟩ := odd_of_coprime_lcm p q hp hq hpq hg'
  exact ⟨p, q, hp, hq, hpq, o1, o2, rfl, rfl, hdN, hvN, hlam, hg⟩

/-- The check of `addEncryptedTripData`: when the trip key is present the call answers with
the already-exists error and writes nothing. -/
theorem addEncryptedTripData_existing {B : Type} (J : Json B) (stub : Store B)
    (vehicleID tripID date a3 a4 a5 a6 a7 a8 a9 a10 : String) (bytes : B)
    (h : stub ("trip_" ++ tripID) = some bytes) :
    addEncryptedTripData J stub [vehicleID, tripID, date, a3, a4, a5, a6, a7, a8, a9, a10] =
      .done (.error "Trip data with this TripID already exists") stub := by
  simp only [addEncryptedTripData, h]

/-! ## The size of a digest -/

theorem sha256Round_length (s : List Nat) (kw : Nat × Nat) :
    (sha256Round s kw).length = s.length := by
  unfold sha256Round
  split <;> simp

theorem sha256Round_foldl_length (l : List (Nat × Nat)) (s : List Nat) :
    (l.foldl sha256Round s).length = s.length := by
  induction l generalizing s with
  | nil => rfl
  | cons kw l ih => rw [List.foldl_cons, ih, sha256Round_length]

theorem sha256Block_length (h block : List Nat) : (sha256Block h block).length = h.length := by
  simp [sha256Block, sha256Round_foldl_length]

theorem sha256Block_foldl_length (blocks : List (List Nat)) (h : List Nat) :
    (blocks.foldl sha256Block h).length = h.length := by
  induction blocks generalizing h with
  | nil => rfl
  | cons b blocks ih => rw [List.foldl_cons, ih, sha256Block_length]

theorem natToBytes_length (k x : Nat) : (natToBytes k x).length = k := by
  induction k generalizing x with
  | zero => rfl
  | succ k ih => simp [natToBytes, ih]

theorem natToBytes_lt (k x : Nat) : ∀ b ∈ natToBytes k x, b < 256 := by
  induction k generalizing x with
  | zero => simp [natToBytes]
  | succ k ih =>
    intro b hb
    simp only [natToBytes, List.mem_append, List.mem_singleton] at hb
    rcases hb with hb | hb
    · exact ih _ b hb
    · rw [hb]
      exact Nat.mod_lt _ (by norm_num)

theorem bytesToNat_foldl_lt (bs : List Nat) (hbs : ∀ b ∈ bs, b < 256) (acc : Nat) :
    bs.foldl (fun acc b => acc * 256 + b) acc < (acc + 1) * 256 ^ bs.length := by
  induction bs generalizing acc with
  | nil => simp
  | cons b bs ih =>
    rw [List.foldl_cons, List.length_cons]
    have hb : b < 256 := hbs b (List.mem_cons_self _ _)
    have h1 := ih (fun x hx => hbs x (List.mem_cons_of_mem _ hx)) (acc * 256 + b)
    have h2 : (acc * 256 + b + 1) * 256 ^ bs.length ≤ (acc + 1) * 256 ^ (bs.length + 1) := by
      rw [pow_succ, ← mul_assoc, mul_comm (acc + 1) (256 ^ bs.length), mul_comm _ (256 ^ bs.length),
        mul_assoc]
      apply Nat.mul_le_mul_left
      omega
    omega

/-- A digest has 32 bytes. -/
theorem sha256Sum256_length (msg : List Nat) : (sha256Sum256 msg).length = 32 := by
  have h8 : ∀ h : List Nat, h.length = 8 → (h.flatMap (natToBytes 4)).length = 32 := by
    intro h hh
    match h, hh with
    | [a, b, c, d, e, f, g, i], _ => simp [List.flatMap, natToBytes_length]
  apply h8
  rw [sha256Block_foldl_length]
  rfl

/-- A digest read as a big-endian integer is below `2 ^ 256`. -/
theorem sha256_digest_lt (msg : List Nat) : bytesToNat (sha256Sum256 msg) < 2 ^ 256 := by
  have hb : ∀ b ∈ sha256Sum256 msg, b < 256 := by
    intro b hb
    simp only [sha256Sum256, List.mem_flatMap] at hb
    obtain ⟨w, -, hw⟩ := hb
    exact natToBytes_lt 4 w b hw
  have := bytesToNat_foldl_lt (sha256Sum256 msg) hb 0
  rw [sha256Sum256_length] at this
  simpa [bytesToNat] using this

/-! ## The claims -/

/-- C1, as amended: round trip over `Encrypt`.  For every valid key, every plaintext
`0 ≤ m < N` and every value `r` that `Encrypt` can draw and that is coprime to `N`, the
ciphertext `C = Encrypt(m)` computed from `r` is decrypted back to `m`:
`ComputeRPrime(ComputeR(C))` succeeds with some `R'` and `VerifyAndDecrypt(C, R')` returns
exactly `m`. -/
theorem encrypt_roundtrip (v : Verifier) (d : Decryptor) (hk : ValidKey v d) (m r : Int)
    (hm0 : 0 ≤ m) (hm : m < v.N) (hr : v.canDraw r) (hcop : Int.gcd r v.N = 1) :
    ∃ C R R', v.Encrypt m r = .ok C ∧ v.ComputeR C = .ok R ∧
      d.ComputeRPrime R = .ok R' ∧ v.VerifyAndDecrypt C R' = .ok m := by
  have h2 := hk.two_le
  have hN0 : v.N ≠ 0 := by omega
  have hNN0 : v.N * v.N ≠ 0 := mul_ne_zero hN0 hN0
  have hdraw : ¬ v.N - 1 ≤ 0 := by
    have := hr.2
    have := hr.1
    omega
  have henc : v.Encrypt m r = .ok ((1 + m * v.N) * (r ^ v.N.toNat % (v.N * v.N)) % (v.N * v.N)) := by
    simp only [Verifier.Encrypt, if_neg hdraw, bigExp_of_nonneg r v.N (v.N * v.N) (by omega) hNN0,
      deref, Res.ok_bind, bigMod, if_neg hNN0]
  have hE : EncOf v.N ((1 + m * v.N) * (r ^ v.N.toNat % (v.N * v.N)) % (v.N * v.N)) m := by
    refine (EncOf.of_formula v.N m r hcop).congr ?_
    exact (Int.mod_modEq _ _).trans
      (((Int.mod_modEq _ _).mul_left _).trans (Int.mod_modEq _ _).symm)
  obtain ⟨R, R', h1, h3, h4⟩ := decrypt_of_encOf v d hk _ m hE
  rw [Int.emod_eq_of_lt hm0 hm] at h4
  exact ⟨_, R, R', henc, h1, h3, h4⟩

/-- Instance of C1 (amended) on the key `N = 15`, plaintext `7`, randomness `2`. -/
theorem encrypt_roundtrip_witness :
    ValidKey exampleVerifier exampleDecryptor ∧ (0 : Int) ≤ 7 ∧ (7 : Int) < exampleVerifier.N ∧
    exampleVerifier.canDraw 2 ∧ Int.gcd 2 exampleVerifier.N = 1 ∧
    ∃ C R R', exampleVerifier.Encrypt 7 2 = .ok C ∧ exampleVerifier.ComputeR C = .ok R ∧
      exampleDecryptor.ComputeRPrime R = .ok R' ∧ exampleVerifier.VerifyAndDecrypt C R' = .ok 7 :=
  ⟨exampleKey_valid, by decide, by decide, by decide, by decide,
    encrypt_roundtrip exampleVerifier exampleDecryptor exampleKey_valid 7 2
      (by decide) (by decide) (by decide) (by decide)⟩

/-- C1 as stated fails: on the valid key `N = 15 = 3 * 5` the value `r = 3` lies in the
range `[0, N - 1)` that `Encrypt` draws from, `Encrypt(7)` computed from it is `117`, the
hint is `R = 12`, `R' = 3`, and `VerifyAndDecrypt(117, 3)` returns the error
"Failed to compute modular inverse of S" instead of the plaintext `7`. -/
theorem encrypt_roundtrip_fails_on_shared_factor :
    ValidKey exampleVerifier exampleDecryptor ∧ (0 : Int) ≤ 7 ∧ (7 : Int) < exampleVerifier.N ∧
    exampleVerifier.canDraw 3 ∧
    exampleVerifier.Encrypt 7 3 = .ok 117 ∧ exampleVerifier.ComputeR 117 = .ok 12 ∧
    exampleDecryptor.ComputeRPrime 12 = .ok 3 ∧
    exampleVerifier.VerifyAndDecrypt 117 3 = .error "Failed to compute modular inverse of S" ∧
    ¬ ∃ C R R', exampleVerifier.Encrypt 7 3 = .ok C ∧ exampleVerifier.ComputeR C = .ok R ∧
      exampleDecryptor.ComputeRPrime R = .ok R' ∧ exampleVerifier.VerifyAndDecrypt C R' = .ok 7 := by
  have e1 : exampleVerifier.Encrypt 7 3 = .ok 117 := by decide
  have e2 : exampleVerifier.ComputeR 117 = .ok 12 := by decide
  have e3 : exampleDecryptor.ComputeRPrime 12 = .ok 3 := by decide
  have e4 : exampleVerifier.VerifyAndDecrypt 117 3 =
      .error "Failed to compute modular inverse of S" := by decide
  refine ⟨exampleKey_valid, by decide, by decide, by decide, e1, e2, e3, e4, ?_⟩
  rintro ⟨C, R, R', h1, h2, h3, h4⟩
  rw [e1] at h1
  cases h1
  rw [e2] at h2
  cases h2
  rw [e3] at h3
  cases h3
  rw [e4] at h4
  cases h4

/-- C2: additive homomorphism.  For every valid key, all plaintexts `m1, m2` (in `[0, N)`
or not) and all randomness `r1, r2` coprime to `N`, with `Ci = (1 + mi N) ri ^ N mod N²`
and `C = HomomorphicAddition(C1, C2)`: `ComputeRPrime(ComputeR(C))` succeeds with some `R'`
and `VerifyAndDecrypt(C, R')` returns `(m1 + m2) mod N`. -/
theorem additive_homomorphism (v : Verifier) (d : Decryptor) (hk : ValidKey v d)
    (m1 m2 r1 r2 : Int) (hr1 : Int.gcd r1 v.N = 1) (hr2 : Int.gcd r2 v.N = 1) :
    ∃ C R R',
      v.HomomorphicAddition ((1 + m1 * v.N) * r1 ^ v.N.toNat % (v.N * v.N))
        ((1 + m2 * v.N) * r2 ^ v.N.toNat % (v.N * v.N)) = .ok C ∧
      v.ComputeR C = .ok R ∧ d.ComputeRPrime R = .ok R' ∧
      v.VerifyAndDecrypt C R' = .ok ((m1 + m2) % v.N) := by
  have h2 := hk.two_le
  have hN0 : v.N ≠ 0 := by omega
  have hNN0 : v.N * v.N ≠ 0 := mul_ne_zero hN0 hN0
  have hE := ((EncOf.of_formula v.N m1 r1 hr1).mul (EncOf.of_formula v.N m2 r2 hr2)).congr
    (Int.mod_modEq _ (v.N * v.N))
  obtain ⟨R, R', h1, h3, h4⟩ := decrypt_of_encOf v d hk _ _ hE
  refine ⟨_, R, R', ?_, h1, h3, h4⟩
  simp only [Verifier.HomomorphicAddition, bigMod, if_neg hNN0]

/-- Instance of C2 on the key `N = 15`: plaintexts `7` and `11`, randomness `2` and `4`. -/
theorem additive_homomorphism_witness :
    ValidKey exampleVerifier exampleDecryptor ∧ Int.gcd 2 exampleVerifier.N = 1 ∧
    Int.gcd 4 exampleVerifier.N = 1 ∧
    ∃ C R R',
      exampleVerifier.HomomorphicAddition
        ((1 + 7 * exampleVerifier.N) * 2 ^ exampleVerifier.N.toNat
          % (exampleVerifier.N * exampleVerifier.N))
        ((1 + 11 * exampleVerifier.N) * 4 ^ exampleVerifier.N.toNat
          % (exampleVerifier.N * exampleVerifier.N)) = .ok C ∧
      exampleVerifier.ComputeR C = .ok R ∧ exampleDecryptor.ComputeRPrime R = .ok R' ∧
      exampleVerifier.VerifyAndDecrypt C R' = .ok ((7 + 11) % exampleVerifier.N) :=
  ⟨exampleKey_valid, by decide, by decide,
    additive_homomorphism exampleVerifier exampleDecryptor exampleKey_valid 7 11 2 4
      (by decide) (by decide)⟩

/-- C3: scalar homomorphism.  For every valid key, every plaintext `m` (in `[0, N)` or
not), every randomness `r` coprime to `N` and every integer `alpha ≥ 0` (zero included),
with `C = (1 + m N) r ^ N mod N²`: `HomomorphicMultiplication(C, alpha)` returns a
ciphertext `C'`, `ComputeRPrime(ComputeR(C'))` succeeds with some `R'` and
`VerifyAndDecrypt(C', R')` returns `(m * alpha) mod N`. -/
theorem scalar_homomorphism (v : Verifier) (d : Decryptor) (hk : ValidKey v d)
    (m r alpha : Int) (hr : Int.gcd r v.N = 1) (ha : 0 ≤ alpha) :
    ∃ C' R R',
      v.HomomorphicMultiplication ((1 + m * v.N) * r ^ v.N.toNat % (v.N * v.N)) alpha
        = some C' ∧
      v.ComputeR C' = .ok R ∧ d.ComputeRPrime R = .ok R' ∧
      v.VerifyAndDecrypt C' R' = .ok (m * alpha % v.N) := by
  have h2 := hk.two_le
  have hN0 : v.N ≠ 0 := by omega
  have hNN0 : v.N * v.N ≠ 0 := mul_ne_zero hN0 hN0
  have hE := ((EncOf.of_formula v.N m r hr).pow alpha.toNat).congr
    (Int.mod_modEq _ (v.N * v.N))
  rw [Int.toNat_of_nonneg ha] at hE
  obtain ⟨R, R', h1, h3, h4⟩ := decrypt_of_encOf v d hk _ _ hE
  refine ⟨_, R, R', ?_, h1, h3, h4⟩
  simp only [Verifier.HomomorphicMultiplication, bigExp_of_nonneg _ alpha _ ha hNN0]

/-- Instance of C3 on the key `N = 15`: plaintext `7`, randomness `2`, scalar `3`.  The
ciphertext is 83, its cube modulo 225 is 62, the hint of 62 is 8, and 62 decrypts to
`7 * 3 mod 15 = 6`. -/
theorem scalar_homomorphism_witness :
    ValidKey exampleVerifier exampleDecryptor ∧ Int.gcd 2 exampleVerifier.N = 1 ∧
    (0 : Int) ≤ 3 ∧
    (1 + 7 * exampleVerifier.N) * 2 ^ exampleVerifier.N.toNat
      % (exampleVerifier.N * exampleVerifier.N) = 83 ∧
    exampleVerifier.HomomorphicMultiplication 83 3 = some 62 ∧
    exampleVerifier.ComputeR 62 = .ok 2 ∧ exampleDecryptor.ComputeRPrime 2 = .ok 8 ∧
    exampleVerifier.VerifyAndDecrypt 62 8 = .ok 6 ∧
    ∃ C' R R',
      exampleVerifier.HomomorphicMultiplication
        ((1 + 7 * exampleVerifier.N) * 2 ^ exampleVerifier.N.toNat
          % (exampleVerifier.N * exampleVerifier.N)) 3 = some C' ∧
      exampleVerifier.ComputeR C' = .ok R ∧ exampleDecryptor.ComputeRPrime R = .ok R' ∧
      exampleVerifier.VerifyAndDecrypt C' R' = .ok (7 * 3 % exampleVerifier.N) :=
  ⟨exampleKey_valid, by decide, by decide, by decide, by decide, by decide, by decide,
    by decide,
    scalar_homomorphism exampleVerifier exampleDecryptor exampleKey_valid 7 2 3
      (by decide) (by decide)⟩

/-- C4: subtraction inverse law.  For every modulus `N ≥ 2`, every ciphertext `C` in
`[0, N²)` and every `D` with `gcd(D, N) = 1`:
`HomomorphicSubtraction(HomomorphicAddition(C, D), D)` succeeds and returns `C` itself
(so it decrypts to whatever `C` decrypts to). -/
theorem subtraction_inverse (v : Verifier) (hN : 2 ≤ v.N) (C D : Int)
    (hC0 : 0 ≤ C) (hC : C < v.N * v.N) (hg : Int.gcd D v.N = 1) :
    ∃ E, v.HomomorphicAddition C D = .ok E ∧ v.HomomorphicSubtraction E D = .ok C := by
  have hN0 : v.N ≠ 0 := by omega
  have hNN0 : v.N * v.N ≠ 0 := mul_ne_zero hN0 hN0
  have hcop : IsCoprime D (v.N * v.N) := by
    have := Int.isCoprime_iff_gcd_eq_one.mpr hg
    exact this.mul_right this
  obtain ⟨Dinv, hinv, -, -, hmul⟩ :=
    bigModInverse_of_coprime D (v.N * v.N) hNN0 (Int.isCoprime_iff_gcd_eq_one.mp hcop)
  refine ⟨C * D % (v.N * v.N), ?_, ?_⟩
  · simp only [Verifier.HomomorphicAddition, bigMod, if_neg hNN0]
  · simp only [Verifier.HomomorphicSubtraction, hinv, Res.ok_bind, bigMod, if_neg hNN0]
    congr 1
    have h1 : C * D % (v.N * v.N) * Dinv ≡ C [ZMOD v.N * v.N] := by
      have h2 : C * D % (v.N * v.N) * Dinv ≡ C * D * Dinv [ZMOD v.N * v.N] :=
        (Int.mod_modEq _ _).mul_right _
      refine h2.trans ?_
      have h3 := hmul.mul_left C
      rw [mul_one, ← mul_assoc] at h3
      exact h3
    rw [h1]
    exact Int.emod_eq_of_lt hC0 hC

/-- Instance of C4 for `N = 15`, `C = 83`, `D = 203`. -/
theorem subtraction_inverse_witness :
    (2 : Int) ≤ exampleVerifier.N ∧ (0 : Int) ≤ 83 ∧
    (83 : Int) < exampleVerifier.N * exampleVerifier.N ∧ Int.gcd 203 exampleVerifier.N = 1 ∧
    ∃ E, exampleVerifier.HomomorphicAddition 83 203 = .ok E ∧
      exampleVerifier.HomomorphicSubtraction E 203 = .ok 83 :=
  ⟨by decide, by decide, by decide, by decide,
    subtraction_inverse exampleVerifier (by decide) 83 203 (by decide) (by decide) (by decide)⟩

/-- C5, as amended: what the verification rejects.  For every modulus `N ≥ 2` (every valid
key in particular), every pair `(C, R')` on which `VerifyAndDecrypt` succeeds and every
other ciphertext `C2`: `VerifyAndDecrypt(C2, R')` fails with the verification error (and so
returns no plaintext) exactly when `C2 mod N ≠ C mod N`. -/
theorem verification_rejects_other_residue (v : Verifier) (hN : 2 ≤ v.N) (C R' m C2 : Int)
    (h : v.VerifyAndDecrypt C R' = .ok m) :
    v.VerifyAndDecrypt C2 R' = .error "Verification failed: rPrime is invalid" ↔
      C2 % v.N ≠ C % v.N := by
  obtain ⟨hver, -⟩ := verifyAndDecrypt_ok v hN C R' m h
  rw [verifyAndDecrypt_error_iff v hN C2 R', hver]
  exact ⟨fun h e => h e.symm, fun h e => h e.symm⟩

/-- Instance of C5 (amended) for `N = 15`: the pair `(83, 2)` decrypts to `7`, and the
ciphertext `84` has another residue modulo `15`. -/
theorem verification_rejects_other_residue_witness :
    (2 : Int) ≤ exampleVerifier.N ∧ exampleVerifier.VerifyAndDecrypt 83 2 = .ok 7 ∧
    (exampleVerifier.VerifyAndDecrypt 84 2 = .error "Verification failed: rPrime is invalid" ↔
      (84 : Int) % exampleVerifier.N ≠ 83 % exampleVerifier.N) :=
  ⟨by decide, by decide,
    verification_rejects_other_residue exampleVerifier (by decide) 83 2 7 84 (by decide)⟩

/-- C5 as stated fails: on the valid key `N = 15` the pair `(C, R') = (83, 2)` is valid
(`VerifyAndDecrypt` returns `7`); the ciphertext `C2 = 203`, which is
`EncryptWithCustomRandom(8, 2)`, differs from `C`, lies in `[0, N²)`, and
`VerifyAndDecrypt(203, 2)` does not fail: it returns the plaintext `8`. -/
theorem tampered_ciphertext_accepted :
    ValidKey exampleVerifier exampleDecryptor ∧
    exampleVerifier.VerifyAndDecrypt 83 2 = .ok 7 ∧
    (203 : Int) ≠ 83 ∧ (0 : Int) ≤ 203 ∧ (203 : Int) < exampleVerifier.N * exampleVerifier.N ∧
    exampleVerifier.EncryptWithCustomRandom 8 2 = .ok 203 ∧
    exampleVerifier.VerifyAndDecrypt 203 2 = .ok 8 ∧
    exampleVerifier.VerifyAndDecrypt 203 2 ≠ .error "Verification failed: rPrime is invalid" :=
  ⟨exampleKey_valid, by decide, by decide, by decide, by decide, by decide, by decide, by decide⟩

/-- C6: for every modulus `N ≥ 2` and all integers `C`, `R'`, `VerifyAndDecrypt(C, R')`
returns the "Verification failed" error if and only if `R' ^ N mod N ≠ C mod N`; in that
case it returns no numeric result, whatever the inverse of `S` would have been (the check
comes first). -/
theorem verification_failed_iff (v : Verifier) (hN : 2 ≤ v.N) (C R' : Int) :
    (v.VerifyAndDecrypt C R' = .error "Verification failed: rPrime is invalid" ↔
      R' ^ v.N.toNat % v.N ≠ C % v.N) ∧
    (R' ^ v.N.toNat % v.N ≠ C % v.N → ∀ m, v.VerifyAndDecrypt C R' ≠ .ok m) := by
  refine ⟨verifyAndDecrypt_error_iff v hN C R', ?_⟩
  intro h m hm
  rw [(verifyAndDecrypt_error_iff v hN C R').mpr h] at hm
  cases hm

/-- Instance of C6 for `N = 15`, `C = 84`, `R' = 2`. -/
theorem verification_failed_iff_witness :
    (2 : Int) ≤ exampleVerifier.N ∧
    ((exampleVerifier.VerifyAndDecrypt 84 2 = .error "Verification failed: rPrime is invalid" ↔
      (2 : Int) ^ exampleVerifier.N.toNat % exampleVerifier.N ≠ 84 % exampleVerifier.N) ∧
    ((2 : Int) ^ exampleVerifier.N.toNat % exampleVerifier.N ≠ 84 % exampleVerifier.N →
      ∀ m, exampleVerifier.VerifyAndDecrypt 84 2 ≠ .ok m)) :=
  ⟨by decide, verification_failed_iff exampleVerifier (by decide) 84 2⟩

/-- C7: `VerifyAndDecrypt` never truncates.  For every modulus `N ≥ 2` and all `C`, `R'`,
whenever `VerifyAndDecrypt(C, R')` returns a plaintext `m`, the inverse `S⁻¹` of
`S = R' ^ N mod N²` was found and the division was exact:
`m * N = (C * S⁻¹ mod N²) - 1`, and `0 ≤ m < N`. -/
theorem decrypt_division_exact (v : Verifier) (hN : 2 ≤ v.N) (C R' m : Int)
    (h : v.VerifyAndDecrypt C R' = .ok m) :
    ∃ Sinv, bigModInverse (R' ^ v.N.toNat % (v.N * v.N)) (v.N * v.N) = .ok (some Sinv) ∧
      m * v.N = C * Sinv % (v.N * v.N) - 1 ∧ 0 ≤ m ∧ m < v.N := by
  have hN0 : v.N ≠ 0 := by omega
  have hNpos : 0 < v.N := by omega
  have hNN0 : v.N * v.N ≠ 0 := mul_ne_zero hN0 hN0
  obtain ⟨hver, Sinv, hinv, hmul, hm⟩ := verifyAndDecrypt_ok v hN C R' m h
  -- modulo `N` the product `C * S⁻¹` is `1`
  have hS : R' ^ v.N.toNat % (v.N * v.N) ≡ C [ZMOD v.N] := by
    have h1 : R' ^ v.N.toNat % (v.N * v.N) ≡ R' ^ v.N.toNat [ZMOD v.N] :=
      (Int.mod_modEq _ (v.N * v.N)).of_mul_left v.N
    exact h1.trans hver
  have hx : C * Sinv % (v.N * v.N) ≡ 1 [ZMOD v.N] := by
    have h1 : C * Sinv % (v.N * v.N) ≡ C * Sinv [ZMOD v.N] :=
      (Int.mod_modEq _ (v.N * v.N)).of_mul_left v.N
    exact (h1.trans (hS.symm.mul_right Sinv)).trans (hmul.of_mul_left v.N)
  have hdvd : v.N ∣ C * Sinv % (v.N * v.N) - 1 := (Int.modEq_iff_dvd.mp hx.symm)
  have hexact : m * v.N = C * Sinv % (v.N * v.N) - 1 := by
    rw [hm]
    exact Int.ediv_mul_cancel hdvd
  have hlo : 0 ≤ C * Sinv % (v.N * v.N) := Int.emod_nonneg _ hNN0
  have hhi : C * Sinv % (v.N * v.N) < v.N * v.N := Int.emod_lt_of_pos _ (by positivity)
  have hne : C * Sinv % (v.N * v.N) ≠ 0 := by
    intro h0
    rw [h0] at hdvd
    have : v.N ∣ 1 := by
      have := (dvd_neg (a := v.N)).mpr hdvd
      simpa using this
    have := Int.le_of_dvd (by norm_num) this
    omega
  refine ⟨Sinv, hinv, hexact, ?_, ?_⟩
  · by_contra hneg
    have : m * v.N < 0 := mul_neg_of_neg_of_pos (by omega) hNpos
    omega
  · by_contra hge
    have : v.N * v.N ≤ m * v.N := by nlinarith
    omega

/-- Instance of C7 for `N = 15`: `VerifyAndDecrypt(203, 2)` returns `8`. -/
theorem decrypt_division_exact_witness :
    (2 : Int) ≤ exampleVerifier.N ∧ exampleVerifier.VerifyAndDecrypt 203 2 = .ok 8 ∧
    ∃ Sinv, bigModInverse ((2 : Int) ^ exampleVerifier.N.toNat
        % (exampleVerifier.N * exampleVerifier.N)) (exampleVerifier.N * exampleVerifier.N)
        = .ok (some Sinv) ∧
      8 * exampleVerifier.N = 203 * Sinv % (exampleVerifier.N * exampleVerifier.N) - 1 ∧
      (0 : Int) ≤ 8 ∧ (8 : Int) < exampleVerifier.N :=
  ⟨by decide, by decide, decrypt_division_exact exampleVerifier (by decide) 203 2 8 (by decide)⟩

/-- C8: the aggregator's end-to-end formula.  For every valid key, every `CriteriaWeights`
(with non-negative weights, or any other integers) and every stored trip and vehicle record
whose ciphertext fields are encryptions under the owner's `N` with randomness coprime to
`N` (of plaintexts in `[0, N)` or not),
`CalculateInsurancePremium` succeeds, stores and returns the result record with a
total-premium ciphertext `C` and hint `R` such that `R = C mod N`, and the two-party
decryption (`ComputeRPrime`, then `VerifyAndDecrypt`) of `C` returns
`(vehicleType + purchaseMileage + year + alpha * mileage + beta * (wSpeed * speeding +
wAcceleration * hardAccelerations + wBraking * emergencyBrakes + wDistance * unsafeDistance
+ wZone * highRiskZones + wTime * nightDriving - wTraffic * trafficSignalCompliance))
mod N`. -/
theorem aggregator_formula {B : Type} (J : Json B) (stub : Store B)
    (verifier : Verifier) (d : Decryptor) (hk : ValidKey verifier d)
    (vehicleID tripID criteriaWeightsID : String)
    (weights : CriteriaWeights) (vehicle : EncryptedVehicleData) (trip : EncryptedTripData)
    (hw : stub.loads J.unmarshalWeights ("criteriaweights_" ++ criteriaWeightsID) weights)
    (hx : stub.loads J.unmarshalVehicle ("vehicle_" ++ vehicleID) vehicle)
    (hv : stub.loads J.unmarshalVerifier ("verifier_" ++ vehicle.OwnerID) verifier)
    (ht : stub.loads J.unmarshalTrip ("trip_" ++ tripID) trip)
    (vt pm yr sp ha eb ud hz tc nd mi : Int)
    (hvehicle : EncryptsVehicle verifier.N vehicle vt pm yr)
    (hbehaviour : EncryptsBehaviour verifier.N trip sp ha eb ud hz tc nd)
    (hmileage : IsEncryption verifier.N trip.Mileage mi) :
    ∃ C R R',
      CalculateInsurancePremium J stub [vehicleID, tripID, criteriaWeightsID] =
        .done (.success (.json (J.marshalResult
            { ResultID := "result_" ++ tripID, PrimeTotale := C, R := R, TripID := tripID })))
          (stub.put ("result_" ++ tripID) (J.marshalResult
            { ResultID := "result_" ++ tripID, PrimeTotale := C, R := R, TripID := tripID })) ∧
      R = C % verifier.N ∧
      d.ComputeRPrime R = .ok R' ∧
      verifier.VerifyAndDecrypt C R' = .ok ((vt + pm + yr + weights.Alpha * mi
        + weights.Beta * (weights.WeightSpeed * sp + weights.WeightAcceleration * ha
          + weights.WeightBraking * eb + weights.WeightDistance * ud
          + weights.WeightZone * hz + weights.WeightTime * nd
          - weights.WeightTraffic * tc)) % verifier.N) := by
  have h2 := hk.two_le
  have hN0 : verifier.N ≠ 0 := by omega
  obtain ⟨wb, hwb, hwu⟩ := hw
  obtain ⟨xb, hxb, hxu⟩ := hx
  obtain ⟨vb, hvb, hvu⟩ := hv
  obtain ⟨tb, htb, htu⟩ := ht
  obtain ⟨g1, g2, g3⟩ := hvehicle
  obtain ⟨b1, b2, b3, b4, b5, b6, b7⟩ := hbehaviour
  obtain ⟨C, hC, EC⟩ := totalPremium_encOf verifier h2 weights vehicle trip
    vt pm yr sp ha eb ud hz tc nd mi g1.encOf g2.encOf g3.encOf
    b1.encOf b2.encOf b3.encOf b4.encOf b5.encOf b6.encOf b7.encOf hmileage.encOf
  obtain ⟨R, R', hR, hR', hdec⟩ := decrypt_of_encOf verifier d hk C _ EC
  have hRval : R = C % verifier.N := by
    simp only [Verifier.ComputeR, bigMod, if_neg hN0, Res.ok.injEq] at hR
    exact hR.symm
  refine ⟨C, R, R', ?_, hRval, hR', hdec⟩
  simp only [CalculateInsurancePremium, hwb, hwu, hxb, hxu, hvb, hvu, htb, htu, hC, hR,
    Res.ok_bind]

/-- Instance of C8 on the small ledger: the scenario weights and records under `N = 15`. -/
theorem aggregator_formula_witness :
    ValidKey exampleVerifier exampleDecryptor ∧
    exampleStore.loads assetJson.unmarshalWeights ("criteriaweights_" ++ "w1") exampleWeights ∧
    exampleStore.loads assetJson.unmarshalVehicle ("vehicle_" ++ "veh1") exampleVehicle ∧
    exampleStore.loads assetJson.unmarshalVerifier ("verifier_" ++ exampleVehicle.OwnerID)
      exampleVerifier ∧
    exampleStore.loads assetJson.unmarshalTrip ("trip_" ++ "trip1") exampleTrip ∧
    EncryptsVehicle exampleVerifier.N exampleVehicle 1 50000 2020 ∧
    EncryptsBehaviour exampleVerifier.N exampleTrip 3 1 0 2 0 4 1 ∧
    IsEncryption exampleVerifier.N exampleTrip.Mileage 100 ∧
    ∃ C R R',
      CalculateInsurancePremium assetJson exampleStore ["veh1", "trip1", "w1"] =
        .done (.success (.json (assetJson.marshalResult
            { ResultID := "result_" ++ "trip1", PrimeTotale := C, R := R, TripID := "trip1" })))
          (exampleStore.put ("result_" ++ "trip1") (assetJson.marshalResult
            { ResultID := "result_" ++ "trip1", PrimeTotale := C, R := R, TripID := "trip1" })) ∧
      R = C % exampleVerifier.N ∧
      exampleDecryptor.ComputeRPrime R = .ok R' ∧
      exampleVerifier.VerifyAndDecrypt C R' = .ok ((1 + 50000 + 2020 + exampleWeights.Alpha * 100
        + exampleWeights.Beta * (exampleWeights.WeightSpeed * 3
          + exampleWeights.WeightAcceleration * 1
          + exampleWeights.WeightBraking * 0 + exampleWeights.WeightDistance * 2
          + exampleWeights.WeightZone * 0 + exampleWeights.WeightTime * 1
          - exampleWeights.WeightTraffic * 4)) % exampleVerifier.N) :=
  ⟨exampleKey_valid, ⟨_, rfl, rfl⟩, ⟨_, rfl, rfl⟩, ⟨_, rfl, rfl⟩, ⟨_, rfl, rfl⟩,
    exampleVehicle_encrypts, exampleTrip_encrypts, ⟨2, by decide, by decide⟩,
    aggregator_formula assetJson exampleStore exampleVerifier exampleDecryptor exampleKey_valid
      "veh1" "trip1" "w1" exampleWeights exampleVehicle exampleTrip
      ⟨_, rfl, rfl⟩ ⟨_, rfl, rfl⟩ ⟨_, rfl, rfl⟩ ⟨_, rfl, rfl⟩
      1 50000 2020 3 1 0 2 0 4 1 100
      exampleVehicle_encrypts exampleTrip_encrypts ⟨2, by decide, by decide⟩⟩

/-- C9: a negative behavioural index wraps modulo `N`.  For every valid key with `N > 12`,
every `CriteriaWeights` and every trip record whose seven behaviour ciphertexts are
encryptions with randomness coprime to `N`, the behavioural-index ciphertext the aggregator
forms (`HomomorphicSum` of the six weighted metrics, then `HomomorphicSubtraction` of the
weighted compliance term) is computed without error and decrypts to
`(sum of weight_i * metric_i - wTraffic * compliance) mod N`; for the scenario weights
speed 2, acceleration 1, braking 1, distance 1, zone 1, time 1, traffic 3 and metrics
speeding 3, accelerations 1, brakes 0, unsafe distance 2, zones 0, night 1, compliance 4,
the decrypted index is `N - 2`. -/
theorem behavioural_index_wraps (verifier : Verifier) (d : Decryptor)
    (hk : ValidKey verifier d) (hN : 12 < verifier.N)
    (weights : CriteriaWeights) (trip : EncryptedTripData) (sp ha eb ud hz tc nd : Int)
    (hbehaviour : EncryptsBehaviour verifier.N trip sp ha eb ud hz tc nd) :
    ∃ C R R',
      behaviouralIndex verifier weights trip = .ok C ∧
      verifier.ComputeR C = .ok R ∧ d.ComputeRPrime R = .ok R' ∧
      verifier.VerifyAndDecrypt C R' = .ok ((weights.WeightSpeed * sp
        + weights.WeightAcceleration * ha + weights.WeightBraking * eb
        + weights.WeightDistance * ud + weights.WeightZone * hz + weights.WeightTime * nd
        - weights.WeightTraffic * tc) % verifier.N) ∧
      (weights.WeightSpeed = 2 ∧ weights.WeightAcceleration = 1 ∧ weights.WeightBraking = 1 ∧
        weights.WeightDistance = 1 ∧ weights.WeightZone = 1 ∧ weights.WeightTime = 1 ∧
        weights.WeightTraffic = 3 ∧
        sp = 3 ∧ ha = 1 ∧ eb = 0 ∧ ud = 2 ∧ hz = 0 ∧ nd = 1 ∧ tc = 4 →
        verifier.VerifyAndDecrypt C R' = .ok (verifier.N - 2)) := by
  have h2 := hk.two_le
  obtain ⟨b1, b2, b3, b4, b5, b6, b7⟩ := hbehaviour
  obtain ⟨C, hC, EC⟩ := behaviouralIndex_encOf verifier h2 weights trip sp ha eb ud hz tc nd
    b1.encOf b2.encOf b3.encOf b4.encOf b5.encOf b6.encOf b7.encOf
  obtain ⟨R, R', hR, hR', hdec⟩ := decrypt_of_encOf verifier d hk C _ EC
  refine ⟨C, R, R', hC, hR, hR', hdec, ?_⟩
  rintro ⟨w1, w2, w3, w4, w5, w6, w7, rfl, rfl, rfl, rfl, rfl, rfl, rfl⟩
  rw [hdec, w1, w2, w3, w4, w5, w6, w7]
  congr 1
  have : (2 * 3 + 1 * 1 + 1 * 0 + 1 * 2 + 1 * 0 + 1 * 1 - 3 * 4 : Int) = -2 := by norm_num
  rw [this]
  have h3 : (-2 : Int) % verifier.N = (verifier.N - 2) % verifier.N := by
    rw [show (verifier.N - 2) = -2 + verifier.N by ring, Int.add_emod_self]
  rw [h3]
  exact Int.emod_eq_of_lt (by omega) (by omega)

/-- Instance of C9 on the small ledger: the scenario under `N = 15`. -/
theorem behavioural_index_wraps_witness :
    ValidKey exampleVerifier exampleDecryptor ∧ (12 : Int) < exampleVerifier.N ∧
    EncryptsBehaviour exampleVerifier.N exampleTrip 3 1 0 2 0 4 1 ∧
    ∃ C R R',
      behaviouralIndex exampleVerifier exampleWeights exampleTrip = .ok C ∧
      exampleVerifier.ComputeR C = .ok R ∧ exampleDecryptor.ComputeRPrime R = .ok R' ∧
      exampleVerifier.VerifyAndDecrypt C R' = .ok ((exampleWeights.WeightSpeed * 3
        + exampleWeights.WeightAcceleration * 1 + exampleWeights.WeightBraking * 0
        + exampleWeights.WeightDistance * 2 + exampleWeights.WeightZone * 0
        + exampleWeights.WeightTime * 1
        - exampleWeights.WeightTraffic * 4) % exampleVerifier.N) ∧
      (exampleWeights.WeightSpeed = 2 ∧ exampleWeights.WeightAcceleration = 1 ∧
        exampleWeights.WeightBraking = 1 ∧ exampleWeights.WeightDistance = 1 ∧
        exampleWeights.WeightZone = 1 ∧ exampleWeights.WeightTime = 1 ∧
        exampleWeights.WeightTraffic = 3 ∧
        (3 : Int) = 3 ∧ (1 : Int) = 1 ∧ (0 : Int) = 0 ∧ (2 : Int) = 2 ∧ (0 : Int) = 0 ∧
        (1 : Int) = 1 ∧ (4 : Int) = 4 →
        exampleVerifier.VerifyAndDecrypt C R' = .ok (exampleVerifier.N - 2)) :=
  ⟨exampleKey_valid, by decide, exampleTrip_encrypts,
    behavioural_index_wraps exampleVerifier exampleDecryptor exampleKey_valid (by decide)
      exampleWeights exampleTrip 3 1 0 2 0 4 1 exampleTrip_encrypts⟩

/-- C10: atomicity on verification failure.  For every store state and every supplied
`r_prime`, if `decryptInsurancePremiumAndUpdate` reaches `VerifyAndDecrypt` (the argument
parses, and the result, trip, vehicle and verifier records load) and `VerifyAndDecrypt`
rejects `r_prime` with an error, the operation answers with the error response
"Failed to decrypt prime: ..." and leaves the store as it was: no `Prime` record and no
`MonthPrime` record is created or modified, and the calculation result is still there. -/
theorem decrypt_rejection_leaves_store {B : Type} (J : Json B) (stub : Store B)
    (tripArg rPrimeArg : String) (rPrime : Int)
    (encryptedResult : EncryptedCalculationResult) (trip : EncryptedTripData)
    (vehicle : EncryptedVehicleData) (verifier : Verifier) (msg : String)
    (hparse : setString10 rPrimeArg = some rPrime)
    (hr : stub.loads J.unmarshalResult ("result_" ++ tripArg) encryptedResult)
    (ht : stub.loads J.unmarshalTrip ("trip_" ++ encryptedResult.TripID) trip)
    (hx : stub.loads J.unmarshalVehicle ("vehicle_" ++ trip.VehicleID) vehicle)
    (hv : stub.loads J.unmarshalVerifier ("verifier_" ++ vehicle.OwnerID) verifier)
    (hreject : verifier.VerifyAndDecrypt encryptedResult.PrimeTotale rPrime = .error msg) :
    decryptInsurancePremiumAndUpdate J stub [tripArg, rPrimeArg] =
      .done (.error ("Failed to decrypt prime: " ++ msg)) stub := by
  obtain ⟨rb, hrb, hru⟩ := hr
  obtain ⟨tb, htb, htu⟩ := ht
  obtain ⟨xb, hxb, hxu⟩ := hx
  obtain ⟨vb, hvb, hvu⟩ := hv
  simp only [decryptInsurancePremiumAndUpdate, hparse, hrb, hru, htb, htu, hxb, hxu, hvb, hvu,
    hreject]

/-- Instance of C10 on the small ledger: `r_prime = 3` is rejected for the pending result
of `trip1`. -/
theorem decrypt_rejection_leaves_store_witness :
    setString10 "3" = some 3 ∧
    exampleStore.loads assetJson.unmarshalResult ("result_" ++ "trip1") exampleResult ∧
    exampleStore.loads assetJson.unmarshalTrip ("trip_" ++ exampleResult.TripID) exampleTrip ∧
    exampleStore.loads assetJson.unmarshalVehicle ("vehicle_" ++ exampleTrip.VehicleID)
      exampleVehicle ∧
    exampleStore.loads assetJson.unmarshalVerifier ("verifier_" ++ exampleVehicle.OwnerID)
      exampleVerifier ∧
    exampleVerifier.VerifyAndDecrypt exampleResult.PrimeTotale 3 =
      .error "Verification failed: rPrime is invalid" ∧
    decryptInsurancePremiumAndUpdate assetJson exampleStore ["trip1", "3"] =
      .done (.error ("Failed to decrypt prime: " ++ "Verification failed: rPrime is invalid"))
        exampleStore :=
  ⟨by decide, ⟨_, rfl, rfl⟩, ⟨_, rfl, rfl⟩, ⟨_, rfl, rfl⟩, ⟨_, rfl, rfl⟩, by decide,
    decrypt_rejection_leaves_store assetJson exampleStore "trip1" "3" 3 exampleResult
      exampleTrip exampleVehicle exampleVerifier "Verification failed: rPrime is invalid"
      (by decide) ⟨_, rfl, rfl⟩ ⟨_, rfl, rfl⟩ ⟨_, rfl, rfl⟩ ⟨_, rfl, rfl⟩ (by decide)⟩

/-- C11, as amended: the resolved-state update.  Whenever
`decryptInsurancePremiumAndUpdate` or `decryptInsurancePremiumAndUpdateWithoutParams`
answers with success, it reports a premium value `p` for a stored result and its trip, the
trip date parses to a year and a month, and the store afterwards holds under
`prime_<tripID>` the `Prime` record `{tripID, trip date, p}`; the `MonthPrime` record of the
trip's vehicle and that year and month holds `p` if no such record existed before, and the
old value plus `p` reduced to the range of the 64-bit `int`, with its other fields
unchanged, if one existed; no other key is modified. -/
theorem resolved_state_update {B : Type} (J : Json B) (stub stub' : Store B)
    (args : List String) (payload : Payload B) :
    (decryptInsurancePremiumAndUpdate J stub args = .done (.success payload) stub' →
      ∃ tripArg rPrimeArg res trip, ∃ p year month : Int,
        args = [tripArg, rPrimeArg] ∧
        stub.loads J.unmarshalResult ("result_" ++ tripArg) res ∧
        stub.loads J.unmarshalTrip ("trip_" ++ res.TripID) trip ∧
        sscanfYearMonth trip.Date = some (year, month) ∧
        payload = .json (J.marshalDecryptedPrime p) ∧
        ResolvedUpdate J stub stub' res trip p year month) ∧
    (decryptInsurancePremiumAndUpdateWithoutParams J stub args = .done (.success payload) stub' →
      ∃ resultID res trip, ∃ p q year month : Int,
        args = [resultID] ∧
        stub.loads J.unmarshalResult resultID res ∧
        stub.loads J.unmarshalTrip ("trip_" ++ res.TripID) trip ∧
        sscanfYearMonth trip.Date = some (year, month) ∧
        payload = .text ("Decrypted prime: " ++ toString p
          ++ ", updated month prime: " ++ toString q) ∧
        ResolvedUpdate J stub stub' res trip p year month) := by
  constructor
  · intro h
    obtain ⟨tripArg, rPrimeArg, rPrime, res, trip, veh, verifier, m, mp, hargs, -, hr, ht, -, -,
      -, hend, hpl⟩ := decryptInsurancePremiumAndUpdate_success_inv J stub stub' args payload h
    obtain ⟨year, month, hdate, hupd⟩ :=
      storePrimeAndMonthPrime_ok_inv J stub stub' res trip (bigInt64 m) mp hend
    exact ⟨tripArg, rPrimeArg, res, trip, bigInt64 m, year, month, hargs, hr, ht, hdate, hpl,
      hupd⟩
  · intro h
    obtain ⟨resultID, rPrime, res, trip, veh, verifier, decryptor, m, mp, hargs, hr, ht, -, -,
      -, -, -, hend, hpl⟩ :=
      decryptInsurancePremiumAndUpdateWithoutParams_success_inv J stub stub' args payload h
    obtain ⟨year, month, hdate, hupd⟩ :=
      storePrimeAndMonthPrime_ok_inv J stub stub' res trip (bigInt64 m) mp hend
    exact ⟨resultID, res, trip, bigInt64 m, mp.Prime, year, month, hargs, hr, ht, hdate, hpl,
      hupd⟩

/-- Instance of C11 (amended) on the small ledger: both variants resolve the pending result
of `trip1` to the premium 7. -/
theorem resolved_state_update_witness :
    (decryptInsurancePremiumAndUpdate assetJson exampleStore ["trip1", "2"] =
        .done (.success (.json (.decryptedPrime 7))) (resolvedFrom exampleStore) ∧
      ∃ tripArg rPrimeArg res trip, ∃ p year month : Int,
        ["trip1", "2"] = [tripArg, rPrimeArg] ∧
        exampleStore.loads assetJson.unmarshalResult ("result_" ++ tripArg) res ∧
        exampleStore.loads assetJson.unmarshalTrip ("trip_" ++ res.TripID) trip ∧
        sscanfYearMonth trip.Date = some (year, month) ∧
        Payload.json (Asset.decryptedPrime 7) = .json (assetJson.marshalDecryptedPrime p) ∧
        ResolvedUpdate assetJson exampleStore (resolvedFrom exampleStore) res trip p year
          month) ∧
    (decryptInsurancePremiumAndUpdateWithoutParams assetJson exampleStoreWithDecryptor
          ["result_trip1"] =
        .done (.success (.text "Decrypted prime: 7, updated month prime: 7"))
          (resolvedFrom exampleStoreWithDecryptor) ∧
      ∃ resultID res trip, ∃ p q year month : Int,
        ["result_trip1"] = [resultID] ∧
        exampleStoreWithDecryptor.loads assetJson.unmarshalResult resultID res ∧
        exampleStoreWithDecryptor.loads assetJson.unmarshalTrip ("trip_" ++ res.TripID) trip ∧
        sscanfYearMonth trip.Date = some (year, month) ∧
        (Payload.text "Decrypted prime: 7, updated month prime: 7" : Payload Asset) =
          .text ("Decrypted prime: " ++ toString p ++ ", updated month prime: " ++ toString q) ∧
        ResolvedUpdate assetJson exampleStoreWithDecryptor
          (resolvedFrom exampleStoreWithDecryptor) res trip p year month) :=
  ⟨⟨rfl, (resolved_state_update assetJson exampleStore (resolvedFrom exampleStore)
      ["trip1", "2"] (.json (.decryptedPrime 7))).1 rfl⟩,
    ⟨rfl, (resolved_state_update assetJson exampleStoreWithDecryptor
      (resolvedFrom exampleStoreWithDecryptor) ["result_trip1"]
      (.text "Decrypted prime: 7, updated month prime: 7")).2 rfl⟩⟩

/-- C11 as stated fails when the sum overflows: on the small ledger with a month record of
premium `9223372036854775807` for `veh1` and November 2024,
`decryptInsurancePremiumAndUpdate(trip1, 2)` succeeds with the premium `7`, and the month
record afterwards holds `-9223372036854775802`, not the old value plus `7`. -/
theorem month_accumulator_overflows :
    exampleStoreWithFullMonth "monthprime_veh1_2024_11" =
      some (.monthPrime
        { VehicleID := "veh1", Month := 11, Year := 2024, Prime := 9223372036854775807 }) ∧
    (decryptInsurancePremiumAndUpdate assetJson exampleStoreWithFullMonth
        ["trip1", "2"]).response = some (.success (.json (.decryptedPrime 7))) ∧
    (decryptInsurancePremiumAndUpdate assetJson exampleStoreWithFullMonth
        ["trip1", "2"]).valueAt "monthprime_veh1_2024_11" =
      some (.monthPrime
        { VehicleID := "veh1", Month := 11, Year := 2024, Prime := -9223372036854775802 }) ∧
    (-9223372036854775802 : Int) ≠ 9223372036854775807 + 7 := by
  decide

/-- C12, evaluated on the small ledger: for the trip of `veh1` dated `2024-11-11`, the
successful `decryptInsurancePremiumAndUpdate(trip1, 2)` writes the month record under
`monthprime_veh1_2024_11` and nothing under `monthprime_veh1_11_2024`;
`queryMonthPrime(veh1, 11, 2024)` run afterwards reads `monthprime_veh1_11_2024` and
answers "MonthPrime not found", and `addMonthPrime(veh1, 11, 2024, 5)` finds no existing
record and creates a second one. -/
theorem month_key_order_disagrees :
    (decryptInsurancePremiumAndUpdate assetJson exampleStore ["trip1", "2"]).response =
      some (.success (.json (.decryptedPrime 7))) ∧
    (decryptInsurancePremiumAndUpdate assetJson exampleStore ["trip1", "2"]).valueAt
        "monthprime_veh1_2024_11" =
      some (.monthPrime { VehicleID := "veh1", Month := 11, Year := 2024, Prime := 7 }) ∧
    (decryptInsurancePremiumAndUpdate assetJson exampleStore ["trip1", "2"]).valueAt
        "monthprime_veh1_11_2024" = none ∧
    monthPrimeKeyOf "veh1" 2024 11 = "monthprime_veh1_2024_11" ∧
    monthPrimeKeyOf "veh1" 11 2024 = "monthprime_veh1_11_2024" ∧
    ((decryptInsurancePremiumAndUpdate assetJson exampleStore ["trip1", "2"]).andThen
        fun stub => queryMonthPrime stub ["veh1", "11", "2024"]).response =
      some (.error "MonthPrime not found for the given VehicleID, Month, and Year") ∧
    ((decryptInsurancePremiumAndUpdate assetJson exampleStore ["trip1", "2"]).andThen
        fun stub => addMonthPrime assetJson stub ["veh1", "11", "2024", "5"]).response =
      some (.success .empty) ∧
    ((decryptInsurancePremiumAndUpdate assetJson exampleStore ["trip1", "2"]).andThen
        fun stub => addMonthPrime assetJson stub ["veh1", "11", "2024", "5"]).valueAt
        "monthprime_veh1_11_2024" =
      some (.monthPrime { VehicleID := "veh1", Month := 11, Year := 2024, Prime := 5 }) := by
  decide

/-- C13: idempotent decrypt, non-idempotent accumulate.  Starting from a store with no
`MonthPrime` record for the trip's vehicle and month, in which
`decryptInsurancePremiumAndUpdate` succeeds for a result (the argument parses, the records
load, `VerifyAndDecrypt` returns `m`, the trip date parses), two successive runs with the
same arguments both succeed and report the same premium `p`; afterwards the trip's `Prime`
record holds `p` and the monthly accumulator holds `2 * p`, for `p` such that `2 * p` does
not overflow the 64-bit `int` (and a JSON codec that reads back the month record it
wrote). -/
theorem double_decrypt_doubles_month {B : Type} (J : Json B) (stub : Store B)
    (tripArg rPrimeArg : String) (rPrime : Int)
    (res : EncryptedCalculationResult) (trip : EncryptedTripData)
    (veh : EncryptedVehicleData) (verifier : Verifier) (m year month : Int)
    (hcodec : ∀ x, J.unmarshalMonthPrime (J.marshalMonthPrime x) = some x)
    (hparse : setString10 rPrimeArg = some rPrime)
    (hr : stub.loads J.unmarshalResult ("result_" ++ tripArg) res)
    (ht : stub.loads J.unmarshalTrip ("trip_" ++ res.TripID) trip)
    (hx : stub.loads J.unmarshalVehicle ("vehicle_" ++ trip.VehicleID) veh)
    (hv : stub.loads J.unmarshalVerifier ("verifier_" ++ veh.OwnerID) verifier)
    (hdec : verifier.VerifyAndDecrypt res.PrimeTotale rPrime = .ok m)
    (hdate : sscanfYearMonth trip.Date = some (year, month))
    (habs : stub (monthPrimeKeyOf trip.VehicleID year month) = none)
    (hlo : -(2 ^ 63) ≤ 2 * bigInt64 m) (hhi : 2 * bigInt64 m < 2 ^ 63) :
    ∃ stub1 stub2,
      decryptInsurancePremiumAndUpdate J stub [tripArg, rPrimeArg] =
        .done (.success (.json (J.marshalDecryptedPrime (bigInt64 m)))) stub1 ∧
      decryptInsurancePremiumAndUpdate J stub1 [tripArg, rPrimeArg] =
        .done (.success (.json (J.marshalDecryptedPrime (bigInt64 m)))) stub2 ∧
      stub2 ("prime_" ++ res.TripID) = some (J.marshalPrime
        { TripID := res.TripID, Date := trip.Date, Prime := bigInt64 m }) ∧
      stub2 (monthPrimeKeyOf trip.VehicleID year month) = some (J.marshalMonthPrime
        { VehicleID := trip.VehicleID, Month := month, Year := year,
          Prime := 2 * bigInt64 m }) := by
  have h1 := storePrimeAndMonthPrime_absent J stub res trip (bigInt64 m) year month hdate habs
  have run1 := decryptInsurancePremiumAndUpdate_run J stub _ tripArg rPrimeArg rPrime res trip
    veh verifier m _ hparse hr ht hx hv hdec h1
  set stub1 := (stub.put ("prime_" ++ res.TripID)
      (J.marshalPrime { TripID := res.TripID, Date := trip.Date, Prime := bigInt64 m })).put
    (monthPrimeKeyOf trip.VehicleID year month)
    (J.marshalMonthPrime
      { VehicleID := trip.VehicleID, Month := month, Year := year, Prime := bigInt64 m })
    with hstub1
  -- the second run loads the same records
  have hr' : stub1.loads J.unmarshalResult ("result_" ++ tripArg) res :=
    Store.loads_put _ _ _ _ _ _ (result_ne_monthPrime _ _ _ _)
      (Store.loads_put _ _ _ _ _ _ (result_ne_prime _ _) hr)
  have ht' : stub1.loads J.unmarshalTrip ("trip_" ++ res.TripID) trip :=
    Store.loads_put _ _ _ _ _ _ (trip_ne_monthPrime _ _ _ _)
      (Store.loads_put _ _ _ _ _ _ (trip_ne_prime _ _) ht)
  have hx' : stub1.loads J.unmarshalVehicle ("vehicle_" ++ trip.VehicleID) veh :=
    Store.loads_put _ _ _ _ _ _ (vehicle_ne_monthPrime _ _ _ _)
      (Store.loads_put _ _ _ _ _ _ (vehicle_ne_prime _ _) hx)
  have hv' : stub1.loads J.unmarshalVerifier ("verifier_" ++ veh.OwnerID) verifier :=
    Store.loads_put _ _ _ _ _ _ (verifier_ne_monthPrime _ _ _ _)
      (Store.loads_put _ _ _ _ _ _ (verifier_ne_prime _ _) hv)
  -- and finds the month record of the first run
  have hpres : stub1 (monthPrimeKeyOf trip.VehicleID year month) = some (J.marshalMonthPrime
      { VehicleID := trip.VehicleID, Month := month, Year := year, Prime := bigInt64 m }) :=
    Store.put_same _ _ _
  have h2 := storePrimeAndMonthPrime_present J stub1 res trip (bigInt64 m) year month _
    { VehicleID := trip.VehicleID, Month := month, Year := year, Prime := bigInt64 m }
    hdate hpres (hcodec _)
  have hsum : wrapInt64 (bigInt64 m + bigInt64 m) = 2 * bigInt64 m := by
    rw [← two_mul]
    exact wrapInt64_of_range _ hlo hhi
  simp only [hsum] at h2
  have run2 := decryptInsurancePremiumAndUpdate_run J stub1 _ tripArg rPrimeArg rPrime res trip
    veh verifier m _ hparse hr' ht' hx' hv' hdec h2
  refine ⟨stub1, _, run1, run2, ?_, Store.put_same _ _ _⟩
  rw [Store.put_other _ _ _ _ (Ne.symm (monthPrimeKeyOf_ne_prime _ _ _ _)), Store.put_same]

/-- Instance of C13 on the small ledger: the result of `trip1` resolved twice with
`r_prime = 2`, premium 7, accumulator 14. -/
theorem double_decrypt_doubles_month_witness :
    (∀ x, assetJson.unmarshalMonthPrime (assetJson.marshalMonthPrime x) = some x) ∧
    setString10 "2" = some 2 ∧
    exampleStore.loads assetJson.unmarshalResult ("result_" ++ "trip1") exampleResult ∧
    exampleStore.loads assetJson.unmarshalTrip ("trip_" ++ exampleResult.TripID) exampleTrip ∧
    exampleStore.loads assetJson.unmarshalVehicle ("vehicle_" ++ exampleTrip.VehicleID)
      exampleVehicle ∧
    exampleStore.loads assetJson.unmarshalVerifier ("verifier_" ++ exampleVehicle.OwnerID)
      exampleVerifier ∧
    exampleVerifier.VerifyAndDecrypt exampleResult.PrimeTotale 2 = .ok 7 ∧
    sscanfYearMonth exampleTrip.Date = some (2024, 11) ∧
    exampleStore (monthPrimeKeyOf exampleTrip.VehicleID 2024 11) = none ∧
    -(2 ^ 63) ≤ 2 * bigInt64 7 ∧ 2 * bigInt64 7 < 2 ^ 63 ∧
    ∃ stub1 stub2,
      decryptInsurancePremiumAndUpdate assetJson exampleStore ["trip1", "2"] =
        .done (.success (.json (assetJson.marshalDecryptedPrime (bigInt64 7)))) stub1 ∧
      decryptInsurancePremiumAndUpdate assetJson stub1 ["trip1", "2"] =
        .done (.success (.json (assetJson.marshalDecryptedPrime (bigInt64 7)))) stub2 ∧
      stub2 ("prime_" ++ exampleResult.TripID) = some (assetJson.marshalPrime
        { TripID := exampleResult.TripID, Date := exampleTrip.Date, Prime := bigInt64 7 }) ∧
      stub2 (monthPrimeKeyOf exampleTrip.VehicleID 2024 11) = some (assetJson.marshalMonthPrime
        { VehicleID := exampleTrip.VehicleID, Month := 11, Year := 2024,
          Prime := 2 * bigInt64 7 }) :=
  ⟨fun _ => rfl, by decide, ⟨_, rfl, rfl⟩, ⟨_, rfl, rfl⟩, ⟨_, rfl, rfl⟩, ⟨_, rfl, rfl⟩,
    by decide, by decide, by decide, by decide, by decide,
    double_decrypt_doubles_month assetJson exampleStore "trip1" "2" 2 exampleResult
      exampleTrip exampleVehicle exampleVerifier 7 2024 11 (fun _ => rfl) (by decide)
      ⟨_, rfl, rfl⟩ ⟨_, rfl, rfl⟩ ⟨_, rfl, rfl⟩ ⟨_, rfl, rfl⟩ (by decide) (by decide)
      (by decide) (by decide) (by decide)⟩

/-- C14, as amended: the persisted premium is the decrypted plaintext reduced to 64 bits.
Whenever `decryptInsurancePremiumAndUpdate` or
`decryptInsurancePremiumAndUpdateWithoutParams` answers with success, `VerifyAndDecrypt`
returned a plaintext `m` inside the flow, and the integer stored in the `Prime` record,
added to the monthly record and reported to the caller is `m` reduced to the range of the
signed 64-bit integer; it equals `m` whenever `0 ≤ m < 2 ^ 63`. -/
theorem persisted_premium_is_plaintext {B : Type} (J : Json B) (stub stub' : Store B)
    (args : List String) (payload : Payload B) :
    (decryptInsurancePremiumAndUpdate J stub args = .done (.success payload) stub' →
      ∃ tripArg rPrimeArg res trip veh verifier, ∃ rPrime m year month : Int,
        args = [tripArg, rPrimeArg] ∧ setString10 rPrimeArg = some rPrime ∧
        stub.loads J.unmarshalResult ("result_" ++ tripArg) res ∧
        stub.loads J.unmarshalTrip ("trip_" ++ res.TripID) trip ∧
        stub.loads J.unmarshalVehicle ("vehicle_" ++ trip.VehicleID) veh ∧
        stub.loads J.unmarshalVerifier ("verifier_" ++ veh.OwnerID) verifier ∧
        verifier.VerifyAndDecrypt res.PrimeTotale rPrime = .ok m ∧
        payload = .json (J.marshalDecryptedPrime (wrapInt64 m)) ∧
        ResolvedUpdate J stub stub' res trip (wrapInt64 m) year month ∧
        (0 ≤ m → m < 2 ^ 63 → wrapInt64 m = m)) ∧
    (decryptInsurancePremiumAndUpdateWithoutParams J stub args = .done (.success payload) stub' →
      ∃ resultID res trip veh verifier decryptor, ∃ rPrime m q year month : Int,
        args = [resultID] ∧
        stub.loads J.unmarshalResult resultID res ∧
        stub.loads J.unmarshalTrip ("trip_" ++ res.TripID) trip ∧
        stub.loads J.unmarshalVehicle ("vehicle_" ++ trip.VehicleID) veh ∧
        stub.loads J.unmarshalVerifier ("verifier_" ++ veh.OwnerID) verifier ∧
        stub.loads J.unmarshalDecryptor ("decryptor_" ++ veh.OwnerID) decryptor ∧
        decryptor.ComputeRPrime res.R = .ok rPrime ∧
        verifier.VerifyAndDecrypt res.PrimeTotale rPrime = .ok m ∧
        payload = .text ("Decrypted prime: " ++ toString (wrapInt64 m)
          ++ ", updated month prime: " ++ toString q) ∧
        ResolvedUpdate J stub stub' res trip (wrapInt64 m) year month ∧
        (0 ≤ m → m < 2 ^ 63 → wrapInt64 m = m)) := by
  constructor
  · intro h
    obtain ⟨tripArg, rPrimeArg, rPrime, res, trip, veh, verifier, m, mp, hargs, hparse, hr, ht,
      hx, hv, hdec, hend, hpl⟩ :=
      decryptInsurancePremiumAndUpdate_success_inv J stub stub' args payload h
    obtain ⟨year, month, -, hupd⟩ :=
      storePrimeAndMonthPrime_ok_inv J stub stub' res trip (bigInt64 m) mp hend
    exact ⟨tripArg, rPrimeArg, res, trip, veh, verifier, rPrime, m, year, month, hargs, hparse,
      hr, ht, hx, hv, hdec, hpl, hupd, fun h0 h1 => wrapInt64_of_range m (by omega) h1⟩
  · intro h
    obtain ⟨resultID, rPrime, res, trip, veh, verifier, decryptor, m, mp, hargs, hr, ht, hx, hv,
      hd, hrp, hdec, hend, hpl⟩ :=
      decryptInsurancePremiumAndUpdateWithoutParams_success_inv J stub stub' args payload h
    obtain ⟨year, month, -, hupd⟩ :=
      storePrimeAndMonthPrime_ok_inv J stub stub' res trip (bigInt64 m) mp hend
    exact ⟨resultID, res, trip, veh, verifier, decryptor, rPrime, m, mp.Prime, year, month,
      hargs, hr, ht, hx, hv, hd, hrp, hdec, hpl, hupd,
      fun h0 h1 => wrapInt64_of_range m (by omega) h1⟩

/-- Instance of C14 (amended) on the small ledger, for both variants. -/
theorem persisted_premium_is_plaintext_witness :
    (decryptInsurancePremiumAndUpdate assetJson exampleStore ["trip1", "2"] =
        .done (.success (.json (.decryptedPrime 7))) (resolvedFrom exampleStore) ∧
      ∃ tripArg rPrimeArg res trip veh verifier, ∃ rPrime m year month : Int,
        ["trip1", "2"] = [tripArg, rPrimeArg] ∧ setString10 rPrimeArg = some rPrime ∧
        exampleStore.loads assetJson.unmarshalResult ("result_" ++ tripArg) res ∧
        exampleStore.loads assetJson.unmarshalTrip ("trip_" ++ res.TripID) trip ∧
        exampleStore.loads assetJson.unmarshalVehicle ("vehicle_" ++ trip.VehicleID) veh ∧
        exampleStore.loads assetJson.unmarshalVerifier ("verifier_" ++ veh.OwnerID) verifier ∧
        verifier.VerifyAndDecrypt res.PrimeTotale rPrime = .ok m ∧
        Payload.json (Asset.decryptedPrime 7) =
          .json (assetJson.marshalDecryptedPrime (wrapInt64 m)) ∧
        ResolvedUpdate assetJson exampleStore (resolvedFrom exampleStore) res trip
          (wrapInt64 m) year month ∧
        (0 ≤ m → m < 2 ^ 63 → wrapInt64 m = m)) ∧
    (decryptInsurancePremiumAndUpdateWithoutParams assetJson exampleStoreWithDecryptor
          ["result_trip1"] =
        .done (.success (.text "Decrypted prime: 7, updated month prime: 7"))
          (resolvedFrom exampleStoreWithDecryptor) ∧
      ∃ resultID res trip veh verifier decryptor, ∃ rPrime m q year month : Int,
        ["result_trip1"] = [resultID] ∧
        exampleStoreWithDecryptor.loads assetJson.unmarshalResult resultID res ∧
        exampleStoreWithDecryptor.loads assetJson.unmarshalTrip ("trip_" ++ res.TripID) trip ∧
        exampleStoreWithDecryptor.loads assetJson.unmarshalVehicle
          ("vehicle_" ++ trip.VehicleID) veh ∧
        exampleStoreWithDecryptor.loads assetJson.unmarshalVerifier
          ("verifier_" ++ veh.OwnerID) verifier ∧
        exampleStoreWithDecryptor.loads assetJson.unmarshalDecryptor
          ("decryptor_" ++ veh.OwnerID) decryptor ∧
        decryptor.ComputeRPrime res.R = .ok rPrime ∧
        verifier.VerifyAndDecrypt res.PrimeTotale rPrime = .ok m ∧
        (Payload.text "Decrypted prime: 7, updated month prime: 7" : Payload Asset) =
          .text ("Decrypted prime: " ++ toString (wrapInt64 m)
            ++ ", updated month prime: " ++ toString q) ∧
        ResolvedUpdate assetJson exampleStoreWithDecryptor
          (resolvedFrom exampleStoreWithDecryptor) res trip (wrapInt64 m) year month ∧
        (0 ≤ m → m < 2 ^ 63 → wrapInt64 m = m)) :=
  ⟨⟨rfl, (persisted_premium_is_plaintext assetJson exampleStore (resolvedFrom exampleStore)
      ["trip1", "2"] (.json (.decryptedPrime 7))).1 rfl⟩,
    ⟨rfl, (persisted_premium_is_plaintext assetJson exampleStoreWithDecryptor
      (resolvedFrom exampleStoreWithDecryptor) ["result_trip1"]
      (.text "Decrypted prime: 7, updated month prime: 7")).2 rfl⟩⟩

/-- C14 as stated fails for plaintexts from `2 ^ 63` on: under the modulus `N = 2 ^ 64`,
`VerifyAndDecrypt` of the pending result with the hint `1` returns the plaintext
`m = 9223372036854775808`, which lies in `[0, N)`, and
`decryptInsurancePremiumAndUpdate(trip1, 1)` succeeds, reports and stores in the `Prime`
record the integer `-9223372036854775808`. -/
theorem persisted_premium_truncated :
    bigStore.loads assetJson.unmarshalVerifier "verifier_owner" bigVerifier ∧
    bigStore.loads assetJson.unmarshalResult "result_trip1" bigResult ∧
    bigVerifier.VerifyAndDecrypt bigResult.PrimeTotale 1 = .ok 9223372036854775808 ∧
    (0 : Int) ≤ 9223372036854775808 ∧ (9223372036854775808 : Int) < bigVerifier.N ∧
    (decryptInsurancePremiumAndUpdate assetJson bigStore ["trip1", "1"]).response =
      some (.success (.json (.decryptedPrime (-9223372036854775808)))) ∧
    (decryptInsurancePremiumAndUpdate assetJson bigStore ["trip1", "1"]).valueAt "prime_trip1" =
      some (.prime { TripID := "trip1", Date := "2024-11-11", Prime := -9223372036854775808 }) ∧
    (-9223372036854775808 : Int) ≠ 9223372036854775808 := by
  have hend := storePrimeAndMonthPrime_absent assetJson bigStore bigResult exampleTrip
    (bigInt64 9223372036854775808) 2024 11 (by decide) (by decide)
  have hrun := decryptInsurancePremiumAndUpdate_run assetJson bigStore _ "trip1" "1" 1 bigResult
    exampleTrip exampleVehicle bigVerifier 9223372036854775808 _ (by decide)
    ⟨_, rfl, rfl⟩ ⟨_, rfl, rfl⟩ ⟨_, rfl, rfl⟩ ⟨_, rfl, rfl⟩ bigResult_decrypts hend
  refine ⟨⟨_, rfl, rfl⟩, ⟨_, rfl, rfl⟩, bigResult_decrypts, by decide, by decide, ?_, ?_,
    by decide⟩
  · rw [hrun]
    rfl
  · rw [hrun]
    rfl

/-- C15, evaluated at the failing input: for `N = 15` the randomness `r = 14 = N - 1` lies
in `[1, N - 1]`, and `EncryptWithCustomRandom(7, 14)` returns the error
"r must be in the range [1, N-1]", while `r = 13 = N - 2` is accepted. -/
theorem encryptWithCustomRandom_rejects_top :
    (1 : Int) ≤ 14 ∧ (14 : Int) ≤ exampleVerifier.N - 1 ∧
    exampleVerifier.EncryptWithCustomRandom 7 14 = .error "r must be in the range [1, N-1]" ∧
    exampleVerifier.EncryptWithCustomRandom 7 13 = .ok 142 := by
  decide

/-- C16, as amended: `Encrypt` has no range check.  For every modulus `N ≥ 2`, every
integer `m` (also `m < 0` or `m ≥ N`) and every `r` drawn, `Encrypt(m)` returns no error
but the ciphertext `(1 + m N) r ^ N mod N²`, which is the one of the plaintext `m mod N`. -/
theorem encrypt_has_no_range_check (v : Verifier) (hN : 2 ≤ v.N) (m r : Int) :
    v.Encrypt m r = .ok ((1 + m * v.N) * r ^ v.N.toNat % (v.N * v.N)) ∧
    v.Encrypt m r = v.Encrypt (m % v.N) r := by
  refine ⟨encrypt_eq v hN m r, ?_⟩
  rw [encrypt_eq v hN m r, encrypt_eq v hN (m % v.N) r]
  congr 1
  apply Int.ModEq.mul_right
  rw [Int.modEq_iff_dvd]
  refine ⟨-(m / v.N), ?_⟩
  have := Int.emod_add_ediv m v.N
  linear_combination (v.N) * this

/-- Instance of C16 (amended) for `N = 15`, `m = 15`, `r = 2`. -/
theorem encrypt_has_no_range_check_witness :
    (2 : Int) ≤ exampleVerifier.N ∧
    exampleVerifier.Encrypt 15 2 =
      .ok ((1 + 15 * exampleVerifier.N) * 2 ^ exampleVerifier.N.toNat
        % (exampleVerifier.N * exampleVerifier.N)) ∧
    exampleVerifier.Encrypt 15 2 = exampleVerifier.Encrypt (15 % exampleVerifier.N) 2 :=
  ⟨by decide, encrypt_has_no_range_check exampleVerifier (by decide) 15 2⟩

/-- C16 as stated fails: for `N = 15` and the drawn `r = 2`, `Encrypt(15)` (a plaintext
`≥ N`) returns the ciphertext `143` and `Encrypt(-1)` (a negative plaintext) returns the
ciphertext `23`; neither returns an error. -/
theorem encrypt_accepts_out_of_range :
    (2 : Int) ≤ exampleVerifier.N ∧ exampleVerifier.canDraw 2 ∧
    (15 : Int) ≥ exampleVerifier.N ∧ exampleVerifier.Encrypt 15 2 = .ok 143 ∧
    (-1 : Int) < 0 ∧ exampleVerifier.Encrypt (-1) 2 = .ok 23 := by
  decide

/-- C17, evaluated at the failing input: for `N = 15` the value `r = 0` is one that
`rand.Int(rand.Reader, N - 1)` can return, it is not in `[1, N - 1]`, and `Encrypt(7)`
computed from it is the ciphertext `0`. -/
theorem encrypt_can_draw_zero :
    (3 : Int) ≤ exampleVerifier.N ∧ exampleVerifier.canDraw 0 ∧ ¬ ((1 : Int) ≤ 0) ∧
    exampleVerifier.Encrypt 7 0 = .ok 0 := by
  decide

/-- C18: for every modulus `N ≥ 2` and all integers `C1`, `C2`,
`HomomorphicSubtraction(C1, C2)` fails, with the error
"Failed to compute modular inverse of C2" and no ciphertext, if and only if
`gcd(C2, N²) ≠ 1`; otherwise it returns `C1 * C2⁻¹ mod N²`, where `C2⁻¹` in `[0, N²)` is
the inverse of `C2` modulo `N²`. -/
theorem homomorphicSubtraction_fails_iff (v : Verifier) (hN : 2 ≤ v.N) (C1 C2 : Int) :
    (v.HomomorphicSubtraction C1 C2 = .error "Failed to compute modular inverse of C2" ↔
      Int.gcd C2 (v.N * v.N) ≠ 1) ∧
    (Int.gcd C2 (v.N * v.N) ≠ 1 → ∀ C, v.HomomorphicSubtraction C1 C2 ≠ .ok C) ∧
    (Int.gcd C2 (v.N * v.N) = 1 →
      ∃ inv, 0 ≤ inv ∧ inv < v.N * v.N ∧ C2 * inv % (v.N * v.N) = 1 ∧
        v.HomomorphicSubtraction C1 C2 = .ok (C1 * inv % (v.N * v.N))) := by
  have hN0 : v.N ≠ 0 := by omega
  have hNN0 : v.N * v.N ≠ 0 := mul_ne_zero hN0 hN0
  have hNNpos : 0 < v.N * v.N := by positivity
  have hgood : Int.gcd C2 (v.N * v.N) = 1 →
      ∃ inv, 0 ≤ inv ∧ inv < v.N * v.N ∧ C2 * inv % (v.N * v.N) = 1 ∧
        v.HomomorphicSubtraction C1 C2 = .ok (C1 * inv % (v.N * v.N)) := by
    intro hg
    obtain ⟨inv, hinv, h0, h1, hmul⟩ := bigModInverse_of_coprime C2 (v.N * v.N) hNN0 hg
    refine ⟨inv, h0, ?_, ?_, ?_⟩
    · rwa [abs_of_pos hNNpos] at h1
    · rw [hmul]
      exact Int.emod_eq_of_lt (by norm_num) (by nlinarith)
    · simp only [Verifier.HomomorphicSubtraction, hinv, Res.ok_bind, bigMod, if_neg hNN0]
  have hbad : Int.gcd C2 (v.N * v.N) ≠ 1 →
      v.HomomorphicSubtraction C1 C2 = .error "Failed to compute modular inverse of C2" := by
    intro hg
    simp only [Verifier.HomomorphicSubtraction,
      bigModInverse_of_not_coprime C2 (v.N * v.N) hNN0 hg, Res.ok_bind]
  refine ⟨⟨?_, hbad⟩, ?_, hgood⟩
  · intro h hg
    obtain ⟨inv, -, -, -, hok⟩ := hgood hg
    rw [hok] at h
    cases h
  · intro hg C h
    rw [hbad hg] at h
    cases h

/-- Instance of C18 for `N = 15`, `C1 = 83`, `C2 = 203`. -/
theorem homomorphicSubtraction_fails_iff_witness :
    (2 : Int) ≤ exampleVerifier.N ∧
    ((exampleVerifier.HomomorphicSubtraction 83 203 =
        .error "Failed to compute modular inverse of C2" ↔
      Int.gcd 203 (exampleVerifier.N * exampleVerifier.N) ≠ 1) ∧
    (Int.gcd 203 (exampleVerifier.N * exampleVerifier.N) ≠ 1 →
      ∀ C, exampleVerifier.HomomorphicSubtraction 83 203 ≠ .ok C) ∧
    (Int.gcd 203 (exampleVerifier.N * exampleVerifier.N) = 1 →
      ∃ inv, 0 ≤ inv ∧ inv < exampleVerifier.N * exampleVerifier.N ∧
        203 * inv % (exampleVerifier.N * exampleVerifier.N) = 1 ∧
        exampleVerifier.HomomorphicSubtraction 83 203 =
          .ok (83 * inv % (exampleVerifier.N * exampleVerifier.N)))) :=
  ⟨by decide, homomorphicSubtraction_fails_iff exampleVerifier (by decide) 83 203⟩

/-- C19: for every `N ≥ 2`, `lambda ≥ 1` and `R` (non-negative or not),
`Decryptor.ComputeRPrime(R)` fails, with the error "Failed to compute modular inverse", if
and only if `gcd(N, lambda) ≠ 1`; otherwise it returns `R ^ d mod N` where `d`,
`0 ≤ d < lambda`, is the inverse of `N` modulo `lambda`. -/
theorem computeRPrime_fails_iff (d : Decryptor) (hN : 2 ≤ d.N) (hl : 1 ≤ d.Lambda) (R : Int) :
    (d.ComputeRPrime R = .error "Failed to compute modular inverse" ↔
      Int.gcd d.N d.Lambda ≠ 1) ∧
    (Int.gcd d.N d.Lambda ≠ 1 → ∀ R', d.ComputeRPrime R ≠ .ok R') ∧
    (Int.gcd d.N d.Lambda = 1 →
      ∃ e, 0 ≤ e ∧ e < d.Lambda ∧ d.N * e ≡ 1 [ZMOD d.Lambda] ∧
        d.ComputeRPrime R = .ok (R ^ e.toNat % d.N)) := by
  have hN0 : d.N ≠ 0 := by omega
  have hl0 : d.Lambda ≠ 0 := by omega
  have hgood : Int.gcd d.N d.Lambda = 1 →
      ∃ e, 0 ≤ e ∧ e < d.Lambda ∧ d.N * e ≡ 1 [ZMOD d.Lambda] ∧
        d.ComputeRPrime R = .ok (R ^ e.toNat % d.N) := by
    intro hg
    obtain ⟨e, he, h0, h1, hmul⟩ := bigModInverse_of_coprime d.N d.Lambda hl0 hg
    refine ⟨e, h0, ?_, hmul, ?_⟩
    · rwa [abs_of_pos (by omega)] at h1
    · simp only [Decryptor.ComputeRPrime, he, Res.ok_bind, bigExp_of_nonneg R e d.N h0 hN0,
        deref]
  have hbad : Int.gcd d.N d.Lambda ≠ 1 →
      d.ComputeRPrime R = .error "Failed to compute modular inverse" := by
    intro hg
    simp only [Decryptor.ComputeRPrime, bigModInverse_of_not_coprime d.N d.Lambda hl0 hg,
      Res.ok_bind]
  refine ⟨⟨?_, hbad⟩, ?_, hgood⟩
  · intro h hg
    obtain ⟨e, -, -, -, hok⟩ := hgood hg
    rw [hok] at h
    cases h
  · intro hg R' h
    rw [hbad hg] at h
    cases h

/-- Instance of C19 for the small key: `N = 15`, `lambda = 4`, `R = 8`. -/
theorem computeRPrime_fails_iff_witness :
    (2 : Int) ≤ exampleDecryptor.N ∧ (1 : Int) ≤ exampleDecryptor.Lambda ∧
    ((exampleDecryptor.ComputeRPrime 8 = .error "Failed to compute modular inverse" ↔
      Int.gcd exampleDecryptor.N exampleDecryptor.Lambda ≠ 1) ∧
    (Int.gcd exampleDecryptor.N exampleDecryptor.Lambda ≠ 1 →
      ∀ R', exampleDecryptor.ComputeRPrime 8 ≠ .ok R') ∧
    (Int.gcd exampleDecryptor.N exampleDecryptor.Lambda = 1 →
      ∃ e, 0 ≤ e ∧ e < exampleDecryptor.Lambda ∧
        exampleDecryptor.N * e ≡ 1 [ZMOD exampleDecryptor.Lambda] ∧
        exampleDecryptor.ComputeRPrime 8 = .ok (8 ^ e.toNat % exampleDecryptor.N))) :=
  ⟨by decide, by decide, computeRPrime_fails_iff exampleDecryptor (by decide) (by decide) 8⟩

/-- C20: for every modulus `N ≥ 2` and every list of ciphertexts, `HomomorphicSum` never
fails and equals the left fold of `HomomorphicAddition` over the list starting from `1`
(`homomorphicSumSpec`), that is the fold of `result * c mod N²`; the empty list yields `1`
and a singleton list `[c]` yields `c mod N²`. -/
theorem homomorphicSum_is_fold (v : Verifier) (hN : 2 ≤ v.N) (cs : List Int) :
    v.HomomorphicSum cs = homomorphicSumSpec v cs ∧
    v.HomomorphicSum cs =
      .ok (cs.foldl (fun result c => result * c % (v.N * v.N)) 1) ∧
    v.HomomorphicSum [] = .ok 1 ∧
    ∀ c, v.HomomorphicSum [c] = .ok (c % (v.N * v.N)) := by
  have hN0 : v.N ≠ 0 := by omega
  have hNN0 : v.N * v.N ≠ 0 := mul_ne_zero hN0 hN0
  refine ⟨homomorphicSum_loop_eq_fold v cs 1, homomorphicSum_loop_ok v hNN0 cs 1, rfl, ?_⟩
  intro c
  have := homomorphicSum_loop_ok v hNN0 [c] 1
  simpa [Verifier.HomomorphicSum] using this

/-- Instance of C20 for `N = 15` and the list `[3, 5, 100]`. -/
theorem homomorphicSum_is_fold_witness :
    (2 : Int) ≤ exampleVerifier.N ∧
    (exampleVerifier.HomomorphicSum [3, 5, 100] = homomorphicSumSpec exampleVerifier [3, 5, 100] ∧
    exampleVerifier.HomomorphicSum [3, 5, 100] =
      .ok ([3, 5, 100].foldl
        (fun result c => result * c % (exampleVerifier.N * exampleVerifier.N)) 1) ∧
    exampleVerifier.HomomorphicSum [] = .ok 1 ∧
    ∀ c, exampleVerifier.HomomorphicSum [c] =
      .ok (c % (exampleVerifier.N * exampleVerifier.N))) :=
  ⟨by decide, homomorphicSum_is_fold exampleVerifier (by decide) [3, 5, 100]⟩

/-! ## Claims C21 to C30 -/

/-- C21: order independence of the additive terms.  For every modulus `N ≥ 2`,
`HomomorphicAddition` is commutative and associative, and `HomomorphicSum` returns the same
ciphertext for a list and for every permutation of it. -/
theorem homomorphic_order_independent (v : Verifier) (hN : 2 ≤ v.N) :
    (∀ a b : Int, v.HomomorphicAddition a b = v.HomomorphicAddition b a) ∧
    (∀ a b c : Int,
      ((v.HomomorphicAddition a b).bind fun ab => v.HomomorphicAddition ab c) =
        (v.HomomorphicAddition b c).bind fun bc => v.HomomorphicAddition a bc) ∧
    (∀ cs cs' : List Int, cs.Perm cs' → v.HomomorphicSum cs = v.HomomorphicSum cs') := by
  have hN0 : v.N ≠ 0 := by omega
  have hNN0 : v.N * v.N ≠ 0 := mul_ne_zero hN0 hN0
  refine ⟨?_, ?_, ?_⟩
  · intro a b
    simp only [Verifier.HomomorphicAddition, mul_comm a b]
  · intro a b c
    simp only [Verifier.HomomorphicAddition, bigMod, if_neg hNN0, Res.ok_bind]
    congr 1
    have h1 : a * b % (v.N * v.N) * c ≡ a * b * c [ZMOD v.N * v.N] :=
      (Int.mod_modEq _ _).mul_right _
    have h2 : a * (b * c % (v.N * v.N)) ≡ a * (b * c) [ZMOD v.N * v.N] :=
      (Int.mod_modEq _ _).mul_left _
    rw [mul_assoc] at h1
    exact h1.trans h2.symm
  · intro cs cs' hperm
    simp only [Verifier.HomomorphicSum]
    rw [homomorphicSum_loop_ok v hNN0, homomorphicSum_loop_ok v hNN0,
      homomorphicSum_fold_prod, homomorphicSum_fold_prod, hperm.prod_eq]
    have hnil : cs = [] ↔ cs' = [] := by
      constructor
      · intro h
        subst h
        exact hperm.nil_eq.symm
      · intro h
        subst h
        exact hperm.eq_nil
    by_cases h : cs = []
    · rw [if_pos h, if_pos (hnil.mp h)]
    · rw [if_neg h, if_neg (fun h' => h (hnil.mpr h'))]

/-- Instance of C21 on the modulus `N = 15`: the ciphertexts 83, 47 and 8 in two orders. -/
theorem homomorphic_order_independent_witness :
    (2 : Int) ≤ exampleVerifier.N ∧
    exampleVerifier.HomomorphicAddition 83 47 = exampleVerifier.HomomorphicAddition 47 83 ∧
    exampleVerifier.HomomorphicSum [83, 47, 8] = exampleVerifier.HomomorphicSum [8, 83, 47] :=
  ⟨by decide,
    (homomorphic_order_independent exampleVerifier (by decide)).1 83 47,
    (homomorphic_order_independent exampleVerifier (by decide)).2.2 [83, 47, 8] [8, 83, 47]
      (by decide)⟩

set_option maxRecDepth 100000 in
/-- C22: trip records are not write-once under `addTripData`.  On the small ledger the key
`trip_trip1` holds `exampleTrip`.  `addEncryptedTripData` for `trip1` answers
"Trip data with this TripID already exists" and leaves the record; `addTripData` for
`trip1` (speeding 9 instead of 3) has no such check: it answers with success and replaces
the stored record by `secondTrip`. -/
theorem addTripData_overwrites_trip :
    exampleStore "trip_trip1" = some (.trip exampleTrip) ∧
    (addEncryptedTripData assetJson exampleStore encryptedTripArgs).response =
      some (.error "Trip data with this TripID already exists") ∧
    (addEncryptedTripData assetJson exampleStore encryptedTripArgs).valueAt "trip_trip1" =
      some (.trip exampleTrip) ∧
    (addTripData assetJson parseFloatDecimal exampleStore secondTripArgs).response =
      some (.success .empty) ∧
    (addTripData assetJson parseFloatDecimal exampleStore secondTripArgs).valueAt "trip_trip1" =
      some (.trip secondTrip) ∧
    secondTrip ≠ exampleTrip := by
  refine ⟨by decide, by decide, by decide, by decide, by decide, by decide⟩

/-- C23: `addVehicleData` never succeeds.  A call with a number of arguments other than
five is answered with the error on the number of arguments; a call with five arguments
reads `args[5]`, which is out of range, and panics, whatever the store holds.  On the small
ledger the call with `vehicleArgs`, whose fifth argument names the stored verifier, panics
and no response is produced. -/
theorem addVehicleData_reads_out_of_bounds {B : Type} (J : Json B) (stub : Store B)
    (args : List String) :
    addVehicleData J stub args =
      (if args.length ≠ 5 then
        .done (.error ("Incorrect number of arguments. Expecting 5: VehicleID, VehicleType, "
          ++ "PurchaseMileage, Year, VerifierOwnerID")) stub
      else .panic) ∧
    vehicleArgs.length = 5 ∧
    exampleStore ("verifier_" ++ "owner") = some (.verifier exampleVerifier) ∧
    (addVehicleData assetJson exampleStore vehicleArgs).response = none := by
  refine ⟨?_, by decide, by decide, by decide⟩
  unfold addVehicleData
  by_cases h : args.length ≠ 5
  · rw [if_pos h, if_pos h]
  · rw [if_neg h, if_neg h]
    have h5 : args[5]? = none := List.getElem?_eq_none (by omega)
    rw [h5]
    cases args[0]? <;> rfl

set_option maxRecDepth 100000 in
/-- C24: the registration and login round trip fails.  `register` stores the hash of the
hash of the password, `getRole` and `changePassword` compare the stored value with the
hash of the password.  After registering `alice` with the password `secret` and the role
`client` on the empty ledger, `getRole("alice", "secret")` answers "Invalid password" and
`changePassword("alice", "secret", "fresh")` answers "Invalid current password"; the role is
returned when the hash of the password is given in place of the password. -/
theorem register_then_getRole_rejected :
    (register userJson noUsers aliceArgs).response =
      some (.success (.text "User registered successfully")) ∧
    (register userJson noUsers aliceArgs).valueAt "alice" =
      some { Name := "alice", Password := hashPassword (hashPassword "secret"),
             Role := "client", Dateofbirth := "2000-01-01", Address := "Paris" } ∧
    hashPassword "secret" =
      "2bb80d537b1da3e38bd30361aa855686bde0eacd7162fef6a25fe97bf527a25b" ∧
    hashPassword (hashPassword "secret") =
      "3d91b58504a6cc3a159005ee7b16c7ae503ca6ac2a6a3c893837083c236b864a" ∧
    ((register userJson noUsers aliceArgs).andThen
      fun stub => getRole userJson stub ["alice", "secret"]).response =
        some (.error "Invalid password") ∧
    ((register userJson noUsers aliceArgs).andThen
      fun stub => changePassword userJson stub ["alice", "secret", "fresh"]).response =
        some (.error "Invalid current password") ∧
    ((register userJson noUsers aliceArgs).andThen
      fun stub => getRole userJson stub ["alice", hashPassword "secret"]).response =
        some (.success (.text "client")) := by
  refine ⟨by decide, by decide, by decide, by decide, by decide, by decide, by decide⟩

/-- C25: round trip with caller-supplied randomness.  For every valid key, every plaintext
`m` in `[0, N)` and every `r` with `1 ≤ r ≤ N - 2` and `gcd(r, N) = 1`:
`EncryptWithCustomRandom(m, r)` succeeds with a ciphertext `C`, `ComputeR(C)` succeeds,
`ComputeRPrime` of it returns `r` itself, and `VerifyAndDecrypt(C, r)` returns `m`. -/
theorem custom_random_roundtrip (v : Verifier) (d : Decryptor) (hk : ValidKey v d)
    (m r : Int) (hm : 0 ≤ m ∧ m < v.N) (hr : 1 ≤ r ∧ r ≤ v.N - 2)
    (hg : Int.gcd r v.N = 1) :
    ∃ C R, v.EncryptWithCustomRandom m r = .ok C ∧ v.ComputeR C = .ok R ∧
      d.ComputeRPrime R = .ok r ∧ v.VerifyAndDecrypt C r = .ok m := by
  have h2 := hk.two_le
  have hN0 : v.N ≠ 0 := by omega
  have hρ : IsCoprime r v.N := Int.isCoprime_iff_gcd_eq_one.mpr hg
  have hC : (1 + m * v.N) * r ^ v.N.toNat % (v.N * v.N) ≡
      (1 + m * v.N) * r ^ v.N.toNat [ZMOD v.N * v.N] := Int.mod_modEq _ _
  have hCN : (1 + m * v.N) * r ^ v.N.toNat % (v.N * v.N) % v.N ≡ r ^ v.N.toNat [ZMOD v.N] := by
    refine (Int.mod_modEq _ _).trans ?_
    have h1 := hC.of_mul_left v.N
    refine h1.trans ?_
    have h3 : (1 + m * v.N) ≡ 1 [ZMOD v.N] := by
      rw [Int.modEq_iff_dvd]
      exact ⟨-m, by ring⟩
    simpa using h3.mul_right (r ^ v.N.toNat)
  obtain ⟨R', hR', hcong⟩ := computeRPrime_of_modEq v d hk _ r hρ hCN
  obtain ⟨R'', hR'', hlo, hhi, -⟩ := computeRPrime_pow v d hk
    ((1 + m * v.N) * r ^ v.N.toNat % (v.N * v.N) % v.N)
  have hsame : R' = R'' := by
    rw [hR'] at hR''
    simpa using hR''
  have hRr : R' = r := by
    have e1 : R' % v.N = R' := Int.emod_eq_of_lt (hsame ▸ hlo) (hsame ▸ hhi)
    have e2 : r % v.N = r := Int.emod_eq_of_lt (by omega) (by omega)
    have : R' % v.N = r % v.N := hcong
    rw [e1, e2] at this
    exact this
  have hr2 : r < v.N - 1 := by omega
  refine ⟨(1 + m * v.N) * r ^ v.N.toNat % (v.N * v.N),
    (1 + m * v.N) * r ^ v.N.toNat % (v.N * v.N) % v.N,
    encryptWithCustomRandom_eq v h2 m r hr.1 hr2, ?_, ?_, ?_⟩
  · simp only [Verifier.ComputeR, bigMod, if_neg hN0]
  · rw [hRr] at hR'
    exact hR'
  · have := verifyAndDecrypt_of_modEq v h2 _ m r r hρ hC (Int.ModEq.refl _)
    rwa [Int.emod_eq_of_lt hm.1 hm.2] at this

/-- Instance of C25 on the small key pair: `m = 7`, `r = 2`. -/
theorem custom_random_roundtrip_witness :
    ValidKey exampleVerifier exampleDecryptor ∧
    ∃ C R, exampleVerifier.EncryptWithCustomRandom 7 2 = .ok C ∧
      exampleVerifier.ComputeR C = .ok R ∧
      exampleDecryptor.ComputeRPrime R = .ok 2 ∧
      exampleVerifier.VerifyAndDecrypt C 2 = .ok 7 :=
  ⟨exampleKey_valid, custom_random_roundtrip exampleVerifier exampleDecryptor exampleKey_valid
    7 2 (by decide) (by decide) (by decide)⟩

/-- C26: an honest decryptor always passes verification.  For every key with `N = p q` a
product of two distinct primes, `lambda = lcm(p - 1, q - 1)` and `gcd(N, lambda) = 1`, and
every integer `C`, `ComputeR(C)` and `ComputeRPrime` of it succeed with a hint `R'` such that
`R' ^ N mod N = C mod N`, so `VerifyAndDecrypt(C, R')` never returns the verification
error; it returns a plaintext when `gcd(C, N) = 1`, and the error of the missing inverse of
`S` when `gcd(C, N) ≠ 1`. -/
theorem honest_decryptor_passes_verification (v : Verifier) (d : Decryptor) (p q : Nat)
    (hp : p.Prime) (hq : q.Prime) (hpq : p ≠ q) (hvN : v.N = (p : Int) * q)
    (hdN : d.N = (p : Int) * q) (hlam : d.Lambda = (Nat.lcm (p - 1) (q - 1) : Int))
    (hg : Int.gcd d.N d.Lambda = 1) (C : Int) :
    ∃ R R', v.ComputeR C = .ok R ∧ d.ComputeRPrime R = .ok R' ∧
      R' ^ v.N.toNat % v.N = C % v.N ∧
      v.VerifyAndDecrypt C R' ≠ .error "Verification failed: rPrime is invalid" ∧
      (Int.gcd C v.N = 1 → ∃ m, v.VerifyAndDecrypt C R' = .ok m) ∧
      (Int.gcd C v.N ≠ 1 →
        v.VerifyAndDecrypt C R' = .error "Failed to compute modular inverse of S") := by
  have hk : ValidKey v { d with P := p, Q := q } :=
    validKey_of_coprime v d p q hp hq hpq hvN hdN hlam hg
  have hsame : ∀ R, d.ComputeRPrime R = Decryptor.ComputeRPrime { d with P := p, Q := q } R :=
    fun _ => rfl
  have h2 := hk.two_le
  have hN0 : v.N ≠ 0 := by omega
  have hNN0 : v.N * v.N ≠ 0 := mul_ne_zero hN0 hN0
  obtain ⟨R', hR', -, -, hpow⟩ := computeRPrime_pow v _ hk (C % v.N)
  rw [← hsame] at hR'
  have hver : R' ^ v.N.toNat % v.N = C % v.N := hpow.trans (Int.mod_modEq _ _)
  have hS : R' ^ v.N.toNat % (v.N * v.N) ≡ C [ZMOD v.N] :=
    ((Int.mod_modEq _ _).of_mul_left v.N).trans hver
  have hrun := verifyAndDecrypt_eq v h2 C R'
  rw [if_neg (not_not.mpr hver)] at hrun
  refine ⟨C % v.N, R', ?_, hR', hver, ?_, ?_, ?_⟩
  · simp only [Verifier.ComputeR, bigMod, if_neg hN0]
  · intro h
    exact ((verifyAndDecrypt_error_iff v h2 C R').mp h) hver
  · intro hg
    have hc : IsCoprime C v.N := Int.isCoprime_iff_gcd_eq_one.mpr hg
    have hSc : IsCoprime (R' ^ v.N.toNat % (v.N * v.N)) v.N :=
      isCoprime_of_modEq _ _ _ hS.symm hc
    obtain ⟨Sinv, hinv, -⟩ := bigModInverse_of_coprime _ _ hNN0
      (Int.isCoprime_iff_gcd_eq_one.mp (hSc.mul_right hSc))
    rw [hinv, Res.ok_bind] at hrun
    exact ⟨_, hrun⟩
  · intro hg
    have hnot : Int.gcd (R' ^ v.N.toNat % (v.N * v.N)) (v.N * v.N) ≠ 1 := by
      intro h1
      have hc : IsCoprime (R' ^ v.N.toNat % (v.N * v.N)) (v.N * v.N) :=
        Int.isCoprime_iff_gcd_eq_one.mpr h1
      have hc' : IsCoprime (R' ^ v.N.toNat % (v.N * v.N)) v.N := hc.of_mul_right_left
      exact hg (Int.isCoprime_iff_gcd_eq_one.mp (isCoprime_of_modEq _ _ _ hS hc'))
    rw [bigModInverse_of_not_coprime _ _ hNN0 hnot, Res.ok_bind] at hrun
    exact hrun

/-- Instance of C26 on the small key pair `N = 3 * 5`, `lambda = 4`, for the ciphertext
83. -/
theorem honest_decryptor_passes_verification_witness :
    Nat.Prime 3 ∧ Nat.Prime 5 ∧ exampleVerifier.N = ((3 : Nat) : Int) * (5 : Nat) ∧
    exampleDecryptor.N = ((3 : Nat) : Int) * (5 : Nat) ∧
    exampleDecryptor.Lambda = (Nat.lcm (3 - 1) (5 - 1) : Int) ∧
    Int.gcd exampleDecryptor.N exampleDecryptor.Lambda = 1 ∧
    ∃ R R', exampleVerifier.ComputeR 83 = .ok R ∧ exampleDecryptor.ComputeRPrime R = .ok R' ∧
      R' ^ exampleVerifier.N.toNat % exampleVerifier.N = 83 % exampleVerifier.N ∧
      exampleVerifier.VerifyAndDecrypt 83 R' ≠ .error "Verification failed: rPrime is invalid" ∧
      (Int.gcd 83 exampleVerifier.N = 1 → ∃ m, exampleVerifier.VerifyAndDecrypt 83 R' = .ok m) ∧
      (Int.gcd 83 exampleVerifier.N ≠ 1 → exampleVerifier.VerifyAndDecrypt 83 R' =
        .error "Failed to compute modular inverse of S") :=
  ⟨Nat.prime_three, Nat.prime_five, by decide, by decide, by decide, by decide,
    honest_decryptor_passes_verification exampleVerifier exampleDecryptor 3 5 Nat.prime_three
      Nat.prime_five (by decide) (by decide) (by decide) (by decide) (by decide) 83⟩

/-- C27: shared randomness reveals plaintext equality.  For every modulus `N ≥ 3` and every
`r` accepted by `EncryptWithCustomRandom` (`1 ≤ r < N - 1`) with `gcd(r, N) = 1`: for all
integers `m1`, `m2` both encryptions succeed and the ciphertexts are equal exactly when
`m1 ≡ m2 (mod N)`; the ciphertext of `m` is the one of `m mod N`; and in a trip record
written by `addTripData` under this modulus with this derived randomness, two metric
ciphertexts are equal exactly when the converted arguments are congruent modulo `N`. -/
theorem shared_randomness_reveals_equality (v : Verifier) (hN : 3 ≤ v.N) (r : Int)
    (hr1 : 1 ≤ r) (hr2 : r < v.N - 1) (hg : Int.gcd r v.N = 1) :
    (∀ m1 m2 : Int, ∃ C1 C2, v.EncryptWithCustomRandom m1 r = .ok C1 ∧
      v.EncryptWithCustomRandom m2 r = .ok C2 ∧ (C1 = C2 ↔ m1 ≡ m2 [ZMOD v.N])) ∧
    (∀ m : Int, v.EncryptWithCustomRandom m r = v.EncryptWithCustomRandom (m % v.N) r) ∧
    (∀ {B : Type} (J : Json B) (parseFloat : String → Except String Int)
      (stub stub' : Store B) (vehicleID tripID date a3 a4 a5 a6 a7 a8 a9 a10 owner : String)
      (pl : Payload B),
      stub.loads J.unmarshalVerifier ("verifier_" ++ owner) v →
      generateDeterministicR (vehicleID ++ tripID ++ date) v.N = .ok r →
      addTripData J parseFloat stub
        [vehicleID, tripID, date, a3, a4, a5, a6, a7, a8, a9, a10, owner] =
          .done (.success pl) stub' →
      ∃ (t : EncryptedTripData) (ms : List Int),
        stub' ("trip_" ++ tripID) = some (J.marshalTrip t) ∧
        [a3, a4, a5, a6, a7, a8, a9, a10].map parseFloat = ms.map Except.ok ∧
        ∀ x ∈ ms.zip (tripMetrics t), ∀ y ∈ ms.zip (tripMetrics t),
          (x.2 = y.2 ↔ x.1 ≡ y.1 [ZMOD v.N])) := by
  have h2 : 2 ≤ v.N := by omega
  have hN0 : v.N ≠ 0 := by omega
  have hρ : IsCoprime r v.N := Int.isCoprime_iff_gcd_eq_one.mpr hg
  have key : ∀ m1 m2 C1 C2 : Int, v.EncryptWithCustomRandom m1 r = .ok C1 →
      v.EncryptWithCustomRandom m2 r = .ok C2 → (C1 = C2 ↔ m1 ≡ m2 [ZMOD v.N]) := by
    intro m1 m2 C1 C2 e1 e2
    rw [encryptWithCustomRandom_eq v h2 m1 r hr1 hr2, Res.ok.injEq] at e1
    rw [encryptWithCustomRandom_eq v h2 m2 r hr1 hr2, Res.ok.injEq] at e2
    rw [← e1, ← e2]
    exact encryption_cancel v.N r m1 m2 v.N.toNat hN0 hρ
  refine ⟨?_, ?_, ?_⟩
  · intro m1 m2
    exact ⟨_, _, encryptWithCustomRandom_eq v h2 m1 r hr1 hr2,
      encryptWithCustomRandom_eq v h2 m2 r hr1 hr2, key m1 m2 _ _
        (encryptWithCustomRandom_eq v h2 m1 r hr1 hr2)
        (encryptWithCustomRandom_eq v h2 m2 r hr1 hr2)⟩
  · intro m
    have e1 := encryptWithCustomRandom_eq v h2 m r hr1 hr2
    have e2 := encryptWithCustomRandom_eq v h2 (m % v.N) r hr1 hr2
    rw [e1, e2, Res.ok.injEq]
    exact (key m (m % v.N) _ _ e1 e2).mpr (Int.mod_modEq m v.N).symm
  · intro B J parseFloat stub stub' vehicleID tripID date a3 a4 a5 a6 a7 a8 a9 a10 owner pl
      hv hgen hrun
    obtain ⟨vehicleID', tripID', date', b3, b4, b5, b6, b7, b8, b9, b10, owner', verifier, r',
      t, hargs, hv', hgen', hall, -, -, -, hstub, -⟩ :=
      addTripData_success_inv J parseFloat stub stub' _ pl hrun
    simp only [List.cons.injEq, and_true] at hargs
    obtain ⟨rfl, rfl, rfl, rfl, rfl, rfl, rfl, rfl, rfl, rfl, rfl, rfl⟩ := hargs
    have hsame : verifier = v := by
      obtain ⟨b, hb, hu⟩ := hv
      obtain ⟨b', hb', hu'⟩ := hv'
      rw [hb] at hb'
      simp only [Option.some.injEq] at hb'
      subst hb'
      rw [hu] at hu'
      simpa using hu'.symm
    subst hsame
    rw [hgen, Res.ok.injEq] at hgen'
    subst hgen'
    simp only [tripMetrics, List.forall₂_cons, List.Forall₂.nil, and_true] at hall
    obtain ⟨⟨m3, p3, e3⟩, ⟨m4, p4, e4⟩, ⟨m5, p5, e5⟩, ⟨m6, p6, e6⟩, ⟨m7, p7, e7⟩,
      ⟨m8, p8, e8⟩, ⟨m9, p9, e9⟩, ⟨m10, p10, e10⟩⟩ := hall
    refine ⟨t, [m3, m4, m5, m6, m7, m8, m9, m10], ?_, ?_, ?_⟩
    · rw [hstub]
      exact Store.put_same _ _ _
    · simp only [List.map, p3, p4, p5, p6, p7, p8, p9, p10]
    · have hmem : ∀ x ∈ [m3, m4, m5, m6, m7, m8, m9, m10].zip (tripMetrics t),
          verifier.EncryptWithCustomRandom x.1 r = .ok x.2 := by
        intro x hx
        simp only [tripMetrics, List.zip_cons_cons, List.zip_nil_right, List.mem_cons,
          List.mem_nil_iff, or_false] at hx
        rcases hx with rfl | rfl | rfl | rfl | rfl | rfl | rfl | rfl <;> assumption
      intro x hx y hy
      exact key x.1 y.1 x.2 y.2 (hmem x hx) (hmem y hy)

set_option maxRecDepth 100000 in
/-- Instance of C27 on the modulus `N = 15` with the randomness 2: the plaintexts 3 and 18
have the same ciphertext; and in the record `addTripData` writes for `secondTripArgs`, whose
derived randomness is 2, the ciphertexts of the equal metrics are equal. -/
theorem shared_randomness_reveals_equality_witness :
    (3 : Int) ≤ exampleVerifier.N ∧ (1 : Int) ≤ 2 ∧ (2 : Int) < exampleVerifier.N - 1 ∧
    Int.gcd 2 exampleVerifier.N = 1 ∧
    (∃ C1 C2, exampleVerifier.EncryptWithCustomRandom 3 2 = .ok C1 ∧
      exampleVerifier.EncryptWithCustomRandom 18 2 = .ok C2 ∧
      (C1 = C2 ↔ 3 ≡ 18 [ZMOD exampleVerifier.N])) ∧
    ∃ (t : EncryptedTripData) (ms : List Int),
      (exampleStore.put "trip_trip1" (.trip secondTrip)) ("trip_" ++ "trip1") =
        some (assetJson.marshalTrip t) ∧
      ["9", "1", "0", "2", "0", "4", "1", "100"].map parseFloatDecimal = ms.map Except.ok ∧
      ∀ x ∈ ms.zip (tripMetrics t), ∀ y ∈ ms.zip (tripMetrics t),
        (x.2 = y.2 ↔ x.1 ≡ y.1 [ZMOD exampleVerifier.N]) :=
  ⟨by decide, by decide, by decide, by decide,
    (shared_randomness_reveals_equality exampleVerifier (by decide) 2 (by decide) (by decide)
      (by decide)).1 3 18,
    (shared_randomness_reveals_equality exampleVerifier (by decide) 2 (by decide) (by decide)
      (by decide)).2.2 assetJson parseFloatDecimal exampleStore
      (exampleStore.put "trip_trip1" (.trip secondTrip))
      "veh1" "trip1" "2024-11-11" "9" "1" "0" "2" "0" "4" "1" "100" "owner" .empty
      ⟨_, rfl, rfl⟩ (by decide) (by rfl)⟩

set_option maxRecDepth 100000 in
/-- C28: for every modulus `n ≥ 2` and every context string, `generateDeterministicR`
returns `r = (H mod (n - 1)) + 1`, where `H` is the SHA-256 digest of the bytes of the
string read as a big-endian integer, `0 ≤ H < 2 ^ 256`, and `1 ≤ r < n`.  The digest is the
one of FIPS 180-4: on the messages `"abc"`, the empty message and the two-block message
`"abcdbcdecdefdefgefghfghighijhijkijkljklmklmnlmnomnopnopq"` it has the published values,
and the bytes of a string are its UTF-8 encoding. -/
theorem generateDeterministicR_spec (data : String) (n : Int) (hn : 2 ≤ n) :
    (∃ (H : Nat) (r : Int), H = bytesToNat (sha256Sum256 (utf8Bytes data)) ∧ H < 2 ^ 256 ∧
      generateDeterministicR data n = .ok r ∧ r = (H : Int) % (n - 1) + 1 ∧ 1 ≤ r ∧ r < n) ∧
    hexEncodeToString (sha256Sum256 (utf8Bytes "abc")) =
      "ba7816bf8f01cfea414140de5dae2223b00361a396177a9cb410ff61f20015ad" ∧
    hexEncodeToString (sha256Sum256 (utf8Bytes "")) =
      "e3b0c44298fc1c149afbf4c8996fb92427ae41e4649b934ca495991b7852b855" ∧
    hexEncodeToString (sha256Sum256
        (utf8Bytes "abcdbcdecdefdefgefghfghighijhijkijkljklmklmnlmnomnopnopq")) =
      "248d6a61d20638b8e5c026930c3e6039a33ce45964ff2167f6ecedd419db06c1" ∧
    utf8Bytes "aé€" = [97, 195, 169, 226, 130, 172] := by
  have h0 : n - 1 ≠ 0 := by omega
  refine ⟨⟨_, _, rfl, sha256_digest_lt _, ?_, rfl, ?_, ?_⟩, by decide, by decide, by decide,
    by decide⟩
  · simp only [generateDeterministicR, bigMod, if_neg h0, Res.ok_bind]
  · have := Int.emod_nonneg (bytesToNat (sha256Sum256 (utf8Bytes data)) : Int) h0
    omega
  · have := Int.emod_lt_of_pos (bytesToNat (sha256Sum256 (utf8Bytes data)) : Int)
      (show 0 < n - 1 by omega)
    omega

set_option maxRecDepth 100000 in
/-- Instance of C28: the context `"veh1trip12024-11-11"` has the digest `d082dd7e...`; under
`n = 1000000007` it gives `r = 163039394`, and under `n = 15` it gives `r = 2`. -/
theorem generateDeterministicR_spec_witness :
    (2 : Int) ≤ 1000000007 ∧
    hexEncodeToString (sha256Sum256 (utf8Bytes "veh1trip12024-11-11")) =
      "d082dd7eb07c9eb1ba24962a0cb5de919cbb07f96f78d81553f1beddcdbf7193" ∧
    generateDeterministicR "veh1trip12024-11-11" 1000000007 = .ok 163039394 ∧
    generateDeterministicR "veh1trip12024-11-11" 15 = .ok 2 ∧
    generateDeterministicR "" 1000000007 = .ok 952014934 ∧
    ∃ (H : Nat) (r : Int), H = bytesToNat (sha256Sum256 (utf8Bytes "veh1trip12024-11-11")) ∧
      H < 2 ^ 256 ∧ generateDeterministicR "veh1trip12024-11-11" 1000000007 = .ok r ∧
      r = (H : Int) % (1000000007 - 1) + 1 ∧ 1 ≤ r ∧ r < 1000000007 :=
  ⟨by decide, by decide, by decide, by decide, by decide,
    (generateDeterministicR_spec "veh1trip12024-11-11" 1000000007 (by decide)).1⟩

/-- C29: the deterministic randomness can be rejected by the encryptor it feeds.  For every
modulus `N ≥ 3` and every context whose digest `H` has `H mod (N - 1) = N - 2`,
`generateDeterministicR` returns `r = N - 1`, `EncryptWithCustomRandom(m, N - 1)` returns
the error "r must be in the range [1, N-1]" for every `m`, and `addTripData` for that
vehicle, trip and date answers with an error and writes nothing; for every other digest
the derived `r` is accepted: `EncryptWithCustomRandom(m, r)` succeeds for every `m`. -/
theorem deterministic_randomness_rejected (v : Verifier) (hN : 3 ≤ v.N) (data : String) :
    ((bytesToNat (sha256Sum256 (utf8Bytes data)) : Int) % (v.N - 1) = v.N - 2 →
      generateDeterministicR data v.N = .ok (v.N - 1) ∧
      (∀ m : Int, v.EncryptWithCustomRandom m (v.N - 1) =
        .error "r must be in the range [1, N-1]") ∧
      ∀ {B : Type} (J : Json B) (parseFloat : String → Except String Int) (stub : Store B)
        (vehicleID tripID date a3 a4 a5 a6 a7 a8 a9 a10 owner : String),
        vehicleID ++ tripID ++ date = data →
        stub.loads J.unmarshalVerifier ("verifier_" ++ owner) v →
        ∃ msg, addTripData J parseFloat stub
            [vehicleID, tripID, date, a3, a4, a5, a6, a7, a8, a9, a10, owner] =
          .done (.error msg) stub) ∧
    ((bytesToNat (sha256Sum256 (utf8Bytes data)) : Int) % (v.N - 1) ≠ v.N - 2 →
      ∃ r, generateDeterministicR data v.N = .ok r ∧
        ∀ m : Int, ∃ C, v.EncryptWithCustomRandom m r = .ok C) := by
  have h0 : v.N - 1 ≠ 0 := by omega
  have hgen : generateDeterministicR data v.N =
      .ok ((bytesToNat (sha256Sum256 (utf8Bytes data)) : Int) % (v.N - 1) + 1) := by
    simp only [generateDeterministicR, bigMod, if_neg h0, Res.ok_bind]
  constructor
  · intro hH
    have hgen' : generateDeterministicR data v.N = .ok (v.N - 1) := by
      rw [hgen, hH]
      congr 1
      ring
    refine ⟨hgen', fun m => encryptWithCustomRandom_rejects v m _ (Or.inr (le_refl _)), ?_⟩
    intro B J parseFloat stub vehicleID tripID date a3 a4 a5 a6 a7 a8 a9 a10 owner hdata hv
    subst hdata
    exact addTripData_rejected J parseFloat stub vehicleID tripID date a3 a4 a5 a6 a7 a8 a9 a10
      owner v (v.N - 1) hv hgen' (Or.inr (le_refl _))
  · intro hH
    refine ⟨_, hgen, fun m => ⟨_, encryptWithCustomRandom_eq v (by omega) m _ ?_ ?_⟩⟩
    · have := Int.emod_nonneg (bytesToNat (sha256Sum256 (utf8Bytes data)) : Int) h0
      omega
    · have := Int.emod_lt_of_pos (bytesToNat (sha256Sum256 (utf8Bytes data)) : Int)
        (show 0 < v.N - 1 by omega)
      omega

set_option maxRecDepth 100000 in
/-- Instance of C29 on the small ledger (`N = 15`): the digest of `"veh1trip32024-11-11"` is
13 modulo 14, so the derived randomness is 14 and `addTripData` for the trip `trip3`
fails. -/
theorem deterministic_randomness_rejected_witness :
    (3 : Int) ≤ exampleVerifier.N ∧
    (bytesToNat (sha256Sum256 (utf8Bytes "veh1trip32024-11-11")) : Int)
      % (exampleVerifier.N - 1) = exampleVerifier.N - 2 ∧
    generateDeterministicR "veh1trip32024-11-11" exampleVerifier.N
      = .ok (exampleVerifier.N - 1) ∧
    (∃ msg, addTripData assetJson parseFloatDecimal exampleStore rejectedTripArgs =
      .done (.error msg) exampleStore) :=
  ⟨by decide, by decide,
    ((deterministic_randomness_rejected exampleVerifier (by decide)
      "veh1trip32024-11-11").1 (by decide)).1,
    ((deterministic_randomness_rejected exampleVerifier (by decide)
      "veh1trip32024-11-11").1 (by decide)).2.2 assetJson parseFloatDecimal exampleStore
      "veh1" "trip3" "2024-11-11" "3" "1" "0" "2" "0" "4" "1" "100" "owner" (by decide)
      ⟨_, rfl, rfl⟩⟩

/-- C30: partial write on a bad trip date.  For every store state in which the records
load, `VerifyAndDecrypt` of the calculation result returns `m`, and the date of the trip
does not parse as `<integer>-<integer>`: `decryptInsurancePremiumAndUpdate` answers with the
error "Invalid date format: ..." and leaves the store with the `Prime` record written under
`prime_<tripID>` and every other key, the `MonthPrime` keys included, as before; so does
`decryptInsurancePremiumAndUpdateWithoutParams` when the decryptor of the owner computes the
same `r_prime`.  Failures of a lookup, of the parsing of `r_prime`, of `ComputeRPrime` and of
the verification occur before any write: when `VerifyAndDecrypt` rejects an `r_prime`, either
operation answers "Failed to decrypt prime: ..." with the store as it was; and an error
response of either operation leaves the store as it was, unless the records of the run loaded, `VerifyAndDecrypt` of the loaded
result with the `r_prime` of the run under the loaded verifier returned a plaintext, exactly
the `Prime` record of that plaintext was written, and the error is the one of the date or
the one of an undecodable `MonthPrime` record. -/
theorem partial_write_on_bad_date {B : Type} (J : Json B) (stub : Store B)
    (tripArg rPrimeArg : String) (rPrime : Int)
    (res : EncryptedCalculationResult) (trip : EncryptedTripData)
    (veh : EncryptedVehicleData) (verifier : Verifier) (m : Int)
    (hparse : setString10 rPrimeArg = some rPrime)
    (hr : stub.loads J.unmarshalResult ("result_" ++ tripArg) res)
    (ht : stub.loads J.unmarshalTrip ("trip_" ++ res.TripID) trip)
    (hx : stub.loads J.unmarshalVehicle ("vehicle_" ++ trip.VehicleID) veh)
    (hv : stub.loads J.unmarshalVerifier ("verifier_" ++ veh.OwnerID) verifier)
    (hdec : verifier.VerifyAndDecrypt res.PrimeTotale rPrime = .ok m)
    (hdate : sscanfYearMonth trip.Date = none) :
    decryptInsurancePremiumAndUpdate J stub [tripArg, rPrimeArg] =
      .done (.error ("Invalid date format: " ++ ("failed to parse date: " ++ trip.Date)))
        (stub.put ("prime_" ++ res.TripID)
          (J.marshalPrime { TripID := res.TripID, Date := trip.Date, Prime := bigInt64 m })) ∧
    (∀ decryptor : Decryptor,
      stub.loads J.unmarshalDecryptor ("decryptor_" ++ veh.OwnerID) decryptor →
      decryptor.ComputeRPrime res.R = .ok rPrime →
      decryptInsurancePremiumAndUpdateWithoutParams J stub ["result_" ++ tripArg] =
        .done (.error ("Invalid date format: " ++ ("failed to parse date: " ++ trip.Date)))
          (stub.put ("prime_" ++ res.TripID)
            (J.marshalPrime
              { TripID := res.TripID, Date := trip.Date, Prime := bigInt64 m }))) ∧
    (∀ key, key ≠ "prime_" ++ res.TripID →
      (stub.put ("prime_" ++ res.TripID)
        (J.marshalPrime { TripID := res.TripID, Date := trip.Date, Prime := bigInt64 m })) key
        = stub key) ∧
    (∀ (stub0 stub1 : Store B) (args : List String) (msg : String),
      decryptInsurancePremiumAndUpdate J stub0 args = .done (.error msg) stub1 →
      stub1 = stub0 ∨
      ∃ (tripArg0 rPrimeArg0 : String) (rPrime0 : Int) (res0 : EncryptedCalculationResult)
          (trip0 : EncryptedTripData) (veh0 : EncryptedVehicleData) (verifier0 : Verifier)
          (m0 : Int),
        args = [tripArg0, rPrimeArg0] ∧ setString10 rPrimeArg0 = some rPrime0 ∧
        stub0.loads J.unmarshalResult ("result_" ++ tripArg0) res0 ∧
        stub0.loads J.unmarshalTrip ("trip_" ++ res0.TripID) trip0 ∧
        stub0.loads J.unmarshalVehicle ("vehicle_" ++ trip0.VehicleID) veh0 ∧
        stub0.loads J.unmarshalVerifier ("verifier_" ++ veh0.OwnerID) verifier0 ∧
        verifier0.VerifyAndDecrypt res0.PrimeTotale rPrime0 = .ok m0 ∧
        stub1 = stub0.put ("prime_" ++ res0.TripID) (J.marshalPrime
          { TripID := res0.TripID, Date := trip0.Date, Prime := bigInt64 m0 }) ∧
        ((sscanfYearMonth trip0.Date = none ∧
            msg = "Invalid date format: " ++ ("failed to parse date: " ++ trip0.Date)) ∨
          (∃ (year month : Int) (bytes : B),
            sscanfYearMonth trip0.Date = some (year, month) ∧
            stub0 (monthPrimeKeyOf trip0.VehicleID year month) = some bytes ∧
            J.unmarshalMonthPrime bytes = none ∧ msg = "Failed to unmarshal MonthPrime"))) ∧
    (∀ (stub0 stub1 : Store B) (args : List String) (msg : String),
      decryptInsurancePremiumAndUpdateWithoutParams J stub0 args = .done (.error msg) stub1 →
      stub1 = stub0 ∨
      ∃ (resultID0 : String) (rPrime0 : Int) (res0 : EncryptedCalculationResult)
          (trip0 : EncryptedTripData) (veh0 : EncryptedVehicleData) (verifier0 : Verifier)
          (decryptor0 : Decryptor) (m0 : Int),
        args = [resultID0] ∧
        stub0.loads J.unmarshalResult resultID0 res0 ∧
        stub0.loads J.unmarshalTrip ("trip_" ++ res0.TripID) trip0 ∧
        stub0.loads J.unmarshalVehicle ("vehicle_" ++ trip0.VehicleID) veh0 ∧
        stub0.loads J.unmarshalVerifier ("verifier_" ++ veh0.OwnerID) verifier0 ∧
        stub0.loads J.unmarshalDecryptor ("decryptor_" ++ veh0.OwnerID) decryptor0 ∧
        decryptor0.ComputeRPrime res0.R = .ok rPrime0 ∧
        verifier0.VerifyAndDecrypt res0.PrimeTotale rPrime0 = .ok m0 ∧
        stub1 = stub0.put ("prime_" ++ res0.TripID) (J.marshalPrime
          { TripID := res0.TripID, Date := trip0.Date, Prime := bigInt64 m0 }) ∧
        ((sscanfYearMonth trip0.Date = none ∧
            msg = "Invalid date format: " ++ ("failed to parse date: " ++ trip0.Date)) ∨
          (∃ (year month : Int) (bytes : B),
            sscanfYearMonth trip0.Date = some (year, month) ∧
            stub0 (monthPrimeKeyOf trip0.VehicleID year month) = some bytes ∧
            J.unmarshalMonthPrime bytes = none ∧
            msg = "Failed to unmarshal MonthPrime"))) ∧
    (∀ (rPrimeArg1 : String) (rPrime1 : Int) (emsg : String),
      setString10 rPrimeArg1 = some rPrime1 →
      verifier.VerifyAndDecrypt res.PrimeTotale rPrime1 = .error emsg →
      decryptInsurancePremiumAndUpdate J stub [tripArg, rPrimeArg1] =
        .done (.error ("Failed to decrypt prime: " ++ emsg)) stub) ∧
    (∀ (decryptor : Decryptor) (rPrime1 : Int) (emsg : String),
      stub.loads J.unmarshalDecryptor ("decryptor_" ++ veh.OwnerID) decryptor →
      decryptor.ComputeRPrime res.R = .ok rPrime1 →
      verifier.VerifyAndDecrypt res.PrimeTotale rPrime1 = .error emsg →
      decryptInsurancePremiumAndUpdateWithoutParams J stub ["result_" ++ tripArg] =
        .done (.error ("Failed to decrypt prime: " ++ emsg)) stub) := by
  have hend := storePrimeAndMonthPrime_bad_date J stub res trip (bigInt64 m) hdate
  obtain ⟨rb, hrb, hru⟩ := hr
  obtain ⟨tb, htb, htu⟩ := ht
  obtain ⟨xb, hxb, hxu⟩ := hx
  obtain ⟨vb, hvb, hvu⟩ := hv
  refine ⟨?_, ?_, ?_, ?_, ?_, ?_, ?_⟩
  · simp only [decryptInsurancePremiumAndUpdate, hparse, hrb, hru, htb, htu, hxb, hxu, hvb,
      hvu, hdec, hend]
  · intro decryptor hd hrp
    obtain ⟨db, hdb, hdu⟩ := hd
    simp only [decryptInsurancePremiumAndUpdateWithoutParams, hrb, hru, htb, htu, hxb, hxu,
      hvb, hvu, hdb, hdu, hrp, hdec, hend]
  · intro key hkey
    exact Store.put_other _ _ _ _ hkey
  · intro stub0 stub1 args msg hrun
    rcases decryptInsurancePremiumAndUpdate_error_inv J stub0 stub1 args msg hrun with
      h0 | ⟨tripArg0, rPrimeArg0, rPrime0, res0, trip0, veh0, verifier0, m0, ha, hp0, l1, l2,
        l3, l4, hd0, hs0⟩
    · exact Or.inl h0
    · obtain ⟨hst, hmsg⟩ := storePrimeAndMonthPrime_error_inv J stub0 stub1 res0 trip0 _ msg hs0
      exact Or.inr ⟨tripArg0, rPrimeArg0, rPrime0, res0, trip0, veh0, verifier0, m0, ha, hp0,
        l1, l2, l3, l4, hd0, hst, hmsg⟩
  · intro stub0 stub1 args msg hrun
    rcases decryptInsurancePremiumAndUpdateWithoutParams_error_inv J stub0 stub1 args msg
      hrun with
      h0 | ⟨resultID0, rPrime0, res0, trip0, veh0, verifier0, decryptor0, m0, ha, l1, l2, l3,
        l4, l5, hrp0, hd0, hs0⟩
    · exact Or.inl h0
    · obtain ⟨hst, hmsg⟩ := storePrimeAndMonthPrime_error_inv J stub0 stub1 res0 trip0 _ msg hs0
      exact Or.inr ⟨resultID0, rPrime0, res0, trip0, veh0, verifier0, decryptor0, m0, ha, l1,
        l2, l3, l4, l5, hrp0, hd0, hst, hmsg⟩
  · intro rPrimeArg1 rPrime1 emsg hparse1 hrej
    simp only [decryptInsurancePremiumAndUpdate, hparse1, hrb, hru, htb, htu, hxb, hxu, hvb,
      hvu, hrej]
  · intro decryptor rPrime1 emsg hd hrp hrej
    obtain ⟨db, hdb, hdu⟩ := hd
    simp only [decryptInsurancePremiumAndUpdateWithoutParams, hrb, hru, htb, htu, hxb, hxu,
      hvb, hvu, hdb, hdu, hrp, hrej]

/-- Instance of C30 on the small ledger with the trip date "eleventh of November": the
result of `trip1` decrypts to 7 with `r_prime = 2`, the `Prime` record is written and the
month record is not; with `r_prime = 3` the verification fails and nothing is written. -/
theorem partial_write_on_bad_date_witness :
    setString10 "2" = some 2 ∧
    badDateStore.loads assetJson.unmarshalResult ("result_" ++ "trip1") exampleResult ∧
    badDateStore.loads assetJson.unmarshalTrip ("trip_" ++ exampleResult.TripID) badDateTrip ∧
    badDateStore.loads assetJson.unmarshalVehicle ("vehicle_" ++ badDateTrip.VehicleID)
      exampleVehicle ∧
    badDateStore.loads assetJson.unmarshalVerifier ("verifier_" ++ exampleVehicle.OwnerID)
      exampleVerifier ∧
    exampleVerifier.VerifyAndDecrypt exampleResult.PrimeTotale 2 = .ok 7 ∧
    sscanfYearMonth badDateTrip.Date = none ∧
    decryptInsurancePremiumAndUpdate assetJson badDateStore ["trip1", "2"] =
      .done (.error ("Invalid date format: " ++
          ("failed to parse date: " ++ badDateTrip.Date)))
        (badDateStore.put ("prime_" ++ exampleResult.TripID)
          (assetJson.marshalPrime
            { TripID := exampleResult.TripID, Date := badDateTrip.Date, Prime := bigInt64 7 })) ∧
    (badDateStore.put ("prime_" ++ exampleResult.TripID)
      (assetJson.marshalPrime
        { TripID := exampleResult.TripID, Date := badDateTrip.Date, Prime := bigInt64 7 }))
      "monthprime_veh1_2024_11" = badDateStore "monthprime_veh1_2024_11" ∧
    decryptInsurancePremiumAndUpdate assetJson badDateStore ["trip1", "3"] =
      .done (.error ("Failed to decrypt prime: " ++ "Verification failed: rPrime is invalid"))
        badDateStore :=
  ⟨by decide, ⟨_, rfl, rfl⟩, ⟨_, rfl, rfl⟩, ⟨_, rfl, rfl⟩, ⟨_, rfl, rfl⟩, by decide, by decide,
    (partial_write_on_bad_date assetJson badDateStore "trip1" "2" 2 exampleResult badDateTrip
      exampleVehicle exampleVerifier 7 (by decide) ⟨_, rfl, rfl⟩ ⟨_, rfl, rfl⟩ ⟨_, rfl, rfl⟩
      ⟨_, rfl, rfl⟩ (by decide) (by decide)).1,
    (partial_write_on_bad_date assetJson badDateStore "trip1" "2" 2 exampleResult badDateTrip
      exampleVehicle exampleVerifier 7 (by decide) ⟨_, rfl, rfl⟩ ⟨_, rfl, rfl⟩ ⟨_, rfl, rfl⟩
      ⟨_, rfl, rfl⟩ (by decide) (by decide)).2.2.1 "monthprime_veh1_2024_11" (by decide),
    (partial_write_on_bad_date assetJson badDateStore "trip1" "2" 2 exampleResult badDateTrip
      exampleVehicle exampleVerifier 7 (by decide) ⟨_, rfl, rfl⟩ ⟨_, rfl, rfl⟩ ⟨_, rfl, rfl⟩
      ⟨_, rfl, rfl⟩ (by decide) (by decide)).2.2.2.2.2.1 "3" 3
      "Verification failed: rPrime is invalid" (by decide) (by decide)⟩

end SecureDrive
